import Mathlib

/-!
# The python plug-in bridge of FORCE (src/higher-level/py-plugin-hl.c)

A shallow embedding of `register_python`, `init_pyp`, `python_label_dimensions`
and `python_plugin`, together with the python text that `register_python`
installs in the interpreter (`forcepy_wrapper` and the three `forcepy_`
trampolines).

Conventions of the embedding.

* C `int` dimensions and counters are natural numbers; `short` and `int`
  payloads are integers (no arithmetic is done on them by the bridge).
* Memory that an allocator hands out without initialising it is a list of
  `Option`: `none` is a cell nobody has stored to yet.
* A C function that can leave through a diagnostic followed by the process
  ending is an `Outcome`: `ret` (normal return), `fatal` (diagnostic, process
  ends with FAILURE) or `undefined` (the C program has no defined behaviour:
  a null `FILE*` given to the runtime, a copy that leaves its buffer, the data
  pointer of something that is not an array, a null pointer that is read
  through).
* A python call that raises is `none`.
* Calls into the interpreter are recorded, in order, in a trace of `PyEvent`s.
-/

namespace Force

/-! ## Return codes, diagnostics, outcomes -/

/-- Modelled from the spec: the header that defines the function return codes
`SUCCESS`, `FAILURE` and `CANCEL` is not among the sources. Their numeric
values are not used, only their being different from one another. -/
inductive Status
  | SUCCESS
  | FAILURE
  | CANCEL
  deriving DecidableEq, Repr

/-- The diagnostics printed right before the process is ended. -/
inductive Diag
  /-- Text: unknown UDF type. -/
  | unknown_udf_type
  /-- Text: Python function NAME was not found. -/
  | fun_not_found (name : String)
  /-- Text: NULL returned from forcepy_init_. -/
  | null_from_init
  /-- Text: forcepy_init_ did not return a list. -/
  | not_a_list
  /-- Text: forcepy_init_ did not return a list of strings. -/
  | not_a_list_of_strings
  /-- Text: unknown submodule. -/
  | unknown_submodule
  /-- Text: NULL returned from python. -/
  | null_from_python
  /-- Text: cannot copy, string too long (printed by `copy_string`). -/
  | string_too_long
  deriving DecidableEq, Repr

/-- Ways in which the C program steps outside defined behaviour. -/
inductive Undef
  /-- A null `FILE*` was handed to `PyRun_SimpleFile`. -/
  | null_file_handle
  /-- A load or store outside the object pointed to. -/
  | out_of_bounds
  /-- The array data pointer of an object that is no array was taken. -/
  | not_an_array
  /-- A null pointer was dereferenced. -/
  | null_pointer
  deriving DecidableEq, Repr

/-- Result of running a piece of C. -/
inductive Outcome (α : Type)
  | ret (a : α)
  | fatal (d : Diag)
  | undefined (u : Undef)
  deriving DecidableEq, Repr

/-- Sequencing of C statements: the second runs only if the first returns. -/
def Outcome.bind {α β : Type} (x : Outcome α) (f : α → Outcome β) : Outcome β :=
  match x with
  | Outcome.ret a => f a
  | Outcome.fatal d => Outcome.fatal d
  | Outcome.undefined u => Outcome.undefined u

instance : Monad Outcome where
  pure := Outcome.ret
  bind := Outcome.bind

/-- The C loop `for (i=0; i<n; i++) body`, stopping at the first iteration
that does not return. -/
def for_upto {σ : Type} (body : Nat → σ → Outcome σ) : Nat → σ → Outcome σ
  | 0, s => Outcome.ret s
  | n + 1, s =>
    (for_upto body n s).bind (body n)

/-- The python loop `for i in range(n): body`, stopping at the first
iteration that raises. -/
def py_for {σ : Type} (body : Nat → σ → Option σ) : Nat → σ → Option σ
  | 0, s => some s
  | n + 1, s =>
    match py_for body n s with
    | some s1 => body n s1
    | none => none

/-! ## Host data -/

/-- Modelled from the spec: the header that defines the source selectors
`_HL_PLG_` (raster source) and `_HL_TSA_` (series source) is not among the
sources. The code only compares `int submodule` with these two constants;
every other value is `other`. -/
inductive Submodule
  | _HL_PLG_
  | _HL_TSA_
  | other (code : Int)
  deriving DecidableEq, Repr

/-- Modelled from the spec: the header that defines the UDF types
`_UDF_PIXEL_` and `_UDF_BLOCK_` is not among the sources. The code only
compares `udf->type` with these two constants; every other value is
`other`. -/
inductive UdfType
  | _UDF_PIXEL_
  | _UDF_BLOCK_
  | other (code : Int)
  deriving DecidableEq, Repr

/-- Modelled from the spec: the header that defines `NPOW_04`, the width in
bytes of a sensor field, is not among the sources, and the spec gives the
width only as a small fixed bound. The value is the one the name states, two
to the power four; the source stores the five characters of BLEND and a
terminating zero in such a field. -/
def NPOW_04 : Nat := 16

/-- Modelled from the spec: the header that defines `NPOW_10`, the width in
bytes of a band name field, is not among the sources, and the spec gives the
width only as a longer fixed bound. The value is the one the name states, two
to the power ten. -/
def NPOW_10 : Nat := 1024

/-- Calendar date (`date_t`), the three fields the bridge reads. -/
structure date_t where
  year : Int
  month : Int
  day : Int
  deriving DecidableEq, Repr

/-- Metadata of a brick as read through `get_brick_date`,
`get_brick_sensor` and `get_brick_bandname`, each by band index. -/
structure brick_t where
  date : Nat → date_t
  sensor : Nat → String
  bandname : Nat → String

/-- One analysis-ready dataset (`ard_t`): its brick and its bands of
`short`. -/
structure ard_t where
  DAT : brick_t
  dat : List (List Int)

/-- Time series arrays (`tsa_t`): the dates and the interpolated series
(`tsi_`, one band of `short` per time step) and the UDF output bands (`pyp_`,
`none` for the null pointer). -/
structure tsa_t where
  d_tsi : List date_t
  tsi_ : List (List Int)
  pyp_ : Option (List (List Int))
  deriving DecidableEq, Repr

/-- Plug-in arrays (`plg_t`): the UDF output bands, `none` for the null
pointer. -/
structure plg_t where
  pyp_ : Option (List (List Int))
  deriving DecidableEq, Repr

/-- UDF descriptor (`par_udf_t`). -/
structure par_udf_t where
  out : Bool
  type : UdfType
  justintime : Bool
  f_code : String
  nb : Nat
  bandname : Option (List (Option String))
  deriving DecidableEq, Repr

/-- Time series parameters, the part read here. -/
structure par_tsa_t where
  pyp : par_udf_t

/-- Plug-in parameters, the part read here. -/
structure par_plg_t where
  pyp : par_udf_t

/-- Higher-level parameters (`par_hl_t`), the part read here. -/
structure par_hl_t where
  tsa : par_tsa_t
  plg : par_plg_t

/-- Modelled from the spec: `copy_string(dst, size, src)` is defined outside
this file. A source that does not fit the destination together with its
terminating zero is rejected with a diagnostic and the process ends; one that
fits is stored unchanged. The result is the content of `dst`. -/
def copy_string (size : Nat) (src : String) : Outcome String :=
  if src.utf8ByteSize + 1 ≤ size then Outcome.ret src
  else Outcome.fatal Diag.string_too_long

/-- Modelled from the spec: `get_brick_date(brick, b)` is defined outside this
file; it reads the date of band `b`. -/
def get_brick_date (brick : brick_t) (b : Nat) : date_t := brick.date b

/-- Modelled from the spec: `get_brick_sensor(brick, b, dst, size)` is defined
outside this file; it copies the sensor of band `b` into `dst`. -/
def get_brick_sensor (brick : brick_t) (b : Nat) (size : Nat) : Outcome String :=
  copy_string size (brick.sensor b)

/-- Modelled from the spec: `get_brick_bandname(brick, b, dst, size)` is
defined outside this file; it copies the name of band `b` into `dst`. -/
def get_brick_bandname (brick : brick_t) (b : Nat) (size : Nat) : Outcome String :=
  copy_string size (brick.bandname b)

/-! ## Interpreter-side data -/

/-- Element types of the arrays that occur: `np.int16` and the platform
integer that numpy picks for a python `int` when no type is asked for. -/
inductive DType
  | int16
  | int64
  deriving DecidableEq, Repr

/-- Conversion of an integer to a signed two's complement value of `bits`
bits. -/
def wrap_signed (bits : Nat) (v : Int) : Int :=
  (v + 2 ^ (bits - 1)) % 2 ^ bits - 2 ^ (bits - 1)

/-- Value stored when `v` is assigned to an element of the given type. -/
def DType.cast : DType → Int → Int
  | DType.int16, v => wrap_signed 16 v
  | DType.int64, v => wrap_signed 64 v

/-- A C-contiguous array: element type, shape and the elements in row-major
order. -/
structure NdArray (α : Type) where
  dtype : DType
  shape : List Nat
  data : List α
  deriving DecidableEq, Repr

/-- Element `[b, y, x]` of a three-dimensional array. -/
def NdArray.get3 {α : Type} (a : NdArray α) (b y x : Nat) : Option α :=
  match a.shape with
  | [_, ny, nx] => a.data[(b * ny + y) * nx + x]?
  | _ => none

/-- Element `[b][p]` of a host array of bands. -/
def get2 (bands : List (List Int)) (b p : Nat) : Option Int :=
  match bands[b]? with
  | some band => band[p]?
  | none => none

/-- The call `np.full(shape, fill_value, dtype)`. -/
def np_full (shape : List Nat) (fill_value : Int) (dtype : DType) : NdArray Int :=
  { dtype := dtype, shape := shape,
    data := List.replicate shape.prod (dtype.cast fill_value) }

/-- The call `np.full(shape, fill_value)` with a python `int` as fill value:
no element type is asked for, so the array gets the platform integer. -/
def np_full_default (shape : List Nat) (fill_value : Int) : NdArray Int :=
  np_full shape fill_value DType.int64

/-- The 16-bit words of one 64-bit element, lowest first (the byte order of
the machines the host runs on). -/
def le_words64 (v : Int) : List Int :=
  [wrap_signed 16 v, wrap_signed 16 (v / 2 ^ 16), wrap_signed 16 (v / 2 ^ 32),
   wrap_signed 16 (v / 2 ^ 48)]

/-- What `(short*)PyArray_DATA(a)` points to: the storage of the array read
as consecutive `short`s. -/
def NdArray.shorts (a : NdArray Int) : List Int :=
  match a.dtype with
  | DType.int16 => a.data
  | DType.int64 => a.data.flatMap le_words64

/-- Python values that cross the bridge. -/
inductive PyObject
  | None
  | long (v : Int)
  | str (s : String)
  | list (xs : List PyObject)
  | ndarray (a : NdArray Int)

/-- Dimension labels (`py_dimlab_t`): the five label arrays. An entry is
`none` until it is stored to. -/
structure py_dimlab_t where
  dim_nt : Nat
  dim_nb : Nat
  year : List (Option Int)
  month : List (Option Int)
  day : List (Option Int)
  sensor : List (Option String)
  bandname : List (Option String)
  deriving DecidableEq, Repr

/-! ## python_label_dimensions -/

/-- Store through a pointer into an array of `xs.length` entries. -/
def store {α : Type} (xs : List (Option α)) (i : Nat) (v : α) : Outcome (List (Option α)) :=
  if i < xs.length then Outcome.ret (xs.set i (some v))
  else Outcome.undefined Undef.out_of_bounds

/-- The label arrays under construction and the two moving pointers
`sensor_` and `bandname_`, counted in entries. -/
structure LabelState where
  pylab : py_dimlab_t
  sensor_ : Nat
  bandname_ : Nat
  deriving DecidableEq, Repr

/-- Body of the time loop of the raster source (`submodule == _HL_PLG_`). -/
def label_plg_time (ard : List ard_t) (t : Nat) (st : LabelState) : Outcome LabelState :=
  match ard[t]? with
  | none => Outcome.undefined Undef.out_of_bounds
  | some a => do
    let date := get_brick_date a.DAT 0
    let year ← store st.pylab.year t date.year
    let month ← store st.pylab.month t date.month
    let day ← store st.pylab.day t date.day
    let sensor ← get_brick_sensor a.DAT 0 NPOW_04
    let copied ← copy_string NPOW_04 sensor
    let sens ← store st.pylab.sensor st.sensor_ copied
    pure { st with
      pylab := { st.pylab with year := year, month := month, day := day, sensor := sens },
      sensor_ := st.sensor_ + 1 }

/-- Body of the band loop of the raster source. -/
def label_plg_band (ard : List ard_t) (b : Nat) (st : LabelState) : Outcome LabelState :=
  match ard[0]? with
  | none => Outcome.undefined Undef.out_of_bounds
  | some a => do
    let bandname ← get_brick_bandname a.DAT b NPOW_10
    let copied ← copy_string NPOW_10 bandname
    let names ← store st.pylab.bandname st.bandname_ copied
    pure { st with
      pylab := { st.pylab with bandname := names },
      bandname_ := st.bandname_ + 1 }

/-- Body of the time loop of the series source (`submodule == _HL_TSA_`). -/
def label_tsa_time (ts : tsa_t) (t : Nat) (st : LabelState) : Outcome LabelState :=
  match ts.d_tsi[t]? with
  | none => Outcome.undefined Undef.out_of_bounds
  | some d => do
    let year ← store st.pylab.year t d.year
    let month ← store st.pylab.month t d.month
    let day ← store st.pylab.day t d.day
    let copied ← copy_string NPOW_04 "BLEND"
    let sens ← store st.pylab.sensor st.sensor_ copied
    pure { st with
      pylab := { st.pylab with year := year, month := month, day := day, sensor := sens },
      sensor_ := st.sensor_ + 1 }

/-- The five freshly created label arrays: `nt` entries for year, month, day
and sensor, `nb` entries for the band names, none of them stored to. -/
def new_labels (nb nt : Nat) : py_dimlab_t :=
  { dim_nt := nt, dim_nb := nb,
    year := List.replicate nt none,
    month := List.replicate nt none,
    day := List.replicate nt none,
    sensor := List.replicate nt none,
    bandname := List.replicate nb none }

/-- The function `python_label_dimensions`. -/
def python_label_dimensions (ard : List ard_t) (ts : tsa_t) (submodule : Submodule)
    (idx_name : String) (nb nt : Nat) (_udf : par_udf_t) : Outcome py_dimlab_t :=
  let st0 : LabelState := { pylab := new_labels nb nt, sensor_ := 0, bandname_ := 0 }
  match submodule with
  | Submodule._HL_PLG_ => do
    let st1 ← for_upto (label_plg_time ard) nt st0
    let st2 ← for_upto (label_plg_band ard) nb st1
    pure st2.pylab
  | Submodule._HL_TSA_ => do
    let st1 ← for_upto (label_tsa_time ts) nt st0
    let copied ← copy_string NPOW_10 idx_name
    let names ← store st1.pylab.bandname st1.bandname_ copied
    pure { st1.pylab with bandname := names }
  | Submodule.other _ => Outcome.fatal Diag.unknown_submodule

/-! ## The interpreter: user functions, globals, events -/

/-- Arguments of the user function `forcepy_pixel(inarray, outarray, date,
sensor, bandname, nodata, nproc)`. -/
structure PixelArgs where
  inarray : NdArray (Option Int)
  outarray : NdArray Int
  date : List Int
  sensor : List (Option String)
  bandname : List (Option String)
  nodata : Int
  nproc : Int

/-- A user pixel function. It has no return value; its effect is the
sequence of element assignments `outarray[k] = v` it performs, or `none` if it
raises. -/
abbrev PixelFn := PixelArgs → Option (List (Nat × Int))

/-- Arguments of the user function `forcepy_block(iblock, oblock, date,
sensor, bandname, nodata, nproc)`. -/
structure BlockArgs where
  iblock : NdArray (Option Int)
  oblock : NdArray Int
  date : List Int
  sensor : List (Option String)
  bandname : List (Option String)
  nodata : Int
  nproc : Int

/-- A user block function. Its effect is the sequence of element assignments
`oblock[k, y, x] = v` it performs, or `none` if it raises. -/
abbrev BlockFn := BlockArgs → Option (List ((Nat × Nat × Nat) × Int))

/-- Arguments of the user function `forcepy_init(date, sensor, bandname)`. -/
structure InitArgs where
  date : List Int
  sensor : List (Option String)
  bandname : List (Option String)

/-- A user initialiser: the value it returns, or `none` if it raises. -/
abbrev InitFn := InitArgs → Option PyObject

/-- Arguments with which `python_plugin` calls `forcepy_`. -/
structure ForcepyArgs where
  iblock : NdArray (Option Int)
  year : List (Option Int)
  month : List (Option Int)
  day : List (Option Int)
  sensor : List (Option String)
  bandname : List (Option String)
  nodata : Int
  nband : Nat
  nproc : Int

/-- The three definitions of `forcepy_` that `register_python` can install. -/
inductive Trampoline
  | pooled
  | jit
  | block
  deriving DecidableEq, Repr

/-- What the name `forcepy_` is bound to: one of the installed trampolines,
or a function of that name defined by the user script. -/
inductive ForcepyDef
  | installed (t : Trampoline)
  | user (f : ForcepyArgs → Option PyObject)

/-- What the name `forcepy_init_` is bound to: the installed wrapper, or a
function of that name defined by the user script. -/
inductive InitDef
  | installed
  | user (f : py_dimlab_t → Option PyObject)

/-- The names of the `__main__` module that the bridge and the installed
python text look up. -/
structure Globals where
  forcepy_ : Option ForcepyDef
  forcepy_init_ : Option InitDef
  forcepy_init : Option InitFn
  forcepy_pixel : Option PixelFn
  forcepy_block : Option BlockFn

/-- The empty `__main__` module. -/
def Globals.empty : Globals :=
  { forcepy_ := none, forcepy_init_ := none, forcepy_init := none,
    forcepy_pixel := none, forcepy_block := none }

/-- What lies outside the program: the file system and the libraries.
`fopen path` is `none` if the file cannot be opened, else the effect that
running its text has on the globals. `date2epoch` is what the installed
`forcepy_date2epoch` computes (`none` if it raises). `numba_threads` is the
largest argument `set_num_threads` accepts. -/
structure PyEnv where
  fopen : String → Option (Globals → Globals)
  date2epoch : List (Option Int) → List (Option Int) → List (Option Int) → Option (List Int)
  numba_threads : Nat

/-- The python texts that `register_python` runs, in the order of the
source. -/
inductive BootCode
  | import_Pool
  | import_numpy
  | import_numba
  | import_Date
  | import_traceback
  | def_init
  | call_init
  | def_forcepy_wrapper
  | def_forcepy_date2epoch
  | def_forcepy_init_
  | def_forcepy_ (t : Trampoline)
  deriving DecidableEq, Repr

/-- The numpy type numbers the bridge asks for. -/
inductive NpyType
  | NPY_INT
  | NPY_INT16
  deriving DecidableEq, Repr

/-- Calls into the interpreter and the C library that the bridge makes. -/
inductive PyEvent
  | Py_Initialize
  | import_array
  | PyRun_SimpleString (code : BootCode)
  | PyImport_AddModule
  | PyModule_GetDict
  | PyArray_SimpleNew (dims : List Nat) (type : NpyType)
  | PyArray_DescrNewFromType (elsize : Nat)
  | PyArray_SimpleNewFromDescr (dims : List Nat) (elsize : Nat)
  | fopen (path : String) (opened : Bool)
  | PyRun_SimpleFile (fp_is_null : Bool) (path : String)
  | PyDict_GetItemString (key : String)
  | PyLong_FromLong (v : Int)
  | PyObject_CallFunctionObjArgs (name : String)
  | Py_DECREF
  | fclose
  deriving DecidableEq, Repr

/-- The interpreter calls of `python_label_dimensions`: three integer arrays
of `nt` entries, then the sensor and band name arrays with their
descriptors. -/
def python_label_dimensions_events (nb nt : Nat) : List PyEvent :=
  [PyEvent.PyArray_SimpleNew [nt] NpyType.NPY_INT,
   PyEvent.PyArray_SimpleNew [nt] NpyType.NPY_INT,
   PyEvent.PyArray_SimpleNew [nt] NpyType.NPY_INT,
   PyEvent.PyArray_DescrNewFromType NPOW_04,
   PyEvent.PyArray_SimpleNewFromDescr [nt] NPOW_04,
   PyEvent.PyArray_DescrNewFromType NPOW_10,
   PyEvent.PyArray_SimpleNewFromDescr [nb] NPOW_10]

/-! ## The python text installed by register_python -/

/-- Assignment `a[k] = v` to a one-dimensional array; `none` is python's
IndexError. -/
def setitem1 (a : NdArray Int) (k : Nat) (v : Int) : Option (NdArray Int) :=
  match a.shape with
  | [n] => if k < n then some { a with data := a.data.set k (a.dtype.cast v) } else none
  | _ => none

/-- Assignment `a[k, y, x] = v` to a three-dimensional array; `none` is
python's IndexError. -/
def setitem3 (a : NdArray Int) (k y x : Nat) (v : Int) : Option (NdArray Int) :=
  match a.shape with
  | [n, ny, nx] =>
    if k < n ∧ y < ny ∧ x < nx then
      some { a with data := a.data.set ((k * ny + y) * nx + x) (a.dtype.cast v) }
    else none
  | _ => none

/-- The assignments of a user pixel function, done in order on a
one-dimensional `outarray`. -/
def apply_writes1 : NdArray Int → List (Nat × Int) → Option (NdArray Int)
  | a, [] => some a
  | a, (k, v) :: ws =>
    match setitem1 a k v with
    | some a1 => apply_writes1 a1 ws
    | none => none

/-- The assignments of a user block function, done in order on `oblock`. -/
def apply_writes3 : NdArray Int → List ((Nat × Nat × Nat) × Int) → Option (NdArray Int)
  | a, [] => some a
  | a, ((k, y, x), v) :: ws =>
    match setitem3 a k y x v with
    | some a1 => apply_writes3 a1 ws
    | none => none

/-- The assignments of a user pixel function, done in order through the view
`outblock[:, y, x]`. -/
def apply_writes_col : NdArray Int → Nat → Nat → List (Nat × Int) → Option (NdArray Int)
  | a, _, _, [] => some a
  | a, y, x, (k, v) :: ws =>
    match setitem3 a k y x v with
    | some a1 => apply_writes_col a1 y x ws
    | none => none

/-- The view `a[:, y, x]` of a three-dimensional array, as a one-dimensional
array. -/
def getcol (a : NdArray Int) (y x : Nat) : NdArray Int :=
  match a.shape with
  | [n, ny, nx] =>
    { dtype := a.dtype, shape := [n],
      data := (List.range n).map fun k => a.data.getD ((k * ny + y) * nx + x) 0 }
  | _ => a

/-- The slice `a[:, :, y0:y1, x0:x1]` of a four-dimensional array, for
bounds inside the array. -/
def slice4 (a : NdArray (Option Int)) (y0 y1 x0 x1 : Nat) : NdArray (Option Int) :=
  match a.shape with
  | [nt, nb, ny, nx] =>
    { dtype := a.dtype, shape := [nt, nb, y1 - y0, x1 - x0],
      data := (List.range nt).flatMap fun t => (List.range nb).flatMap fun b =>
        (List.range' y0 (y1 - y0)).flatMap fun y => (List.range' x0 (x1 - x0)).map fun x =>
          (a.data[((t * nb + b) * ny + y) * nx + x]?).join }
  | _ => a

/-- The tuple `args` that `forcepy_wrapper` unpacks. -/
structure WrapperArgs where
  forcepy_udf : PixelFn
  inarray : NdArray (Option Int)
  nband : Nat
  date : List Int
  sensor : List (Option String)
  bandname : List (Option String)
  nodata : Int
  nproc : Int

/-- The installed python function `forcepy_wrapper(args)`. -/
def forcepy_wrapper (args : WrapperArgs) : Option (NdArray Int) :=
  let outarray := np_full [args.nband] args.nodata DType.int16
  match args.forcepy_udf
      { inarray := args.inarray, outarray := outarray, date := args.date,
        sensor := args.sensor, bandname := args.bandname, nodata := args.nodata,
        nproc := args.nproc } with
  | none => none
  | some ws => apply_writes1 outarray ws

/-- The call `pool.map(func, iterable)`: the results in the order of the
tasks, or the exception of a task that raised. -/
def pool_map {α β : Type} (func : α → Option β) : List α → Option (List β)
  | [] => some []
  | a :: rest =>
    match func a with
    | none => none
    | some b =>
      match pool_map func rest with
      | none => none
      | some bs => some (b :: bs)

/-- The task built for pixel `(yi, xi)` in the pooled trampoline. -/
def pooled_task (px : PixelFn) (a : ForcepyArgs) (date : List Int) (yi xi : Nat) : WrapperArgs :=
  { forcepy_udf := px, inarray := slice4 a.iblock yi (yi + 1) xi (xi + 1),
    nband := a.nband, date := date, sensor := a.sensor, bandname := a.bandname,
    nodata := a.nodata, nproc := 1 }

/-- The list `argss` of the pooled trampoline: rows outside, columns
inside. -/
def pooled_tasks (px : PixelFn) (a : ForcepyArgs) (date : List Int) (nY nX : Nat) :
    List WrapperArgs :=
  (List.range nY).flatMap fun yi => (List.range nX).map fun xi => pooled_task px a date yi xi

/-- The loops of the pooled trampoline that build `argss`. The name
`forcepy_pixel` is looked up when a task is built, so on a block without
pixels it is not looked up at all; `none` is python's NameError. -/
def pooled_argss (g : Globals) (a : ForcepyArgs) (date : List Int) (nY nX : Nat) :
    Option (List WrapperArgs) :=
  match g.forcepy_pixel with
  | some px => some (pooled_tasks px a date nY nX)
  | none => if nY * nX = 0 then some [] else none

/-- The assignment `oblock[:, yi, xi] = r` for a one-dimensional `r` with as
many entries as `oblock` has bands. -/
def setcol (oblock : NdArray Int) (yi xi : Nat) (r : NdArray Int) : Option (NdArray Int) :=
  match oblock.shape with
  | [n, _, _] =>
    if r.shape = [n] then
      py_for (fun k ob =>
        match r.data[k]? with
        | some v => setitem3 ob k yi xi v
        | none => none) n oblock
    else none
  | _ => none

/-- State of the reassembly loops of the pooled trampoline. -/
structure Reassembly where
  oblock : NdArray Int
  i : Nat

/-- The reassembly loops of the pooled trampoline. -/
def pooled_reassemble (res : List (NdArray Int)) (nY nX : Nat) (oblock : NdArray Int) :
    Option Reassembly :=
  py_for (fun yi st =>
    py_for (fun xi st =>
      match res[st.i]? with
      | none => none
      | some r =>
        match setcol st.oblock yi xi r with
        | none => none
        | some ob => some { oblock := ob, i := st.i + 1 }) nX st) nY
    { oblock := oblock, i := 0 }

/-- The body of the `try` of the pooled trampoline; `none` if it raises. -/
def forcepy_pooled_try (env : PyEnv) (g : Globals) (a : ForcepyArgs) : Option (NdArray Int) :=
  match a.iblock.shape with
  | [_, _, nY, nX] =>
    if a.nproc < 1 then none
    else
      match env.date2epoch a.year a.month a.day with
      | none => none
      | some date =>
        match pooled_argss g a date nY nX with
        | none => none
        | some argss =>
          match pool_map forcepy_wrapper argss with
          | none => none
          | some res =>
            match pooled_reassemble res nY nX
                (np_full [a.nband, nY, nX] a.nodata DType.int16) with
            | none => none
            | some st => some st.oblock
  | _ => none

/-- The pooled trampoline `forcepy_` (pixel type, not just in time). What
the `try` raises is turned into the python value `None`. -/
def forcepy_pooled (env : PyEnv) (g : Globals) (a : ForcepyArgs) : Option PyObject :=
  match forcepy_pooled_try env g a with
  | some oblock => some (PyObject.ndarray oblock)
  | none => some PyObject.None

/-- The body of the `try` of the whole-block trampoline; `none` if it
raises. -/
def forcepy_block_try (env : PyEnv) (g : Globals) (a : ForcepyArgs) : Option (NdArray Int) :=
  match a.iblock.shape with
  | [_, _, nY, nX] =>
    match env.date2epoch a.year a.month a.day with
    | none => none
    | some date =>
      let oblock := np_full [a.nband, nY, nX] a.nodata DType.int16
      match g.forcepy_block with
      | none => none
      | some fb =>
        match fb { iblock := a.iblock, oblock := oblock, date := date, sensor := a.sensor,
                   bandname := a.bandname, nodata := a.nodata, nproc := a.nproc } with
        | none => none
        | some ws => apply_writes3 oblock ws
  | _ => none

/-- The whole-block trampoline `forcepy_` (block type). What the `try`
raises is turned into the python value `None`. -/
def forcepy_block (env : PyEnv) (g : Globals) (a : ForcepyArgs) : Option PyObject :=
  match forcepy_block_try env g a with
  | some oblock => some (PyObject.ndarray oblock)
  | none => some PyObject.None

/-- How a python function came to be defined: by a plain `def`, or compiled
by numba through the decorator `@jit`. -/
inductive FunKind
  | plain
  | jitted
  deriving DecidableEq, Repr

/-- How `register_python` defines `forcepy_date2epoch`: by a plain `def`,
without a decorator. -/
def forcepy_date2epoch_kind : FunKind := FunKind.plain

/-- Type inference of numba in nopython mode for a global function that the
function being compiled calls: a function compiled by numba has a type, a
plain python function has none and the compilation raises (`none`). -/
def numba_typeof_global (k : FunKind) : Option Unit :=
  match k with
  | FunKind.jitted => some ()
  | FunKind.plain => none

/-- The statements of the just-in-time trampoline, in the order of its text.
The buffer is `[0, 0, 0, 0]`; the result block is created without an element
type. -/
def forcepy_jit_body (env : PyEnv) (g : Globals) (a : ForcepyArgs) : Option PyObject :=
  if a.nproc < 1 ∨ (env.numba_threads : Int) < a.nproc then none
  else
    match env.date2epoch a.year a.month a.day with
    | none => none
    | some date =>
      match a.iblock.shape with
      | [_, _, nY, nX] =>
        let outblock := np_full_default [a.nband, nY, nX] a.nodata
        match g.forcepy_pixel with
        | none => none
        | some px =>
          match py_for (fun iYX ob =>
              let iX := iYX % nX
              let iY := iYX / nX
              let inarray := slice4 a.iblock (iY - 0) (iY + 0 + 1) (iX - 0) (iX + 0 + 1)
              let outarray := getcol ob iY iX
              match px { inarray := inarray, outarray := outarray, date := date,
                         sensor := a.sensor, bandname := a.bandname, nodata := a.nodata,
                         nproc := 1 } with
              | none => none
              | some ws => apply_writes_col ob iY iX ws) (nY * nX) outblock with
          | none => none
          | some ob => some (PyObject.ndarray ob)
      | _ => none

/-- The just-in-time trampoline `forcepy_` (pixel type, just in time),
defined under `@jit(nopython=True, nogil=True, parallel=True)`. Numba compiles
it when it is called. Its text calls the global `forcepy_date2epoch`, which
has to be typed for the compilation to succeed; `register_python` defines that
function by a plain `def`, so the compilation raises and the statements of the
trampoline do not run. It has no `try`: what it raises reaches the caller,
which sees NULL. -/
def forcepy_jit (env : PyEnv) (g : Globals) (a : ForcepyArgs) : Option PyObject :=
  match numba_typeof_global forcepy_date2epoch_kind with
  | none => none
  | some _ => forcepy_jit_body env g a

/-- A call of whatever `forcepy_` is bound to; `none` is the NULL that
`PyObject_CallFunctionObjArgs` gives back when the call raised. -/
def call_forcepy_ (env : PyEnv) (g : Globals) (f : ForcepyDef) (a : ForcepyArgs) :
    Option PyObject :=
  match f with
  | ForcepyDef.installed Trampoline.pooled => forcepy_pooled env g a
  | ForcepyDef.installed Trampoline.jit => forcepy_jit env g a
  | ForcepyDef.installed Trampoline.block => forcepy_block env g a
  | ForcepyDef.user f => f a

/-- The installed python function `forcepy_init_(year, month, day, sensor,
bandname)`. -/
def forcepy_init_ (env : PyEnv) (g : Globals) (pylab : py_dimlab_t) : Option PyObject :=
  match env.date2epoch pylab.year pylab.month pylab.day with
  | none => none
  | some date =>
    match g.forcepy_init with
    | none => none
    | some fi => fi { date := date, sensor := pylab.sensor, bandname := pylab.bandname }

/-- A call of whatever `forcepy_init_` is bound to; `none` is NULL. -/
def call_forcepy_init_ (env : PyEnv) (g : Globals) (f : InitDef) (pylab : py_dimlab_t) :
    Option PyObject :=
  match f with
  | InitDef.installed => forcepy_init_ env g pylab
  | InitDef.user f => f pylab

/-! ## register_python -/

/-- The descriptor that `register_python` (and `deregister_python`) works on:
the one of the time series submodule if that has a UDF, else the one of the
plug-in submodule if that has a UDF, else none. -/
def selected_udf (phl : par_hl_t) : Option par_udf_t :=
  if phl.tsa.pyp.out = true then some phl.tsa.pyp
  else if phl.plg.pyp.out = true then some phl.plg.pyp
  else none

/-- The calls of `register_python` that do not depend on the UDF type. -/
def register_python_boot : List PyEvent :=
  [PyEvent.Py_Initialize, PyEvent.import_array,
   PyEvent.PyRun_SimpleString BootCode.import_Pool,
   PyEvent.PyRun_SimpleString BootCode.import_numpy,
   PyEvent.PyRun_SimpleString BootCode.import_numba,
   PyEvent.PyRun_SimpleString BootCode.import_Date,
   PyEvent.PyRun_SimpleString BootCode.import_traceback,
   PyEvent.PyRun_SimpleString BootCode.def_init,
   PyEvent.PyRun_SimpleString BootCode.call_init,
   PyEvent.PyRun_SimpleString BootCode.def_forcepy_wrapper,
   PyEvent.PyRun_SimpleString BootCode.def_forcepy_date2epoch,
   PyEvent.PyRun_SimpleString BootCode.def_forcepy_init_]

/-- What `register_python` leaves behind. -/
structure RegisterResult where
  outcome : Outcome Unit
  trace : List PyEvent
  g : Globals

/-- The function `register_python`. -/
def register_python (phl : par_hl_t) (g : Globals) : RegisterResult :=
  match selected_udf phl with
  | none => { outcome := Outcome.ret (), trace := [], g := g }
  | some udf =>
    let g1 : Globals := { g with forcepy_init_ := some InitDef.installed }
    if udf.type = UdfType._UDF_PIXEL_ ∧ udf.justintime = false then
      { outcome := Outcome.ret (),
        trace := register_python_boot ++
          [PyEvent.PyRun_SimpleString (BootCode.def_forcepy_ Trampoline.pooled)],
        g := { g1 with forcepy_ := some (ForcepyDef.installed Trampoline.pooled) } }
    else if udf.type = UdfType._UDF_PIXEL_ ∧ udf.justintime = true then
      { outcome := Outcome.ret (),
        trace := register_python_boot ++
          [PyEvent.PyRun_SimpleString (BootCode.def_forcepy_ Trampoline.jit)],
        g := { g1 with forcepy_ := some (ForcepyDef.installed Trampoline.jit) } }
    else if udf.type = UdfType._UDF_BLOCK_ then
      { outcome := Outcome.ret (),
        trace := register_python_boot ++
          [PyEvent.PyRun_SimpleString (BootCode.def_forcepy_ Trampoline.block)],
        g := { g1 with forcepy_ := some (ForcepyDef.installed Trampoline.block) } }
    else
      { outcome := Outcome.fatal Diag.unknown_udf_type, trace := register_python_boot, g := g1 }

/-- The definitions of `forcepy_` among the python texts of a trace. -/
def forcepy_definitions : List PyEvent → List Trampoline
  | [] => []
  | PyEvent.PyRun_SimpleString (BootCode.def_forcepy_ t) :: rest => t :: forcepy_definitions rest
  | _ :: rest => forcepy_definitions rest

/-- The trampoline that `forcepy_` is bound to, if it is bound to one. -/
def installed_trampoline (g : Globals) : Option Trampoline :=
  match g.forcepy_ with
  | some (ForcepyDef.installed t) => some t
  | _ => none

/-! ## init_pyp -/

/-- The call `PyUnicode_AsEncodedString(o, UTF-8, strict)`: the encoded text
of a `str`, NULL for anything else. -/
def PyUnicode_AsEncodedString (o : Option PyObject) : Option String :=
  match o with
  | some (PyObject.str s) => some s
  | _ => none

/-- The C string that a `char*` to the encoded text of `s` denotes: the text
up to the first zero byte. In UTF-8 only the character with code 0 is encoded
with a zero byte. -/
def c_string (s : String) : String :=
  String.mk (s.data.takeWhile fun c => c != Char.ofNat 0)

/-- The call `PyBytes_AsString(o)`. It reads the type of its argument without
testing the pointer, so given NULL it reads through a null pointer. Given a
bytes object it returns the pointer to its buffer, here the C string found
there. Its NULL result, which is for an object that is no bytes object, does
not occur for what `PyUnicode_AsEncodedString` returns. -/
def PyBytes_AsString (o : Option String) : Outcome (Option String) :=
  match o with
  | none => Outcome.undefined Undef.null_pointer
  | some s => Outcome.ret (some (c_string s))

/-- Body of the band name loop of `init_pyp`. The result of
`PyUnicode_AsEncodedString` is handed to `PyBytes_AsString` untested; the test
for NULL is on the result of `PyBytes_AsString`. The buffer is read by
`copy_string` after `Py_DECREF(py_encoded)`; the bytes are taken to be still
there. -/
def init_band (xs : List PyObject) (b : Nat) (udf : par_udf_t) : Outcome par_udf_t :=
  let py_bandname := xs[b]?
  let py_encoded := PyUnicode_AsEncodedString py_bandname
  (PyBytes_AsString py_encoded).bind fun r =>
    match r with
    | none => Outcome.fatal Diag.not_a_list_of_strings
    | some bandname =>
      match udf.bandname with
      | none => Outcome.undefined Undef.out_of_bounds
      | some table => do
        let copied ← copy_string NPOW_10 bandname
        let table1 ← store table b copied
        pure { udf with bandname := some table1 }

/-- What `init_pyp` leaves behind; `py_return` is the value the entry point
gave back, if it was called and gave one. -/
structure InitResult where
  outcome : Outcome Unit
  trace : List PyEvent
  udf : par_udf_t
  g : Globals
  py_return : Option PyObject

/-- The function `init_pyp`. -/
def init_pyp (env : PyEnv) (g : Globals) (ard : List ard_t) (ts : tsa_t)
    (submodule : Submodule) (idx_name : String) (nb nt : Nat) (udf : par_udf_t) : InitResult :=
  let udf0 : par_udf_t := { udf with bandname := none }
  if udf0.out = false then
    { outcome := Outcome.ret (), trace := [], udf := { udf0 with nb := 1 }, g := g,
      py_return := none }
  else
    let tr1 := [PyEvent.PyImport_AddModule, PyEvent.PyModule_GetDict] ++
      python_label_dimensions_events nb nt
    match python_label_dimensions ard ts submodule idx_name nb nt udf0 with
    | Outcome.fatal d =>
      { outcome := Outcome.fatal d, trace := tr1, udf := udf0, g := g, py_return := none }
    | Outcome.undefined u =>
      { outcome := Outcome.undefined u, trace := tr1, udf := udf0, g := g, py_return := none }
    | Outcome.ret pylab =>
      match env.fopen udf0.f_code with
      | none =>
        { outcome := Outcome.undefined Undef.null_file_handle,
          trace := tr1 ++ [PyEvent.fopen udf0.f_code false,
                           PyEvent.PyRun_SimpleFile true udf0.f_code],
          udf := udf0, g := g, py_return := none }
      | some script =>
        let g1 := script g
        let tr2 := tr1 ++ [PyEvent.fopen udf0.f_code true,
                           PyEvent.PyRun_SimpleFile false udf0.f_code,
                           PyEvent.PyDict_GetItemString "forcepy_init_"]
        match g1.forcepy_init_ with
        | none =>
          { outcome := Outcome.fatal (Diag.fun_not_found "forcepy_init_"), trace := tr2,
            udf := udf0, g := g1, py_return := none }
        | some py_fun =>
          let tr3 := tr2 ++ [PyEvent.PyObject_CallFunctionObjArgs "forcepy_init_"]
          match call_forcepy_init_ env g1 py_fun pylab with
          | none =>
            { outcome := Outcome.fatal Diag.null_from_init, trace := tr3, udf := udf0, g := g1,
              py_return := none }
          | some py_return =>
            match py_return with
            | PyObject.list xs =>
              let udf1 : par_udf_t :=
                { udf0 with nb := xs.length, bandname := some (List.replicate xs.length none) }
              match for_upto (init_band xs) udf1.nb udf1 with
              | Outcome.ret udf2 =>
                { outcome := Outcome.ret (),
                  trace := tr3 ++ List.replicate (udf1.nb + 6) PyEvent.Py_DECREF ++
                    [PyEvent.fclose],
                  udf := udf2, g := g1, py_return := some py_return }
              | Outcome.fatal d =>
                { outcome := Outcome.fatal d, trace := tr3, udf := udf1, g := g1,
                  py_return := some py_return }
              | Outcome.undefined u =>
                { outcome := Outcome.undefined u, trace := tr3, udf := udf1, g := g1,
                  py_return := some py_return }
            | _ =>
              { outcome := Outcome.fatal Diag.not_a_list, trace := tr3, udf := udf0, g := g1,
                py_return := some py_return }

/-! ## python_plugin -/

/-- State of the copy into the data array: its cells (`none` until stored
to), the moving pointer `data_` counted in elements, and the element offsets
stored to so far, in order. -/
structure CopyIn where
  cells : List (Option Int)
  data_ : Nat
  written : List Nat
  deriving DecidableEq, Repr

/-- The call `memcpy(data_, src, sizeof(short)*n)`. -/
def memcpy_in (st : CopyIn) (src : List Int) (n : Nat) : Outcome CopyIn :=
  if n ≤ src.length ∧ st.data_ + n ≤ st.cells.length then
    Outcome.ret
      { cells := st.cells.take st.data_ ++ (src.take n).map some ++ st.cells.drop (st.data_ + n),
        data_ := st.data_,
        written := st.written ++ List.range' st.data_ n }
  else Outcome.undefined Undef.out_of_bounds

/-- Body of the inner loop of the copy from the raster source. -/
def copy_in_plg_band (ard : List ard_t) (nc t b : Nat) (st : CopyIn) : Outcome CopyIn :=
  match ard[t]? with
  | none => Outcome.undefined Undef.out_of_bounds
  | some a =>
    match a.dat[b]? with
    | none => Outcome.undefined Undef.out_of_bounds
    | some band => do
      let st1 ← memcpy_in st band nc
      pure { st1 with data_ := st1.data_ + nc }

/-- Body of the loop of the copy from the series source. -/
def copy_in_tsa_step (ts : tsa_t) (nc t : Nat) (st : CopyIn) : Outcome CopyIn :=
  match ts.tsi_[t]? with
  | none => Outcome.undefined Undef.out_of_bounds
  | some band => do
    let st1 ← memcpy_in st band nc
    pure { st1 with data_ := st1.data_ + nc }

/-- The part of `python_plugin` that fills the data array of dimensions
`{ nt, nb, ny, nx }`. -/
def python_plugin_copy_in (ard : List ard_t) (ts : tsa_t) (submodule : Submodule)
    (nx ny nc nb nt : Nat) : Outcome CopyIn :=
  let st0 : CopyIn :=
    { cells := List.replicate (nt * nb * ny * nx) none, data_ := 0, written := [] }
  match submodule with
  | Submodule._HL_PLG_ =>
    for_upto (fun t st => for_upto (fun b st => copy_in_plg_band ard nc t b st) nb st) nt st0
  | Submodule._HL_TSA_ =>
    for_upto (fun t st => copy_in_tsa_step ts nc t st) nt st0
  | Submodule.other _ => Outcome.fatal Diag.unknown_submodule

/-- State of the copy to the output bands: the bands and the moving pointer
`return_` counted in elements. -/
structure CopyOut where
  pyp_ : List (List Int)
  return_ : Nat
  deriving DecidableEq, Repr

/-- Body of the loop of the copy to the output bands:
`memcpy(pyp_[b], return_, sizeof(short)*nc); return_ += nc`. -/
def copy_out_band (shorts : List Int) (nc b : Nat) (st : CopyOut) : Outcome CopyOut :=
  match st.pyp_[b]? with
  | none => Outcome.undefined Undef.out_of_bounds
  | some band =>
    if nc ≤ band.length ∧ st.return_ + nc ≤ shorts.length then
      Outcome.ret
        { pyp_ := st.pyp_.set b ((shorts.drop st.return_).take nc ++ band.drop nc),
          return_ := st.return_ + nc }
    else Outcome.undefined Undef.out_of_bounds

/-- The part of `python_plugin` that copies to the output bands. -/
def python_plugin_copy_out (pyp_ : List (List Int)) (shorts : List Int) (nb_out nc : Nat) :
    Outcome (List (List Int)) :=
  (for_upto (copy_out_band shorts nc) nb_out { pyp_ := pyp_, return_ := 0 }).bind
    fun st => Outcome.ret st.pyp_

/-- The cast `(short*)PyArray_DATA(o)`. -/
def PyArray_DATA (o : PyObject) : Outcome (List Int) :=
  match o with
  | PyObject.ndarray a => Outcome.ret a.shorts
  | _ => Outcome.undefined Undef.not_an_array

/-- What `python_plugin` leaves behind. `py_data` is the data array handed to
the entry point and `py_return` the value the entry point gave back, if the
call got that far. -/
structure PluginResult where
  outcome : Outcome Status
  trace : List PyEvent
  plg : plg_t
  ts : tsa_t
  udf : par_udf_t
  g : Globals
  py_data : Option (NdArray (Option Int))
  py_return : Option PyObject

/-- The function `python_plugin`. -/
def python_plugin (env : PyEnv) (g : Globals) (ard : List ard_t) (plg : plg_t) (ts : tsa_t)
    (_mask_ : List Int) (submodule : Submodule) (idx_name : String) (nx ny nc nb nt : Nat)
    (nodata : Int) (udf : par_udf_t) (cthread : Int) : PluginResult :=
  let stop (o : Outcome Status) (tr : List PyEvent) (g0 : Globals)
      (d : Option (NdArray (Option Int))) (r : Option PyObject) : PluginResult :=
    { outcome := o, trace := tr, plg := plg, ts := ts, udf := udf, g := g0, py_data := d,
      py_return := r }
  if submodule = Submodule._HL_PLG_ ∧ plg.pyp_ = none then
    stop (Outcome.ret Status.CANCEL) [] g none none
  else if submodule = Submodule._HL_TSA_ ∧ ts.pyp_ = none then
    stop (Outcome.ret Status.CANCEL) [] g none none
  else
    let tr1 := [PyEvent.PyImport_AddModule, PyEvent.PyModule_GetDict] ++
      python_label_dimensions_events nb nt
    match python_label_dimensions ard ts submodule idx_name nb nt udf with
    | Outcome.fatal d => stop (Outcome.fatal d) tr1 g none none
    | Outcome.undefined u => stop (Outcome.undefined u) tr1 g none none
    | Outcome.ret pylab =>
      match env.fopen udf.f_code with
      | none =>
        stop (Outcome.undefined Undef.null_file_handle)
          (tr1 ++ [PyEvent.fopen udf.f_code false, PyEvent.PyRun_SimpleFile true udf.f_code])
          g none none
      | some script =>
        let g1 := script g
        let tr2 := tr1 ++ [PyEvent.fopen udf.f_code true,
                           PyEvent.PyRun_SimpleFile false udf.f_code,
                           PyEvent.PyDict_GetItemString "forcepy_"]
        match g1.forcepy_ with
        | none => stop (Outcome.fatal (Diag.fun_not_found "forcepy_")) tr2 g1 none none
        | some py_fun =>
          let tr3 := tr2 ++ [PyEvent.PyLong_FromLong nodata, PyEvent.PyLong_FromLong cthread,
                             PyEvent.PyLong_FromLong udf.nb,
                             PyEvent.PyArray_SimpleNew [nt, nb, ny, nx] NpyType.NPY_INT16]
          match python_plugin_copy_in ard ts submodule nx ny nc nb nt with
          | Outcome.fatal d => stop (Outcome.fatal d) tr3 g1 none none
          | Outcome.undefined u => stop (Outcome.undefined u) tr3 g1 none none
          | Outcome.ret filled =>
            let py_data : NdArray (Option Int) :=
              { dtype := DType.int16, shape := [nt, nb, ny, nx], data := filled.cells }
            let tr4 := tr3 ++ [PyEvent.PyObject_CallFunctionObjArgs "forcepy_"]
            match call_forcepy_ env g1 py_fun
                { iblock := py_data, year := pylab.year, month := pylab.month,
                  day := pylab.day, sensor := pylab.sensor, bandname := pylab.bandname,
                  nodata := nodata, nband := udf.nb, nproc := cthread } with
            | none => stop (Outcome.fatal Diag.null_from_python) tr4 g1 (some py_data) none
            | some py_return =>
              match PyArray_DATA py_return with
              | Outcome.fatal d => stop (Outcome.fatal d) tr4 g1 (some py_data) (some py_return)
              | Outcome.undefined u =>
                stop (Outcome.undefined u) tr4 g1 (some py_data) (some py_return)
              | Outcome.ret return_ =>
                let tr5 := tr4 ++ List.replicate 10 PyEvent.Py_DECREF ++ [PyEvent.fclose]
                match submodule with
                | Submodule._HL_PLG_ =>
                  match plg.pyp_ with
                  | none =>
                    stop (Outcome.undefined Undef.out_of_bounds) tr4 g1 (some py_data)
                      (some py_return)
                  | some bands =>
                    match python_plugin_copy_out bands return_ udf.nb nc with
                    | Outcome.ret bands1 =>
                      { outcome := Outcome.ret Status.SUCCESS, trace := tr5,
                        plg := { plg with pyp_ := some bands1 }, ts := ts, udf := udf, g := g1,
                        py_data := some py_data, py_return := some py_return }
                    | Outcome.fatal d =>
                      stop (Outcome.fatal d) tr4 g1 (some py_data) (some py_return)
                    | Outcome.undefined u =>
                      stop (Outcome.undefined u) tr4 g1 (some py_data) (some py_return)
                | Submodule._HL_TSA_ =>
                  match ts.pyp_ with
                  | none =>
                    stop (Outcome.undefined Undef.out_of_bounds) tr4 g1 (some py_data)
                      (some py_return)
                  | some bands =>
                    match python_plugin_copy_out bands return_ udf.nb nc with
                    | Outcome.ret bands1 =>
                      { outcome := Outcome.ret Status.SUCCESS, trace := tr5,
                        plg := plg, ts := { ts with pyp_ := some bands1 }, udf := udf, g := g1,
                        py_data := some py_data, py_return := some py_return }
                    | Outcome.fatal d =>
                      stop (Outcome.fatal d) tr4 g1 (some py_data) (some py_return)
                    | Outcome.undefined u =>
                      stop (Outcome.undefined u) tr4 g1 (some py_data) (some py_return)
                | Submodule.other _ =>
                  stop (Outcome.fatal Diag.unknown_submodule) tr4 g1 (some py_data)
                    (some py_return)

/-! ## The host block as the copy loops read it -/

/-- A one-dimensional array of the given element type and length, with one
stored element per index. -/
def NdArray.is1 (a : NdArray Int) (d : DType) (n : Nat) : Prop :=
  a.dtype = d ∧ a.shape = [n] ∧ a.data.length = n

/-- A three-dimensional array of the given element type and shape, with one
stored element per index. -/
def NdArray.is3 (a : NdArray Int) (d : DType) (n nY nX : Nat) : Prop :=
  a.dtype = d ∧ a.shape = [n, nY, nX] ∧ a.data.length = n * nY * nX

/-- Every stored element is a value of the element type. -/
def NdArray.canonical (a : NdArray Int) : Prop :=
  ∀ x ∈ a.data, a.dtype.cast x = x

/-! ## A block function that applies a pixel function to every pixel -/

/-- The assignments that the pixel function `px` performs through the view
`oblock[:, yi, xi]` when it is given the pixel at row-major position `q` of
the block, as assignments to `oblock`; `none` if `px` raises. -/
def pixel_writes (px : PixelFn) (a : BlockArgs) (nX q : Nat) :
    Option (List ((Nat × Nat × Nat) × Int)) :=
  match px { inarray := slice4 a.iblock (q / nX) (q / nX + 1) (q % nX) (q % nX + 1),
             outarray := getcol a.oblock (q / nX) (q % nX), date := a.date,
             sensor := a.sensor, bandname := a.bandname, nodata := a.nodata, nproc := 1 } with
  | none => none
  | some ws => some (ws.map fun w => ((w.1, q / nX, q % nX), w.2))

/-- The block function that calls the pixel function `px` for every pixel of
the block, rows outside and columns inside, each time with the slice
`iblock[:, :, yi:yi+1, xi:xi+1]` and the view `oblock[:, yi, xi]`. -/
def block_of_pixel (px : PixelFn) : BlockFn := fun a =>
  match a.iblock.shape with
  | [_, _, nY, nX] =>
    match pool_map (pixel_writes px a nX) (List.range (nY * nX)) with
    | none => none
    | some wss => some wss.flatten
  | _ => none


/-! ## Concrete inputs used to instantiate the theorems -/

/-- An environment in which every script opens and defines nothing, and in
which every date converts to day 0. -/
def env_plain : PyEnv :=
  { fopen := fun _ => some (fun g => g),
    date2epoch := fun year _ _ => some (year.map fun _ => 0),
    numba_threads := 8 }

/-- A block UDF with one output band. -/
def udf_block : par_udf_t :=
  { out := true, type := UdfType._UDF_BLOCK_, justintime := false, f_code := "udf.py",
    nb := 1, bandname := none }

/-- A pixel UDF, not just in time, with two output bands. -/
def udf_pixel : par_udf_t :=
  { out := true, type := UdfType._UDF_PIXEL_, justintime := false, f_code := "udf.py",
    nb := 2, bandname := none }

/-- Host parameters with a pixel UDF on the plug-in submodule only. -/
def phl_pixel : par_hl_t :=
  { tsa := { pyp := { udf_pixel with out := false } }, plg := { pyp := udf_pixel } }

/-- Plug-in arrays with two output bands of four pixels. -/
def plg_two_bands : plg_t := { pyp_ := some [[0, 0, 0, 0], [0, 0, 0, 0]] }

/-- Time series arrays without UDF output. -/
def ts_unconfigured : tsa_t := { d_tsi := [], tsi_ := [], pyp_ := none }

/-- An environment in which no script can be opened. -/
def env_no_file : PyEnv :=
  { fopen := fun _ => none,
    date2epoch := fun year _ _ => some (year.map fun _ => 0),
    numba_threads := 8 }

/-- Time series arrays with two time steps of four pixels and one UDF output
band. -/
def ts_two_steps : tsa_t :=
  { d_tsi := [{ year := 2020, month := 1, day := 2 }, { year := 2020, month := 2, day := 3 }],
    tsi_ := [[1, 2, 3, 4], [5, 6, 7, 8]],
    pyp_ := some [[0, 0, 0, 0]] }

/-- Globals after `register_python` for a block UDF. -/
def globals_block : Globals :=
  { Globals.empty with
    forcepy_ := some (ForcepyDef.installed Trampoline.block),
    forcepy_init_ := some InitDef.installed }

/-- Time series arrays with five time steps of one pixel. -/
def ts_five_steps : tsa_t :=
  { d_tsi := [{ year := 2019, month := 12, day := 31 }, { year := 2020, month := 1, day := 16 },
              { year := 2020, month := 2, day := 1 }, { year := 2020, month := 2, day := 17 },
              { year := 2020, month := 3, day := 4 }],
    tsi_ := [[1], [2], [3], [4], [5]],
    pyp_ := some [[0]] }

/-- A brick of three bands. -/
def brick_three_bands : brick_t :=
  { date := fun _ => { year := 2020, month := 6, day := 15 },
    sensor := fun _ => "LND08",
    bandname := fun b => if b = 0 then "GREEN" else if b = 1 then "RED" else "NIR" }

/-- Five datasets of three bands of one pixel. -/
def ard_five_steps : List ard_t :=
  [{ DAT := brick_three_bands, dat := [[1], [2], [3]] },
   { DAT := brick_three_bands, dat := [[4], [5], [6]] },
   { DAT := brick_three_bands, dat := [[7], [8], [9]] },
   { DAT := brick_three_bands, dat := [[10], [11], [12]] },
   { DAT := brick_three_bands, dat := [[13], [14], [15]] }]

/-- An environment whose script defines an initialiser that declares the two
output bands NDVI and EVI. -/
def env_init_names : PyEnv :=
  { fopen := fun _ => some (fun g =>
      { g with forcepy_init := some (fun _ =>
          some (PyObject.list [PyObject.str "NDVI", PyObject.str "EVI"])) }),
    date2epoch := fun year _ _ => some (year.map fun _ => 0),
    numba_threads := 8 }

/-- An environment whose script defines an initialiser that returns a list
with an element that is no string. -/
def env_init_mixed : PyEnv :=
  { fopen := fun _ => some (fun g =>
      { g with forcepy_init := some (fun _ =>
          some (PyObject.list [PyObject.str "NDVI", PyObject.long 1])) }),
    date2epoch := fun year _ _ => some (year.map fun _ => 0),
    numba_threads := 8 }

/-- An environment whose script defines an initialiser that returns a list
with one string, which has a zero character in it. -/
def env_init_zero : PyEnv :=
  { fopen := fun _ => some (fun g =>
      { g with forcepy_init := some (fun _ =>
          some (PyObject.list [PyObject.str "ND\x00VI"])) }),
    date2epoch := fun year _ _ => some (year.map fun _ => 0),
    numba_threads := 8 }

/-- Two datasets of two bands on a block of two by two pixels. -/
def ard_two_steps : List ard_t :=
  [{ DAT := brick_three_bands, dat := [[11, 12, 13, 14], [21, 22, 23, 24]] },
   { DAT := brick_three_bands, dat := [[31, 32, 33, 34], [41, 42, 43, 44]] }]

/-- The block function of scenario A: band 0 of the first time step is
copied into every output band. -/
def copy_first_block : BlockFn := fun a =>
  match a.iblock.shape, a.oblock.shape with
  | [_, nb, ny, nx], [n, _, _] =>
    some ((List.range n).flatMap fun k => (List.range ny).flatMap fun y =>
      (List.range nx).map fun x =>
        ((k, y, x), ((a.iblock.data[((0 * nb + 0) * ny + y) * nx + x]?).join).getD a.nodata))
  | _, _ => none

/-- The pixel function of scenario A: band 0 of the first time step is
copied into every output band. -/
def copy_first_pixel : PixelFn := fun a =>
  match a.outarray.shape with
  | [n] => some ((List.range n).map fun k => (k, ((a.inarray.data[0]?).join).getD a.nodata))
  | _ => none

/-- An environment whose script defines the two functions of scenario A. -/
def env_copy_first : PyEnv :=
  { fopen := fun _ => some (fun g =>
      { g with forcepy_block := some copy_first_block, forcepy_pixel := some copy_first_pixel }),
    date2epoch := fun year _ _ => some (year.map fun _ => 0),
    numba_threads := 8 }

/-- A block UDF with two output bands. -/
def udf_block_two : par_udf_t :=
  { out := true, type := UdfType._UDF_BLOCK_, justintime := false, f_code := "udf.py",
    nb := 2, bandname := none }

/-- An environment whose script defines its own `forcepy_`, which gives back a
16-bit array of shape `(2, 1, 2)`. -/
def env_wrong_shape : PyEnv :=
  { fopen := fun _ => some (fun g =>
      { g with forcepy_ := some (ForcepyDef.user fun _ =>
          some (PyObject.ndarray { dtype := DType.int16, shape := [2, 1, 2],
                                   data := [1, 2, 3, 4] })) }),
    date2epoch := fun year _ _ => some (year.map fun _ => 0),
    numba_threads := 8 }

/-- An environment whose script defines its own `forcepy_`, which gives back
an array of platform integers of shape `(1, 1, 2)`. -/
def env_wrong_type : PyEnv :=
  { fopen := fun _ => some (fun g =>
      { g with forcepy_ := some (ForcepyDef.user fun _ =>
          some (PyObject.ndarray { dtype := DType.int64, shape := [1, 1, 2],
                                   data := [7, 8] })) }),
    date2epoch := fun year _ _ => some (year.map fun _ => 0),
    numba_threads := 8 }

/-- One dataset of one band on a block of one by two pixels. -/
def ard_one_step : List ard_t :=
  [{ DAT := brick_three_bands, dat := [[5, 6]] }]

/-- Plug-in arrays with one output band of two pixels. -/
def plg_one_band : plg_t := { pyp_ := some [[0, 0]] }

/-- Globals of scenarios A and B: the pooled trampoline installed and the
functions of scenario A defined by the script. -/
def globals_scenario : Globals :=
  { forcepy_ := some (ForcepyDef.installed Trampoline.pooled),
    forcepy_init_ := some InitDef.installed,
    forcepy_init := none,
    forcepy_pixel := some copy_first_pixel,
    forcepy_block := some copy_first_block }

/-- Arguments of scenarios A and B: two time steps, two bands, a block of two
by two pixels, nodata -9999, two output bands, two workers. -/
def args_scenario : ForcepyArgs :=
  { iblock := { dtype := DType.int16, shape := [2, 2, 2, 2],
                data := [some 11, some 12, some 13, some 14, some 21, some 22, some 23, some 24,
                         some 31, some 32, some 33, some 34, some 41, some 42, some 43, some 44] },
    year := [some 2020, some 2020], month := [some 6, some 6], day := [some 15, some 15],
    sensor := [some "LND08", some "LND08"], bandname := [some "GREEN", some "RED"],
    nodata := -9999, nband := 2, nproc := 2 }

/-- A pixel UDF, just in time, with one output band. -/
def udf_jit : par_udf_t :=
  { out := true, type := UdfType._UDF_PIXEL_, justintime := true, f_code := "udf.py",
    nb := 1, bandname := none }

/-- Host parameters with a just-in-time pixel UDF on the plug-in submodule. -/
def phl_jit : par_hl_t :=
  { tsa := { pyp := { udf_jit with out := false } }, plg := { pyp := udf_jit } }

/-- Host parameters with the same pixel UDF, not just in time. -/
def phl_pooled : par_hl_t :=
  { tsa := { pyp := { udf_jit with out := false } },
    plg := { pyp := { udf_jit with justintime := false } } }

/-- An environment whose script defines a pixel function that assigns
nothing. -/
def env_idle_pixel : PyEnv :=
  { fopen := fun _ => some (fun g => { g with forcepy_pixel := some (fun _ => some []) }),
    date2epoch := fun year _ _ => some (year.map fun _ => 0),
    numba_threads := 8 }

/-- Host parameters with a block UDF on the plug-in submodule only. -/
def phl_block : par_hl_t :=
  { tsa := { pyp := { udf_block with out := false } }, plg := { pyp := udf_block } }

/-- An environment whose script defines a block function and a pixel function
that raise before they assign anything. -/
def env_raising : PyEnv :=
  { fopen := fun _ => some (fun g =>
      { g with forcepy_block := some (fun _ => none), forcepy_pixel := some (fun _ => none) }),
    date2epoch := fun year _ _ => some (year.map fun _ => 0),
    numba_threads := 8 }

/-- Arguments of a call of `forcepy_` on a block of one by two pixels with one
time step, one band, nodata -9999, one output band and one worker. -/
def args_one_step : ForcepyArgs :=
  { iblock := { dtype := DType.int16, shape := [1, 1, 1, 2], data := [some 5, some 6] },
    year := [some 2020], month := [some 6], day := [some 15],
    sensor := [some "LND08"], bandname := [some "GREEN"],
    nodata := -9999, nband := 1, nproc := 1 }

/-- Host parameters without any UDF: both descriptors are of block type and
neither has output. -/
def phl_unconfigured : par_hl_t :=
  { tsa := { pyp := { udf_block with out := false } },
    plg := { pyp := { udf_block with out := false } } }


/-! ## General lemmas -/

@[simp] theorem Outcome.bind_ret {α β : Type} (a : α) (f : α → Outcome β) :
    (Outcome.ret a).bind f = f a := rfl

@[simp] theorem Outcome.ret_bind_do {α β : Type} (a : α) (f : α → Outcome β) :
    (Outcome.ret a >>= f) = f a := rfl

@[simp] theorem Outcome.pure_eq_ret {α : Type} (a : α) :
    (pure a : Outcome α) = Outcome.ret a := rfl

@[simp] theorem Outcome.fatal_bind_do {α β : Type} (d : Diag) (f : α → Outcome β) :
    (Outcome.fatal d >>= f) = Outcome.fatal d := rfl

@[simp] theorem Outcome.undefined_bind_do {α β : Type} (u : Undef) (f : α → Outcome β) :
    (Outcome.undefined u >>= f) = Outcome.undefined u := rfl

@[simp] theorem Outcome.bind_fatal {α β : Type} (d : Diag) (f : α → Outcome β) :
    (Outcome.fatal d : Outcome α).bind f = Outcome.fatal d := rfl

@[simp] theorem Outcome.bind_undefined {α β : Type} (u : Undef) (f : α → Outcome β) :
    (Outcome.undefined u : Outcome α).bind f = Outcome.undefined u := rfl

/-- A loop whose body returns and re-establishes an invariant at every
iteration returns, with the invariant at the bound. -/
theorem for_upto_inv {σ : Type} (body : Nat → σ → Outcome σ) (P : Nat → σ → Prop) :
    ∀ (n : Nat) (s : σ), P 0 s →
      (∀ i s1, i < n → P i s1 → ∃ s2, body i s1 = Outcome.ret s2 ∧ P (i + 1) s2) →
      ∃ s2, for_upto body n s = Outcome.ret s2 ∧ P n s2 := by
  intro n
  induction n with
  | zero => intro s h0 _; exact ⟨s, rfl, h0⟩
  | succ n ih =>
    intro s h0 hstep
    obtain ⟨s1, h1, hP1⟩ := ih s h0 (fun i s1 hi hP => hstep i s1 (Nat.lt_succ_of_lt hi) hP)
    obtain ⟨s2, h2, hP2⟩ := hstep n s1 (Nat.lt_succ_self n) hP1
    exact ⟨s2, by simp [for_upto, h1, h2], hP2⟩

/-- The python loop analogue of `for_upto_inv`. -/
theorem py_for_inv {σ : Type} (body : Nat → σ → Option σ) (P : Nat → σ → Prop) :
    ∀ (n : Nat) (s : σ), P 0 s →
      (∀ i s1, i < n → P i s1 → ∃ s2, body i s1 = some s2 ∧ P (i + 1) s2) →
      ∃ s2, py_for body n s = some s2 ∧ P n s2 := by
  intro n
  induction n with
  | zero => intro s h0 _; exact ⟨s, rfl, h0⟩
  | succ n ih =>
    intro s h0 hstep
    obtain ⟨s1, h1, hP1⟩ := ih s h0 (fun i s1 hi hP => hstep i s1 (Nat.lt_succ_of_lt hi) hP)
    obtain ⟨s2, h2, hP2⟩ := hstep n s1 (Nat.lt_succ_self n) hP1
    exact ⟨s2, by simp [py_for, h1, h2], hP2⟩

/-! ## C4: no UDF output configured -/

/-- C4. A call of `python_plugin` whose selected dataset has no UDF output
(raster source with `plg->pyp_ == NULL`, or series source with
`ts->pyp_ == NULL`) returns CANCEL, which is neither SUCCESS nor a fatal end
nor undefined behaviour, and does nothing before: the trace of interpreter
and file calls is empty, no data array and no return value exist, and the
host arrays, the descriptor and the globals are as they were. -/
theorem python_plugin_not_applicable (env : PyEnv) (g : Globals) (ard : List ard_t)
    (plg : plg_t) (ts : tsa_t) (mask_ : List Int) (submodule : Submodule) (idx_name : String)
    (nx ny nc nb nt : Nat) (nodata : Int) (udf : par_udf_t) (cthread : Int)
    (h : (submodule = Submodule._HL_PLG_ ∧ plg.pyp_ = none) ∨
         (submodule = Submodule._HL_TSA_ ∧ ts.pyp_ = none)) :
    (python_plugin env g ard plg ts mask_ submodule idx_name nx ny nc nb nt nodata udf
        cthread).outcome = Outcome.ret Status.CANCEL ∧
    Outcome.ret Status.CANCEL ≠ Outcome.ret Status.SUCCESS ∧
    (∀ d, Outcome.ret Status.CANCEL ≠ Outcome.fatal d) ∧
    (python_plugin env g ard plg ts mask_ submodule idx_name nx ny nc nb nt nodata udf
        cthread).trace = [] ∧
    (python_plugin env g ard plg ts mask_ submodule idx_name nx ny nc nb nt nodata udf
        cthread).py_data = none ∧
    (python_plugin env g ard plg ts mask_ submodule idx_name nx ny nc nb nt nodata udf
        cthread).py_return = none ∧
    (python_plugin env g ard plg ts mask_ submodule idx_name nx ny nc nb nt nodata udf
        cthread).plg = plg ∧
    (python_plugin env g ard plg ts mask_ submodule idx_name nx ny nc nb nt nodata udf
        cthread).ts = ts ∧
    (python_plugin env g ard plg ts mask_ submodule idx_name nx ny nc nb nt nodata udf
        cthread).udf = udf ∧
    (python_plugin env g ard plg ts mask_ submodule idx_name nx ny nc nb nt nodata udf
        cthread).g = g := by
  have hr : python_plugin env g ard plg ts mask_ submodule idx_name nx ny nc nb nt nodata udf
      cthread =
      { outcome := Outcome.ret Status.CANCEL, trace := [], plg := plg, ts := ts, udf := udf,
        g := g, py_data := none, py_return := none } := by
    unfold python_plugin
    rcases h with ⟨h1, h2⟩ | ⟨h1, h2⟩
    · simp [h1, h2]
    · by_cases h3 : submodule = Submodule._HL_PLG_ ∧ plg.pyp_ = none
      · simp [h3]
      · simp [h1, h2]
  rw [hr]
  refine ⟨rfl, by decide, ?_, rfl, rfl, rfl, rfl, rfl, rfl, rfl⟩
  intro d hd
  cases hd

/-- C4 at a concrete call: series source without UDF output. -/
theorem python_plugin_not_applicable_witness :
    (python_plugin env_plain Globals.empty [] plg_two_bands ts_unconfigured []
        Submodule._HL_TSA_ "NDVI" 2 2 4 1 0 (-9999) udf_block 1).outcome
      = Outcome.ret Status.CANCEL ∧
    (python_plugin env_plain Globals.empty [] plg_two_bands ts_unconfigured []
        Submodule._HL_TSA_ "NDVI" 2 2 4 1 0 (-9999) udf_block 1).trace = [] :=
  have h := python_plugin_not_applicable env_plain Globals.empty [] plg_two_bands
    ts_unconfigured [] Submodule._HL_TSA_ "NDVI" 2 2 4 1 0 (-9999) udf_block 1
    (Or.inr ⟨rfl, rfl⟩)
  ⟨h.1, h.2.2.2.1⟩

/-! ## C9: dispatch on the UDF type -/

/-- C9, as stated, fails. For host parameters in which no UDF has output
(both descriptors of the recognised block type), `register_python` returns
without ending the process and without installing any trampoline: no
definition of `forcepy_` is run and the name stays unbound. -/
theorem register_python_unconfigured_counterexample :
    phl_unconfigured.tsa.pyp.type = UdfType._UDF_BLOCK_ ∧
    phl_unconfigured.plg.pyp.type = UdfType._UDF_BLOCK_ ∧
    (register_python phl_unconfigured Globals.empty).outcome = Outcome.ret () ∧
    forcepy_definitions (register_python phl_unconfigured Globals.empty).trace = [] ∧
    (register_python phl_unconfigured Globals.empty).trace = [] ∧
    installed_trampoline (register_python phl_unconfigured Globals.empty).g = none := by
  decide

/-- C9, amended. When no UDF has output, `register_python` returns at once:
it does not start the interpreter, runs no python text and leaves the globals
as they are. When it selects a descriptor (the one of the time series
submodule if that has output, else the one of the plug-in submodule), it ends
the process with the unknown-type diagnostic exactly when the type of that
descriptor is neither pixel nor block; otherwise it returns having run exactly
one definition of `forcepy_`, to which the name is then bound: pixel type
without just-in-time gives the pooled trampoline, pixel type with just-in-time
the just-in-time trampoline, block type the whole-block trampoline. -/
theorem register_python_dispatch (phl : par_hl_t) (g : Globals) :
    (selected_udf phl = none →
      (register_python phl g).outcome = Outcome.ret () ∧
      (register_python phl g).trace = [] ∧
      (register_python phl g).g = g) ∧
    (∀ udf, selected_udf phl = some udf →
      ((register_python phl g).outcome = Outcome.fatal Diag.unknown_udf_type ↔
        (udf.type ≠ UdfType._UDF_PIXEL_ ∧ udf.type ≠ UdfType._UDF_BLOCK_)) ∧
      ((register_python phl g).outcome ≠ Outcome.fatal Diag.unknown_udf_type →
        (register_python phl g).outcome = Outcome.ret ()) ∧
      (udf.type = UdfType._UDF_PIXEL_ → udf.justintime = false →
        forcepy_definitions (register_python phl g).trace = [Trampoline.pooled] ∧
        installed_trampoline (register_python phl g).g = some Trampoline.pooled) ∧
      (udf.type = UdfType._UDF_PIXEL_ → udf.justintime = true →
        forcepy_definitions (register_python phl g).trace = [Trampoline.jit] ∧
        installed_trampoline (register_python phl g).g = some Trampoline.jit) ∧
      (udf.type = UdfType._UDF_BLOCK_ →
        forcepy_definitions (register_python phl g).trace = [Trampoline.block] ∧
        installed_trampoline (register_python phl g).g = some Trampoline.block) ∧
      ((udf.type ≠ UdfType._UDF_PIXEL_ ∧ udf.type ≠ UdfType._UDF_BLOCK_) →
        forcepy_definitions (register_python phl g).trace = [] ∧
        (register_python phl g).g.forcepy_ = g.forcepy_)) := by
  refine ⟨fun hsel => ?_, fun udf hsel => ?_⟩
  · unfold register_python
    rw [hsel]
    exact ⟨rfl, rfl, rfl⟩
  · unfold register_python
    rw [hsel]
    cases ht : udf.type <;> cases hj : udf.justintime <;>
      simp [ht, hj, register_python_boot, forcepy_definitions, installed_trampoline]

/-- The amended C9 at a concrete parameter set: a pixel UDF without
just-in-time on the plug-in submodule gets the pooled trampoline. -/
theorem register_python_dispatch_witness :
    forcepy_definitions (register_python phl_pixel Globals.empty).trace = [Trampoline.pooled] ∧
    installed_trampoline (register_python phl_pixel Globals.empty).g = some Trampoline.pooled :=
  ((register_python_dispatch phl_pixel Globals.empty).2 udf_pixel rfl).2.2.1 rfl rfl

/-! ## C6: a script that cannot be opened -/

/-- The labels do not depend on the descriptor. -/
theorem python_label_dimensions_udf (ard : List ard_t) (ts : tsa_t) (submodule : Submodule)
    (idx_name : String) (nb nt : Nat) (udf udf1 : par_udf_t) :
    python_label_dimensions ard ts submodule idx_name nb nt udf =
      python_label_dimensions ard ts submodule idx_name nb nt udf1 := rfl

/-- C6, as stated, fails. With a configured UDF whose script cannot be
opened, `init_pyp` and `python_plugin` both hand the null file handle to
`PyRun_SimpleFile`, and neither ends through a diagnostic. -/
theorem unopenable_script_counterexample :
    env_no_file.fopen udf_block.f_code = none ∧
    PyEvent.PyRun_SimpleFile true udf_block.f_code ∈
      (init_pyp env_no_file globals_block [] ts_two_steps Submodule._HL_TSA_ "NDVI" 1 2
        udf_block).trace ∧
    (init_pyp env_no_file globals_block [] ts_two_steps Submodule._HL_TSA_ "NDVI" 1 2
        udf_block).outcome = Outcome.undefined Undef.null_file_handle ∧
    PyEvent.PyRun_SimpleFile true udf_block.f_code ∈
      (python_plugin env_no_file globals_block [] plg_two_bands ts_two_steps []
        Submodule._HL_TSA_ "NDVI" 2 2 4 1 2 (-9999) udf_block 1).trace ∧
    (python_plugin env_no_file globals_block [] plg_two_bands ts_two_steps []
        Submodule._HL_TSA_ "NDVI" 2 2 4 1 2 (-9999) udf_block 1).outcome
      = Outcome.undefined Undef.null_file_handle :=
  ⟨rfl, by decide, by decide, by decide, by decide⟩

/-- C6, amended. With a configured UDF whose script cannot be opened, and
labels that get built, `init_pyp` and `python_plugin` do not test the file
handle: the last thing either does is to hand the null handle to
`PyRun_SimpleFile`, where the behaviour of the C program stops being defined.
No diagnostic is printed, no entry point is looked up or called before that
call, the globals and the descriptor are left as they were (band names
null-initialised by `init_pyp`), and neither function returns normally. -/
theorem unopenable_script (env : PyEnv) (g : Globals) (ard : List ard_t) (plg : plg_t)
    (ts : tsa_t) (mask_ : List Int) (submodule : Submodule) (idx_name : String)
    (nx ny nc nb nt : Nat) (nodata : Int) (udf : par_udf_t) (cthread : Int)
    (pylab : py_dimlab_t)
    (hout : udf.out = true)
    (hplg : submodule = Submodule._HL_PLG_ → plg.pyp_ ≠ none)
    (hts : submodule = Submodule._HL_TSA_ → ts.pyp_ ≠ none)
    (hopen : env.fopen udf.f_code = none)
    (hlab : python_label_dimensions ard ts submodule idx_name nb nt udf = Outcome.ret pylab) :
    (init_pyp env g ard ts submodule idx_name nb nt udf).outcome
      = Outcome.undefined Undef.null_file_handle ∧
    (init_pyp env g ard ts submodule idx_name nb nt udf).trace
      = [PyEvent.PyImport_AddModule, PyEvent.PyModule_GetDict] ++
        python_label_dimensions_events nb nt ++
        [PyEvent.fopen udf.f_code false, PyEvent.PyRun_SimpleFile true udf.f_code] ∧
    (init_pyp env g ard ts submodule idx_name nb nt udf).g = g ∧
    (init_pyp env g ard ts submodule idx_name nb nt udf).udf = { udf with bandname := none } ∧
    (python_plugin env g ard plg ts mask_ submodule idx_name nx ny nc nb nt nodata udf
        cthread).outcome = Outcome.undefined Undef.null_file_handle ∧
    (python_plugin env g ard plg ts mask_ submodule idx_name nx ny nc nb nt nodata udf
        cthread).trace
      = [PyEvent.PyImport_AddModule, PyEvent.PyModule_GetDict] ++
        python_label_dimensions_events nb nt ++
        [PyEvent.fopen udf.f_code false, PyEvent.PyRun_SimpleFile true udf.f_code] ∧
    (python_plugin env g ard plg ts mask_ submodule idx_name nx ny nc nb nt nodata udf
        cthread).g = g ∧
    (python_plugin env g ard plg ts mask_ submodule idx_name nx ny nc nb nt nodata udf
        cthread).plg = plg ∧
    (python_plugin env g ard plg ts mask_ submodule idx_name nx ny nc nb nt nodata udf
        cthread).ts = ts := by
  have hlab0 : ∀ u, python_label_dimensions ard ts submodule idx_name nb nt u
      = Outcome.ret pylab := fun u => by
    rw [← hlab]; rfl
  have hi : init_pyp env g ard ts submodule idx_name nb nt udf =
      { outcome := Outcome.undefined Undef.null_file_handle,
        trace := [PyEvent.PyImport_AddModule, PyEvent.PyModule_GetDict] ++
          python_label_dimensions_events nb nt ++
          [PyEvent.fopen udf.f_code false, PyEvent.PyRun_SimpleFile true udf.f_code],
        udf := { udf with bandname := none }, g := g, py_return := none } := by
    unfold init_pyp
    simp only [hout, hlab0, hopen]
    simp [← hout]
  have hc1 : ¬ (submodule = Submodule._HL_PLG_ ∧ plg.pyp_ = none) := fun h => hplg h.1 h.2
  have hc2 : ¬ (submodule = Submodule._HL_TSA_ ∧ ts.pyp_ = none) := fun h => hts h.1 h.2
  have hp : python_plugin env g ard plg ts mask_ submodule idx_name nx ny nc nb nt nodata udf
      cthread =
      { outcome := Outcome.undefined Undef.null_file_handle,
        trace := [PyEvent.PyImport_AddModule, PyEvent.PyModule_GetDict] ++
          python_label_dimensions_events nb nt ++
          [PyEvent.fopen udf.f_code false, PyEvent.PyRun_SimpleFile true udf.f_code],
        plg := plg, ts := ts, udf := udf, g := g, py_data := none, py_return := none } := by
    unfold python_plugin
    simp only [hc1, hc2, hlab, hopen, if_false]
  rw [hi, hp]
  exact ⟨rfl, rfl, rfl, rfl, rfl, rfl, rfl, rfl, rfl⟩

/-- The amended C6 at a concrete call (series source, two time steps). -/
theorem unopenable_script_witness :
    (init_pyp env_no_file globals_block [] ts_two_steps Submodule._HL_TSA_ "NDVI" 1 2
        udf_block).outcome = Outcome.undefined Undef.null_file_handle ∧
    (python_plugin env_no_file globals_block [] plg_two_bands ts_two_steps []
        Submodule._HL_TSA_ "NDVI" 2 2 4 1 2 (-9999) udf_block 1).outcome
      = Outcome.undefined Undef.null_file_handle :=
  have h := unopenable_script env_no_file globals_block [] plg_two_bands ts_two_steps []
    Submodule._HL_TSA_ "NDVI" 2 2 4 1 2 (-9999) udf_block 1
    { dim_nt := 2, dim_nb := 1, year := [some 2020, some 2020], month := [some 1, some 2],
      day := [some 2, some 3], sensor := [some "BLEND", some "BLEND"],
      bandname := [some "NDVI"] }
    rfl (fun h => by cases h) (fun _ => by decide) rfl (by decide)
  ⟨h.1, h.2.2.2.2.1⟩


theorem store_next {α : Type} (pre : List (Option α)) (m i : Nat) (v : α)
    (hi : i = pre.length) (hm : 0 < m) :
    store (pre ++ List.replicate m none) i v
      = Outcome.ret (pre ++ some v :: List.replicate (m - 1) none) := by
  subst hi
  obtain ⟨k, rfl⟩ : ∃ k, m = k + 1 := ⟨m - 1, by omega⟩
  simp [store, List.replicate_succ]

theorem copy_string_fits (size : Nat) (src : String) (h : src.utf8ByteSize < size) :
    copy_string size src = Outcome.ret src := by
  unfold copy_string
  rw [if_pos (by omega)]

theorem label_plg_time_loop (ard : List ard_t) (nb nt : Nat) (hard : nt ≤ ard.length)
    (hsens : ∀ t a, t < nt → ard[t]? = some a → (a.DAT.sensor 0).utf8ByteSize < NPOW_04) :
    for_upto (label_plg_time ard) nt { pylab := new_labels nb nt, sensor_ := 0, bandname_ := 0 }
      = Outcome.ret
        { pylab :=
            { dim_nt := nt, dim_nb := nb,
              year := (ard.take nt).map (fun a => some (a.DAT.date 0).year),
              month := (ard.take nt).map (fun a => some (a.DAT.date 0).month),
              day := (ard.take nt).map (fun a => some (a.DAT.date 0).day),
              sensor := (ard.take nt).map (fun a => some (a.DAT.sensor 0)),
              bandname := List.replicate nb none },
          sensor_ := nt, bandname_ := 0 } := by
  obtain ⟨s2, h2, hP⟩ := for_upto_inv (label_plg_time ard)
    (fun t st => t ≤ nt → st =
      { pylab :=
          { dim_nt := nt, dim_nb := nb,
            year := (ard.take t).map (fun a => some (a.DAT.date 0).year)
              ++ List.replicate (nt - t) none,
            month := (ard.take t).map (fun a => some (a.DAT.date 0).month)
              ++ List.replicate (nt - t) none,
            day := (ard.take t).map (fun a => some (a.DAT.date 0).day)
              ++ List.replicate (nt - t) none,
            sensor := (ard.take t).map (fun a => some (a.DAT.sensor 0))
              ++ List.replicate (nt - t) none,
            bandname := List.replicate nb none },
        sensor_ := t, bandname_ := 0 })
    nt { pylab := new_labels nb nt, sensor_ := 0, bandname_ := 0 }
    (by intro _; simp [new_labels])
    (by
      intro t st ht hst
      have hst := hst (Nat.le_of_lt ht)
      subst hst
      have hlt : t < ard.length := by omega
      have hget : ard[t]? = some ard[t] := List.getElem?_eq_getElem hlt
      have hfit := hsens t ard[t] ht hget
      have hlen : ∀ {β : Type} (f : ard_t → β), ((ard.take t).map f).length = t := by
        intro β f; simp; omega
      refine ⟨_, ?_, fun _ => rfl⟩
      unfold label_plg_time
      simp only [hget, get_brick_date, get_brick_sensor, copy_string_fits _ _ hfit,
        Outcome.ret_bind_do, Outcome.pure_eq_ret]
      rw [store_next _ _ _ _ (hlen _).symm (by omega),
        store_next _ _ _ _ (hlen _).symm (by omega),
        store_next _ _ _ _ (hlen _).symm (by omega)]
      simp only [Outcome.ret_bind_do]
      rw [store_next _ _ _ _ (hlen _).symm (by omega)]
      simp only [Outcome.ret_bind_do, Outcome.pure_eq_ret]
      have hsub : nt - t - 1 = nt - (t + 1) := by omega
      have htake : List.take (t + 1) ard = List.take t ard ++ [ard[t]] := by
        rw [List.take_succ, hget]; rfl
      rw [htake, hsub]
      simp only [List.map_append, List.map_cons, List.map_nil, List.append_assoc,
        List.singleton_append])
  rw [h2, hP (Nat.le_refl nt)]
  simp

theorem label_plg_band_loop (ard : List ard_t) (a0 : ard_t) (h0 : ard[0]? = some a0) (nb : Nat)
    (hname : ∀ b, b < nb → (a0.DAT.bandname b).utf8ByteSize < NPOW_10)
    (pl : py_dimlab_t) (s_ : Nat) (hbn : pl.bandname = List.replicate nb none) :
    for_upto (label_plg_band ard) nb { pylab := pl, sensor_ := s_, bandname_ := 0 }
      = Outcome.ret
        { pylab := { pl with bandname := (List.range nb).map (fun b => some (a0.DAT.bandname b)) },
          sensor_ := s_, bandname_ := nb } := by
  obtain ⟨s2, h2, hP⟩ := for_upto_inv (label_plg_band ard)
    (fun b st => b ≤ nb → st =
      { pylab := { pl with bandname := (List.range b).map (fun b => some (a0.DAT.bandname b))
                    ++ List.replicate (nb - b) none },
        sensor_ := s_, bandname_ := b })
    nb { pylab := pl, sensor_ := s_, bandname_ := 0 }
    (by intro _; simp [← hbn])
    (by
      intro b st hb hst
      have hst := hst (Nat.le_of_lt hb)
      subst hst
      have hfit := hname b hb
      refine ⟨_, ?_, fun _ => rfl⟩
      unfold label_plg_band
      simp only [h0, get_brick_bandname, copy_string_fits _ _ hfit,
        Outcome.ret_bind_do, Outcome.pure_eq_ret]
      rw [store_next _ _ _ _ (by simp) (by omega)]
      simp only [Outcome.ret_bind_do, Outcome.pure_eq_ret]
      have hsub : nb - b - 1 = nb - (b + 1) := by omega
      rw [List.range_succ, hsub]
      simp only [List.map_append, List.map_cons, List.map_nil, List.append_assoc,
        List.singleton_append])
  rw [h2, hP (Nat.le_refl nb)]
  simp

theorem label_tsa_time_loop (ts : tsa_t) (nb nt : Nat) (hts : nt ≤ ts.d_tsi.length) :
    for_upto (label_tsa_time ts) nt { pylab := new_labels nb nt, sensor_ := 0, bandname_ := 0 }
      = Outcome.ret
        { pylab :=
            { dim_nt := nt, dim_nb := nb,
              year := (ts.d_tsi.take nt).map (fun d => some d.year),
              month := (ts.d_tsi.take nt).map (fun d => some d.month),
              day := (ts.d_tsi.take nt).map (fun d => some d.day),
              sensor := List.replicate nt (some "BLEND"),
              bandname := List.replicate nb none },
          sensor_ := nt, bandname_ := 0 } := by
  obtain ⟨s2, h2, hP⟩ := for_upto_inv (label_tsa_time ts)
    (fun t st => t ≤ nt → st =
      { pylab :=
          { dim_nt := nt, dim_nb := nb,
            year := (ts.d_tsi.take t).map (fun d => some d.year)
              ++ List.replicate (nt - t) none,
            month := (ts.d_tsi.take t).map (fun d => some d.month)
              ++ List.replicate (nt - t) none,
            day := (ts.d_tsi.take t).map (fun d => some d.day)
              ++ List.replicate (nt - t) none,
            sensor := List.replicate t (some "BLEND") ++ List.replicate (nt - t) none,
            bandname := List.replicate nb none },
        sensor_ := t, bandname_ := 0 })
    nt { pylab := new_labels nb nt, sensor_ := 0, bandname_ := 0 }
    (by intro _; simp [new_labels])
    (by
      intro t st ht hst
      have hst := hst (Nat.le_of_lt ht)
      subst hst
      have hlt : t < ts.d_tsi.length := by omega
      have hget : ts.d_tsi[t]? = some ts.d_tsi[t] := List.getElem?_eq_getElem hlt
      have hfit : ("BLEND" : String).utf8ByteSize < NPOW_04 := by decide
      have hlen : ∀ {β : Type} (f : date_t → β), ((ts.d_tsi.take t).map f).length = t := by
        intro β f; simp; omega
      refine ⟨_, ?_, fun _ => rfl⟩
      unfold label_tsa_time
      simp only [hget, copy_string_fits _ _ hfit, Outcome.ret_bind_do, Outcome.pure_eq_ret]
      rw [store_next _ _ _ _ (hlen _).symm (by omega),
        store_next _ _ _ _ (hlen _).symm (by omega),
        store_next _ _ _ _ (hlen _).symm (by omega)]
      simp only [Outcome.ret_bind_do]
      rw [store_next _ _ _ _ (by simp) (by omega)]
      simp only [Outcome.ret_bind_do, Outcome.pure_eq_ret]
      have hsub : nt - t - 1 = nt - (t + 1) := by omega
      have htake : List.take (t + 1) ts.d_tsi = List.take t ts.d_tsi ++ [ts.d_tsi[t]] := by
        rw [List.take_succ, hget]; rfl
      rw [htake, hsub, List.replicate_succ']
      simp only [List.map_append, List.map_cons, List.map_nil, List.append_assoc,
        List.singleton_append])
  rw [h2, hP (Nat.le_refl nt)]
  simp

/-- The labels of the raster source, as lists. -/
theorem python_label_dimensions_plg (ard : List ard_t) (ts : tsa_t) (idx_name : String)
    (nb nt : Nat) (udf : par_udf_t)
    (hard : nt ≤ ard.length) (hard0 : 0 < nb → ard ≠ [])
    (hsens : ∀ t a, t < nt → ard[t]? = some a → (a.DAT.sensor 0).utf8ByteSize < NPOW_04)
    (hname : ∀ a0 b, ard[0]? = some a0 → b < nb → (a0.DAT.bandname b).utf8ByteSize < NPOW_10) :
    python_label_dimensions ard ts Submodule._HL_PLG_ idx_name nb nt udf
      = Outcome.ret
        { dim_nt := nt, dim_nb := nb,
          year := (ard.take nt).map (fun a => some (a.DAT.date 0).year),
          month := (ard.take nt).map (fun a => some (a.DAT.date 0).month),
          day := (ard.take nt).map (fun a => some (a.DAT.date 0).day),
          sensor := (ard.take nt).map (fun a => some (a.DAT.sensor 0)),
          bandname := (List.range nb).map
            (fun b => (ard.head?).map (fun a0 => a0.DAT.bandname b)) } := by
  unfold python_label_dimensions
  simp only [label_plg_time_loop ard nb nt hard hsens, Outcome.ret_bind_do]
  cases ard with
  | nil =>
    have hnb : nb = 0 := by
      by_contra h
      exact hard0 (Nat.pos_of_ne_zero h) rfl
    subst hnb
    simp [for_upto]
  | cons a0 rest =>
    rw [label_plg_band_loop (a0 :: rest) a0 (by simp) nb
      (fun b hb => hname a0 b (by simp) hb) _ _ rfl]
    simp

/-- The labels of the series source, as lists. -/
theorem python_label_dimensions_tsa (ard : List ard_t) (ts : tsa_t) (idx_name : String)
    (nb nt : Nat) (udf : par_udf_t)
    (hts : nt ≤ ts.d_tsi.length) (hidx : idx_name.utf8ByteSize < NPOW_10) :
    python_label_dimensions ard ts Submodule._HL_TSA_ idx_name nb nt udf
      = if 0 < nb then
          Outcome.ret
            { dim_nt := nt, dim_nb := nb,
              year := (ts.d_tsi.take nt).map (fun d => some d.year),
              month := (ts.d_tsi.take nt).map (fun d => some d.month),
              day := (ts.d_tsi.take nt).map (fun d => some d.day),
              sensor := List.replicate nt (some "BLEND"),
              bandname := some idx_name :: List.replicate (nb - 1) none }
        else Outcome.undefined Undef.out_of_bounds := by
  unfold python_label_dimensions
  simp only [label_tsa_time_loop ts nb nt hts, Outcome.ret_bind_do,
    copy_string_fits _ _ hidx]
  by_cases hnb : 0 < nb
  · rw [if_pos hnb]
    have h := store_next ([] : List (Option String)) nb 0 idx_name rfl hnb
    simp only [List.nil_append] at h
    rw [h]
    rfl
  · have h0 : nb = 0 := by omega
    subst h0
    simp [store]

/-! ## C5: the dimension labels -/

/-- C5, as stated, fails. For the series source with `nt = 5` and `nb = 3`
the band name sequence has three entries of which only the first is written;
entries 1 and 2 are never stored to. -/
theorem label_series_bandname_counterexample :
    python_label_dimensions [] ts_five_steps Submodule._HL_TSA_ "NDVI" 3 5 udf_block
      = Outcome.ret
        { dim_nt := 5, dim_nb := 3,
          year := [some 2019, some 2020, some 2020, some 2020, some 2020],
          month := [some 12, some 1, some 2, some 2, some 3],
          day := [some 31, some 16, some 1, some 17, some 4],
          sensor := [some "BLEND", some "BLEND", some "BLEND", some "BLEND", some "BLEND"],
          bandname := [some "NDVI", none, none] } := by
  decide

/-- C5, amended. Raster source: when `ard` holds `nt` records (and one record
if there is a band to name), the sensor names of these `nt` records and the
`nb` band names of the first record fitting their fields,
`python_label_dimensions` returns year, month, day and sensor sequences of
length exactly `nt`, every entry written from the record of its time step, and
a band name sequence of length exactly `nb`, every entry written from the
first record. Series source: when `ts` holds `nt` dates, there is at least one
band and the index name fits its field, it returns year, month, day and sensor
sequences of length exactly `nt`, every entry written (the dates of `ts`, and
sensor BLEND at every time step), and a band name sequence of length exactly
`nb` of which only entry 0 is written, with the index name given by the
caller; entries `1 .. nb-1` are left unwritten. For any other source flag the
process ends with the unknown-submodule diagnostic. Each source has its own
conditions: the raster part asks nothing of `ts`, the series part nothing of
`ard`. -/
theorem python_label_dimensions_labels (ard : List ard_t) (ts : tsa_t) (idx_name : String)
    (nb nt : Nat) (udf : par_udf_t) :
    (nt ≤ ard.length → (0 < nb → ard ≠ []) →
      (∀ t a, t < nt → ard[t]? = some a → (a.DAT.sensor 0).utf8ByteSize < NPOW_04) →
      (∀ a0 b, ard[0]? = some a0 → b < nb → (a0.DAT.bandname b).utf8ByteSize < NPOW_10) →
      ∃ pylab, python_label_dimensions ard ts Submodule._HL_PLG_ idx_name nb nt udf
        = Outcome.ret pylab ∧
      pylab.year.length = nt ∧ pylab.month.length = nt ∧ pylab.day.length = nt ∧
      pylab.sensor.length = nt ∧ pylab.bandname.length = nb ∧
      (∀ t, t < nt → ∃ a, ard[t]? = some a ∧
        pylab.year[t]? = some (some (a.DAT.date 0).year) ∧
        pylab.month[t]? = some (some (a.DAT.date 0).month) ∧
        pylab.day[t]? = some (some (a.DAT.date 0).day) ∧
        pylab.sensor[t]? = some (some (a.DAT.sensor 0))) ∧
      (∀ b, b < nb → ∃ a0, ard[0]? = some a0 ∧
        pylab.bandname[b]? = some (some (a0.DAT.bandname b)))) ∧
    (0 < nb → nt ≤ ts.d_tsi.length → idx_name.utf8ByteSize < NPOW_10 →
      ∃ pylab, python_label_dimensions ard ts Submodule._HL_TSA_ idx_name nb nt udf
        = Outcome.ret pylab ∧
      pylab.year.length = nt ∧ pylab.month.length = nt ∧ pylab.day.length = nt ∧
      pylab.sensor.length = nt ∧ pylab.bandname.length = nb ∧
      (∀ t, t < nt → ∃ d, ts.d_tsi[t]? = some d ∧
        pylab.year[t]? = some (some d.year) ∧
        pylab.month[t]? = some (some d.month) ∧
        pylab.day[t]? = some (some d.day) ∧
        pylab.sensor[t]? = some (some "BLEND")) ∧
      pylab.bandname[0]? = some (some idx_name) ∧
      (∀ b, 0 < b → b < nb → pylab.bandname[b]? = some none)) ∧
    (∀ code, python_label_dimensions ard ts (Submodule.other code) idx_name nb nt udf
        = Outcome.fatal Diag.unknown_submodule) := by
  refine ⟨fun hard hard0 hsens hname =>
    ⟨_, python_label_dimensions_plg ard ts idx_name nb nt udf hard hard0 hsens hname,
      ?_, ?_, ?_, ?_, ?_, ?_, ?_⟩, ?_, fun _ => rfl⟩
  · simp; omega
  · simp; omega
  · simp; omega
  · simp; omega
  · simp
  · intro t ht
    have hlt : t < ard.length := by omega
    refine ⟨ard[t], List.getElem?_eq_getElem hlt, ?_, ?_, ?_, ?_⟩ <;>
      simp [List.getElem?_take, ht, List.getElem?_eq_getElem hlt]
  · intro b hb
    cases ard with
    | nil => exact absurd rfl (hard0 (by omega))
    | cons a0 rest =>
      refine ⟨a0, by simp, ?_⟩
      simp [hb]
  · intro hnb hts hidx
    refine ⟨_, by rw [python_label_dimensions_tsa ard ts idx_name nb nt udf hts hidx, if_pos hnb],
      ?_, ?_, ?_, ?_, ?_, ?_, ?_, ?_⟩
    · simp; omega
    · simp; omega
    · simp; omega
    · simp
    · simp; omega
    · intro t ht
      have hlt : t < ts.d_tsi.length := by omega
      refine ⟨ts.d_tsi[t], List.getElem?_eq_getElem hlt, ?_, ?_, ?_, ?_⟩ <;>
        simp [List.getElem?_take, ht, List.getElem?_eq_getElem hlt]
    · simp
    · intro b hb0 hb
      obtain ⟨k, rfl⟩ : ∃ k, b = k + 1 := ⟨b - 1, by omega⟩
      simp [List.getElem?_replicate]
      omega

/-- The amended C5 at `nt = 5`, `nb = 3`. Raster source, on five records and
time series arrays that hold nothing: five entries per time sequence and all
three band names are written. Series source, on the call of the
counterexample, which has no record at all: five entries per time sequence and
the first of three band names are written, the other two are not. -/
theorem python_label_dimensions_labels_witness :
    (∃ pylab, python_label_dimensions ard_five_steps ts_unconfigured Submodule._HL_PLG_ "NDVI"
        3 5 udf_block = Outcome.ret pylab ∧
      pylab.year.length = 5 ∧ pylab.sensor.length = 5 ∧ pylab.bandname.length = 3 ∧
      pylab.bandname[2]? = some (some "NIR")) ∧
    (∃ pylab, python_label_dimensions [] ts_five_steps Submodule._HL_TSA_ "NDVI"
        3 5 udf_block = Outcome.ret pylab ∧
      pylab.year.length = 5 ∧ pylab.sensor.length = 5 ∧ pylab.bandname.length = 3 ∧
      pylab.bandname[0]? = some (some "NDVI") ∧ pylab.bandname[1]? = some none ∧
      pylab.bandname[2]? = some none) ∧
    python_label_dimensions [] ts_five_steps (Submodule.other 7) "NDVI" 3 5 udf_block
      = Outcome.fatal Diag.unknown_submodule :=
  have hplg := (python_label_dimensions_labels ard_five_steps ts_unconfigured "NDVI" 3 5
    udf_block).1
    (by decide) (fun _ => by simp [ard_five_steps])
    (by
      intro t a ht ha
      have ht5 : t = 0 ∨ t = 1 ∨ t = 2 ∨ t = 3 ∨ t = 4 := by omega
      rcases ht5 with rfl | rfl | rfl | rfl | rfl <;>
        (simp only [ard_five_steps, List.getElem?_cons_succ, List.getElem?_cons_zero,
          Option.some.injEq] at ha
         subst ha
         decide))
    (by
      intro a0 b ha hb
      have hb3 : b = 0 ∨ b = 1 ∨ b = 2 := by omega
      simp only [ard_five_steps, List.getElem?_cons_zero, Option.some.injEq] at ha
      subst ha
      rcases hb3 with rfl | rfl | rfl <;> decide)
  have htsa := (python_label_dimensions_labels [] ts_five_steps "NDVI" 3 5 udf_block).2.1
    (by decide) (by decide) (by decide)
  ⟨let ⟨p, hp, h1, _, _, h4, h5, _, h7⟩ := hplg;
     ⟨p, hp, h1, h4, h5, by
       obtain ⟨a0, ha0, hb⟩ := h7 2 (by decide)
       simp only [ard_five_steps, List.getElem?_cons_zero, Option.some.injEq] at ha0
       rw [hb, ← ha0]
       rfl⟩,
   let ⟨p, hp, h1, _, _, h4, h5, _, h7, h8⟩ := htsa;
     ⟨p, hp, h1, h4, h5, h7, h8 1 (by decide) (by decide), h8 2 (by decide) (by decide)⟩,
   (python_label_dimensions_labels [] ts_five_steps "NDVI" 3 5 udf_block).2.2 7⟩

/-! ## C7: what the initialiser returns -/

/-- The band name loop of `init_pyp` over the first `n` elements of the
returned list ends in exactly one of three ways: it returns, the elements
being strings whose C strings fit, now stored in the table; or it reads
through a null pointer because an element is no string; or `copy_string` ends
the process because a C string does not fit. -/
theorem init_band_loop (xs : List PyObject) (udf1 : par_udf_t) (m : Nat)
    (hb : udf1.bandname = some (List.replicate m none)) :
    ∀ n, n ≤ xs.length → n ≤ m →
      (∃ ss : List String, xs.take n = ss.map PyObject.str ∧
        (∀ s ∈ ss, (c_string s).utf8ByteSize < NPOW_10) ∧
        for_upto (init_band xs) n udf1 = Outcome.ret
          { udf1 with bandname := some (ss.map (fun s => some (c_string s))
                                        ++ List.replicate (m - n) none) }) ∨
      ((∃ x ∈ xs.take n, ∀ s, x ≠ PyObject.str s) ∧
        for_upto (init_band xs) n udf1 = Outcome.undefined Undef.null_pointer) ∨
      ((∃ s, PyObject.str s ∈ xs.take n ∧ ¬ (c_string s).utf8ByteSize < NPOW_10) ∧
        for_upto (init_band xs) n udf1 = Outcome.fatal Diag.string_too_long) := by
  intro n
  induction n with
  | zero =>
    intro _ _
    left
    refine ⟨[], by simp, by simp, ?_⟩
    simp [for_upto, ← hb]
  | succ n ih =>
    intro hn hm
    have hlt : n < xs.length := by omega
    have hget : xs[n]? = some xs[n] := List.getElem?_eq_getElem hlt
    have htake : xs.take (n + 1) = xs.take n ++ [xs[n]] := by
      rw [List.take_succ, hget]; rfl
    rcases ih (by omega) (by omega) with ⟨ss, hss, hfit, hloop⟩ | ⟨⟨x, hx, hns⟩, hloop⟩ |
        ⟨⟨s, hs, hbig⟩, hloop⟩
    · have hlen : ss.length = n := by
        have := congrArg List.length hss
        simp at this
        omega
      cases hxn : xs[n] with
      | str s =>
        by_cases hs : (c_string s).utf8ByteSize < NPOW_10
        · left
          refine ⟨ss ++ [s], by rw [htake, hss, hxn]; simp, ?_, ?_⟩
          · intro s1 hs1
            rcases List.mem_append.mp hs1 with h | h
            · exact hfit s1 h
            · rw [List.mem_singleton.mp h]; exact hs
          · simp only [for_upto, hloop, Outcome.bind_ret, init_band, hget, hxn,
              PyUnicode_AsEncodedString, PyBytes_AsString, copy_string_fits _ _ hs,
              Outcome.ret_bind_do, Outcome.pure_eq_ret]
            rw [store_next _ _ _ _ (by simp [hlen]) (by omega)]
            have hsub : m - n - 1 = m - (n + 1) := by omega
            simp [hsub]
        · right; right
          refine ⟨⟨s, by rw [htake, hxn]; simp, hs⟩, ?_⟩
          have hcs : copy_string NPOW_10 (c_string s) = Outcome.fatal Diag.string_too_long := by
            unfold copy_string
            rw [if_neg (by omega)]
          simp only [for_upto, hloop, Outcome.bind_ret, init_band, hget, hxn,
            PyUnicode_AsEncodedString, PyBytes_AsString, hcs, Outcome.fatal_bind_do]
      | None =>
        right; left
        refine ⟨⟨PyObject.None, by rw [htake, hxn]; simp, fun s h => by cases h⟩, ?_⟩
        simp only [for_upto, hloop, Outcome.bind_ret, init_band, hget, hxn,
          PyUnicode_AsEncodedString, PyBytes_AsString, Outcome.bind_undefined]
      | long v =>
        right; left
        refine ⟨⟨PyObject.long v, by rw [htake, hxn]; simp, fun s h => by cases h⟩, ?_⟩
        simp only [for_upto, hloop, Outcome.bind_ret, init_band, hget, hxn,
          PyUnicode_AsEncodedString, PyBytes_AsString, Outcome.bind_undefined]
      | list ys =>
        right; left
        refine ⟨⟨PyObject.list ys, by rw [htake, hxn]; simp, fun s h => by cases h⟩, ?_⟩
        simp only [for_upto, hloop, Outcome.bind_ret, init_band, hget, hxn,
          PyUnicode_AsEncodedString, PyBytes_AsString, Outcome.bind_undefined]
      | ndarray a =>
        right; left
        refine ⟨⟨PyObject.ndarray a, by rw [htake, hxn]; simp, fun s h => by cases h⟩, ?_⟩
        simp only [for_upto, hloop, Outcome.bind_ret, init_band, hget, hxn,
          PyUnicode_AsEncodedString, PyBytes_AsString, Outcome.bind_undefined]
    · right; left
      refine ⟨⟨x, by rw [htake]; exact List.mem_append_left _ hx, hns⟩, ?_⟩
      simp only [for_upto, hloop, Outcome.bind_undefined]
    · right; right
      refine ⟨⟨s, by rw [htake]; exact List.mem_append_left _ hs, hbig⟩, ?_⟩
      simp only [for_upto, hloop, Outcome.bind_fatal]

/-- What `init_pyp` does once the entry point has given back a value. -/
theorem init_pyp_returned (env : PyEnv) (g : Globals) (ard : List ard_t) (ts : tsa_t)
    (submodule : Submodule) (idx_name : String) (nb nt : Nat) (udf : par_udf_t) (v : PyObject)
    (h : (init_pyp env g ard ts submodule idx_name nb nt udf).py_return = some v) :
    (∀ xs, v = PyObject.list xs →
      ((init_pyp env g ard ts submodule idx_name nb nt udf).outcome =
        (for_upto (init_band xs) xs.length
          { udf with nb := xs.length, bandname := some (List.replicate xs.length none) }).bind
          (fun _ => Outcome.ret ())) ∧
      (∀ udf2, for_upto (init_band xs) xs.length
          { udf with nb := xs.length, bandname := some (List.replicate xs.length none) }
          = Outcome.ret udf2 →
        (init_pyp env g ard ts submodule idx_name nb nt udf).udf = udf2)) ∧
    ((∀ xs, v ≠ PyObject.list xs) →
      (init_pyp env g ard ts submodule idx_name nb nt udf).outcome
        = Outcome.fatal Diag.not_a_list) := by
  unfold init_pyp at h ⊢
  simp only at h ⊢
  by_cases hout : udf.out = false
  · simp [hout] at h
  rw [if_neg hout] at h ⊢
  split at h
  · simp at h
  · simp at h
  · rename_i pylab hlab
    try simp only [hlab]
    split at h
    · simp at h
    · rename_i script hopen
      try simp only [hopen]
      split at h
      · simp at h
      · rename_i py_fun hfun
        try simp only [hfun]
        split at h
        · simp at h
        · rename_i py_return hcall
          try simp only [hcall]
          split at h
          · rename_i xs
            split at h
            all_goals (
              rename_i hl
              simp only [Option.some.injEq] at h
              subst h
              refine ⟨?_, fun hne => absurd rfl (hne xs)⟩
              intro ys hys
              cases hys
              try simp only [hl]
              simp)
          · rename_i hnl
            simp only [Option.some.injEq] at h
            subst h
            exact ⟨fun xs hxs => absurd hxs (hnl xs), fun _ => rfl⟩

/-- For every value `v` that `forcepy_init_` gives back to `init_pyp`:
`init_pyp` returns normally only if `v` is a list all of whose elements are
strings, and then `udf->nb` is the length of the list and `udf->bandname[b]`
holds the C string of the `b`-th string (the string up to its first zero
byte); if `v` is not a list the process ends with the did-not-return-a-list
diagnostic; if `v` is a list with an element that is no string, `init_pyp`
reads through a null pointer (or `copy_string` has ended the process before,
on a string that does not fit); the not-a-list-of-strings diagnostic is never
the way `init_pyp` ends; and a list of strings whose C strings fit makes
`init_pyp` return. -/
theorem init_pyp_value_cases (env : PyEnv) (g : Globals) (ard : List ard_t) (ts : tsa_t)
    (submodule : Submodule) (idx_name : String) (nb nt : Nat) (udf : par_udf_t) (v : PyObject)
    (hv : (init_pyp env g ard ts submodule idx_name nb nt udf).py_return = some v) :
    ((init_pyp env g ard ts submodule idx_name nb nt udf).outcome = Outcome.ret () →
      ∃ ss : List String, v = PyObject.list (ss.map PyObject.str) ∧
        (init_pyp env g ard ts submodule idx_name nb nt udf).udf.nb = ss.length ∧
        (init_pyp env g ard ts submodule idx_name nb nt udf).udf.bandname
          = some (ss.map fun s => some (c_string s))) ∧
    ((∀ xs, v ≠ PyObject.list xs) →
      (init_pyp env g ard ts submodule idx_name nb nt udf).outcome
        = Outcome.fatal Diag.not_a_list) ∧
    (∀ xs, v = PyObject.list xs → (∃ x ∈ xs, ∀ s, x ≠ PyObject.str s) →
      ((init_pyp env g ard ts submodule idx_name nb nt udf).outcome
          = Outcome.undefined Undef.null_pointer ∨
        (init_pyp env g ard ts submodule idx_name nb nt udf).outcome
          = Outcome.fatal Diag.string_too_long) ∧
      ((∀ s, PyObject.str s ∈ xs → (c_string s).utf8ByteSize < NPOW_10) →
        (init_pyp env g ard ts submodule idx_name nb nt udf).outcome
          = Outcome.undefined Undef.null_pointer)) ∧
    (init_pyp env g ard ts submodule idx_name nb nt udf).outcome
      ≠ Outcome.fatal Diag.not_a_list_of_strings ∧
    (∀ ss : List String, v = PyObject.list (ss.map PyObject.str) →
      (∀ s ∈ ss, (c_string s).utf8ByteSize < NPOW_10) →
      (init_pyp env g ard ts submodule idx_name nb nt udf).outcome = Outcome.ret ()) := by
  obtain ⟨hlist, hnot⟩ := init_pyp_returned env g ard ts submodule idx_name nb nt udf v hv
  have hloop := fun (xs : List PyObject) =>
    init_band_loop xs
      { udf with nb := xs.length, bandname := some (List.replicate xs.length none) }
      xs.length rfl xs.length (Nat.le_refl _) (Nat.le_refl _)
  refine ⟨?_, hnot, ?_, ?_, ?_⟩
  · intro hret
    cases v with
    | list xs =>
      obtain ⟨hout, hudf⟩ := hlist xs rfl
      rw [hout] at hret
      rcases hloop xs with ⟨ss, hss, _, hl⟩ | ⟨_, hl⟩ | ⟨_, hl⟩
      · have hlen : ss.length = xs.length := by
          have := congrArg List.length hss
          simpa using this.symm
        refine ⟨ss, ?_, ?_, ?_⟩
        · rw [← hss, List.take_length]
        · rw [hudf _ hl]; exact hlen.symm
        · rw [hudf _ hl]; simp
      · rw [hl] at hret; cases hret
      · rw [hl] at hret; cases hret
    | None => rw [hnot (fun xs h => by cases h)] at hret; cases hret
    | long n => rw [hnot (fun xs h => by cases h)] at hret; cases hret
    | str s => rw [hnot (fun xs h => by cases h)] at hret; cases hret
    | ndarray a => rw [hnot (fun xs h => by cases h)] at hret; cases hret
  · intro xs hxs hmem
    obtain ⟨x, hx, hns⟩ := hmem
    obtain ⟨hout, _⟩ := hlist xs hxs
    rw [hout]
    rcases hloop xs with ⟨ss, hss, _, _⟩ | ⟨_, hl⟩ | ⟨⟨s, hs, hbig⟩, hl⟩
    · exfalso
      rw [List.take_length] at hss
      rw [hss] at hx
      obtain ⟨s, _, hs⟩ := List.mem_map.mp hx
      exact hns s hs.symm
    · rw [hl]
      exact ⟨Or.inl rfl, fun _ => rfl⟩
    · rw [hl]
      refine ⟨Or.inr rfl, fun hfit => ?_⟩
      rw [List.take_length] at hs
      exact absurd (hfit s hs) hbig
  · cases v with
    | list xs =>
      obtain ⟨hout, _⟩ := hlist xs rfl
      rw [hout]
      rcases hloop xs with ⟨_, _, _, hl⟩ | ⟨_, hl⟩ | ⟨_, hl⟩ <;> rw [hl] <;> intro h <;> cases h
    | None => rw [hnot (fun xs h => by cases h)]; intro h; cases h
    | long n => rw [hnot (fun xs h => by cases h)]; intro h; cases h
    | str s => rw [hnot (fun xs h => by cases h)]; intro h; cases h
    | ndarray a => rw [hnot (fun xs h => by cases h)]; intro h; cases h
  · intro ss hss hfit
    obtain ⟨hout, _⟩ := hlist _ hss
    rw [hout]
    rcases hloop (ss.map PyObject.str) with ⟨_, _, _, hl⟩ | ⟨⟨x, hx, hns⟩, _⟩ | ⟨⟨s, hs, hbig⟩, _⟩
    · rw [hl]; rfl
    · exfalso
      rw [List.take_length] at hx
      obtain ⟨s, _, hs⟩ := List.mem_map.mp hx
      exact hns s hs.symm
    · exfalso
      rw [List.take_length] at hs
      obtain ⟨s1, hs1, he⟩ := List.mem_map.mp hs
      cases he
      exact hbig (hfit s hs1)

/-- An initialiser that declares the bands NDVI and EVI: `init_pyp` returns
with two bands of these names. -/
theorem init_pyp_two_names :
    (init_pyp env_init_names globals_block [] ts_two_steps Submodule._HL_TSA_ "NDVI" 1 2
      udf_block).outcome = Outcome.ret () ∧
    (init_pyp env_init_names globals_block [] ts_two_steps Submodule._HL_TSA_ "NDVI" 1 2
      udf_block).udf.nb = 2 ∧
    (init_pyp env_init_names globals_block [] ts_two_steps Submodule._HL_TSA_ "NDVI" 1 2
      udf_block).udf.bandname = some [some "NDVI", some "EVI"] := by
  decide

/-- An initialiser whose only band name has a zero character in it: `init_pyp`
returns, and the name stored is the part before the zero character, not the
string of the list. -/
theorem init_pyp_embedded_zero :
    (init_pyp env_init_zero globals_block [] ts_two_steps Submodule._HL_TSA_ "NDVI" 1 2
      udf_block).py_return = some (PyObject.list [PyObject.str "ND\x00VI"]) ∧
    (init_pyp env_init_zero globals_block [] ts_two_steps Submodule._HL_TSA_ "NDVI" 1 2
      udf_block).outcome = Outcome.ret () ∧
    (init_pyp env_init_zero globals_block [] ts_two_steps Submodule._HL_TSA_ "NDVI" 1 2
      udf_block).udf.bandname = some [some "ND"] :=
  ⟨rfl, by decide, by decide⟩

/-- C7 at a failing input. The initialiser gives back the list `['NDVI', 1]`.
The second element is no string, so `PyUnicode_AsEncodedString` gives NULL;
`init_pyp` hands that NULL to `PyBytes_AsString` without a test, which reads
through it. The process does not end with the not-a-list-of-strings
diagnostic, nor with any other diagnostic, and `init_pyp` does not return: the
behaviour of the C program is not defined from that call on. -/
theorem init_pyp_non_string_failing_input :
    (init_pyp env_init_mixed globals_block [] ts_two_steps Submodule._HL_TSA_ "NDVI" 1 2
      udf_block).py_return = some (PyObject.list [PyObject.str "NDVI", PyObject.long 1]) ∧
    PyUnicode_AsEncodedString (some (PyObject.long 1)) = none ∧
    PyBytes_AsString none = Outcome.undefined Undef.null_pointer ∧
    (init_pyp env_init_mixed globals_block [] ts_two_steps Submodule._HL_TSA_ "NDVI" 1 2
      udf_block).outcome = Outcome.undefined Undef.null_pointer ∧
    (init_pyp env_init_mixed globals_block [] ts_two_steps Submodule._HL_TSA_ "NDVI" 1 2
      udf_block).outcome ≠ Outcome.fatal Diag.not_a_list_of_strings :=
  ⟨rfl, rfl, rfl, by decide, by decide⟩

/-! ## C1: the copy into the data array -/

/-- Position of a pixel inside one band. -/
theorem pixel_lt (ny nx y x : Nat) (hy : y < ny) (hx : x < nx) : y * nx + x < ny * nx :=
  calc y * nx + x < y * nx + nx := by omega
    _ = (y + 1) * nx := by rw [Nat.succ_mul]
    _ ≤ ny * nx := Nat.mul_le_mul_right nx hy

/-- A sequence that returns has a first part that returned. -/
theorem Outcome.bind_eq_ret {α β : Type} (x : Outcome α) (f : α → Outcome β) (b : β)
    (h : x.bind f = Outcome.ret b) : ∃ a, x = Outcome.ret a ∧ f a = Outcome.ret b := by
  cases x with
  | ret a => exact ⟨a, rfl, h⟩
  | fatal d => cases h
  | undefined u => cases h

/-- What holds after `n` iterations of the copy to the output bands, if they
all returned: the pointer has advanced by `n*nc`, bands `0 .. n-1` hold the
first `n` runs of `nc` elements of the result, the other bands are as they
were. -/
theorem copy_out_loop_ret (bands : List (List Int)) (shorts : List Int) (nc : Nat) :
    ∀ n st, for_upto (copy_out_band shorts nc) n { pyp_ := bands, return_ := 0 }
        = Outcome.ret st →
      st.return_ = n * nc ∧ st.pyp_.length = bands.length ∧
      (∀ b p, b < n → p < nc →
        ∃ v, shorts[b * nc + p]? = some v ∧ get2 st.pyp_ b p = some v) ∧
      (∀ b, n ≤ b → st.pyp_[b]? = bands[b]?) := by
  intro n
  induction n with
  | zero =>
    intro st h
    simp only [for_upto, Outcome.ret.injEq] at h
    subst h
    exact ⟨by simp, rfl, fun b p hb _ => absurd hb (Nat.not_lt_zero b), fun _ _ => rfl⟩
  | succ n ih =>
    intro st h
    simp only [for_upto] at h
    obtain ⟨st1, h1, h2⟩ := Outcome.bind_eq_ret _ _ _ h
    obtain ⟨hret, hlen, hdone, hrest⟩ := ih st1 h1
    unfold copy_out_band at h2
    split at h2
    · cases h2
    · rename_i band hband
      split at h2
      · rename_i hcond
        simp only [Outcome.ret.injEq] at h2
        subst h2
        have hn : n < st1.pyp_.length := by
          rcases Nat.lt_or_ge n st1.pyp_.length with h | h
          · exact h
          · rw [List.getElem?_eq_none h] at hband; cases hband
        refine ⟨by simp [hret, Nat.succ_mul], by simp [hlen], ?_, ?_⟩
        · intro b p hb hp
          by_cases hbn : b = n
          · subst hbn
            have hlt : b * nc + p < shorts.length := by
              have := hcond.2
              rw [hret] at this
              omega
            refine ⟨shorts[b * nc + p], List.getElem?_eq_getElem hlt, ?_⟩
            simp only [get2, List.getElem?_set_self hn]
            have hchunk : ((List.drop st1.return_ shorts).take nc).length = nc := by
              simp; omega
            rw [List.getElem?_append_left (by rw [hchunk]; exact hp),
              List.getElem?_take_of_lt hp, List.getElem?_drop, hret,
              List.getElem?_eq_getElem hlt]
          · obtain ⟨v, hv1, hv2⟩ := hdone b p (by omega) hp
            refine ⟨v, hv1, ?_⟩
            simp only [get2] at hv2 ⊢
            rw [List.getElem?_set_ne (fun h => hbn h.symm)]
            exact hv2
        · intro b hb
          simp only
          rw [List.getElem?_set_ne (by omega)]
          exact hrest b (by omega)
      · cases h2

/-- What a call of `python_plugin` that returned SUCCESS has done: the entry
point gave back an object whose array data was copied, by the copy loop, to
the output bands of the selected source; the other source is untouched. -/
theorem python_plugin_success (env : PyEnv) (g : Globals) (ard : List ard_t) (plg : plg_t)
    (ts : tsa_t) (mask_ : List Int) (submodule : Submodule) (idx_name : String)
    (nx ny nc nb nt : Nat) (nodata : Int) (udf : par_udf_t) (cthread : Int)
    (h : (python_plugin env g ard plg ts mask_ submodule idx_name nx ny nc nb nt nodata udf
        cthread).outcome = Outcome.ret Status.SUCCESS) :
    ∃ obj shorts,
      (python_plugin env g ard plg ts mask_ submodule idx_name nx ny nc nb nt nodata udf
        cthread).py_return = some obj ∧
      PyArray_DATA obj = Outcome.ret shorts ∧
      ((submodule = Submodule._HL_PLG_ ∧ ∃ bands out, plg.pyp_ = some bands ∧
          python_plugin_copy_out bands shorts udf.nb nc = Outcome.ret out ∧
          (python_plugin env g ard plg ts mask_ submodule idx_name nx ny nc nb nt nodata udf
            cthread).plg = { plg with pyp_ := some out } ∧
          (python_plugin env g ard plg ts mask_ submodule idx_name nx ny nc nb nt nodata udf
            cthread).ts = ts) ∨
       (submodule = Submodule._HL_TSA_ ∧ ∃ bands out, ts.pyp_ = some bands ∧
          python_plugin_copy_out bands shorts udf.nb nc = Outcome.ret out ∧
          (python_plugin env g ard plg ts mask_ submodule idx_name nx ny nc nb nt nodata udf
            cthread).ts = { ts with pyp_ := some out } ∧
          (python_plugin env g ard plg ts mask_ submodule idx_name nx ny nc nb nt nodata udf
            cthread).plg = plg)) := by
  unfold python_plugin at h ⊢
  simp only at h ⊢
  by_cases hc1 : submodule = Submodule._HL_PLG_ ∧ plg.pyp_ = none
  · rw [if_pos hc1] at h; simp at h
  by_cases hc2 : submodule = Submodule._HL_TSA_ ∧ ts.pyp_ = none
  · rw [if_neg hc1, if_pos hc2] at h; simp at h
  rw [if_neg hc1, if_neg hc2] at h ⊢
  split at h
  · simp at h
  · simp at h
  split at h
  · simp at h
  split at h
  · simp at h
  split at h
  · simp at h
  · simp at h
  split at h
  · simp at h
  rename_i obj hcall
  split at h
  · simp at h
  · simp at h
  rename_i shorts hdata
  refine ⟨obj, shorts, ?_⟩
  split at h
  · split at h
    · simp at h
    · rename_i bands hbands
      split at h
      · rename_i out hout
        exact ⟨rfl, hdata, Or.inl ⟨rfl, bands, out, hbands, hout, rfl, rfl⟩⟩
      · simp at h
      · simp at h
  · split at h
    · simp at h
    · rename_i bands hbands
      split at h
      · rename_i out hout
        exact ⟨rfl, hdata, Or.inr ⟨rfl, bands, out, hbands, hout, rfl, rfl⟩⟩
      · simp at h
      · simp at h
  · simp at h

/-- Row and column of pixel `p` give back its position in the band. -/
theorem band_index (b ny nx p : Nat) :
    (b * ny + p / nx) * nx + p % nx = b * (ny * nx) + p := by
  have h := Nat.div_add_mod' p nx
  calc (b * ny + p / nx) * nx + p % nx = b * (ny * nx) + (p / nx * nx + p % nx) := by ring
    _ = b * (ny * nx) + p := by rw [h]

/-- C2. For every call of `python_plugin` that returned SUCCESS and in which
the entry point gave back a 16-bit array `R` of shape `(udf->nb, ny, nx)`,
with `nc = ny*nx`: the output bands of the selected source (`plg->pyp_` for
the raster source, `ts->pyp_` for the series source) satisfy
`out[b][p] = R[b][p / nx][p % nx]` for every `b < udf->nb` and `p < nc`. -/
theorem python_plugin_copy_out_bands (env : PyEnv) (g : Globals) (ard : List ard_t)
    (plg : plg_t) (ts : tsa_t) (mask_ : List Int) (submodule : Submodule) (idx_name : String)
    (nx ny nc nb nt : Nat) (nodata : Int) (udf : par_udf_t) (cthread : Int) (R : NdArray Int)
    (hok : (python_plugin env g ard plg ts mask_ submodule idx_name nx ny nc nb nt nodata udf
        cthread).outcome = Outcome.ret Status.SUCCESS)
    (hret : (python_plugin env g ard plg ts mask_ submodule idx_name nx ny nc nb nt nodata udf
        cthread).py_return = some (PyObject.ndarray R))
    (htype : R.dtype = DType.int16) (hshape : R.shape = [udf.nb, ny, nx])
    (hnc : nc = ny * nx) :
    (submodule = Submodule._HL_PLG_ →
      ∃ out, (python_plugin env g ard plg ts mask_ submodule idx_name nx ny nc nb nt nodata udf
          cthread).plg.pyp_ = some out ∧
        ∀ b p, b < udf.nb → p < nc →
          ∃ v, get2 out b p = some v ∧ R.get3 b (p / nx) (p % nx) = some v) ∧
    (submodule = Submodule._HL_TSA_ →
      ∃ out, (python_plugin env g ard plg ts mask_ submodule idx_name nx ny nc nb nt nodata udf
          cthread).ts.pyp_ = some out ∧
        ∀ b p, b < udf.nb → p < nc →
          ∃ v, get2 out b p = some v ∧ R.get3 b (p / nx) (p % nx) = some v) := by
  obtain ⟨obj, shorts, hobj, hdata, hcase⟩ := python_plugin_success env g ard plg ts mask_
    submodule idx_name nx ny nc nb nt nodata udf cthread hok
  rw [hret] at hobj
  simp only [Option.some.injEq] at hobj
  subst hobj
  simp only [PyArray_DATA, NdArray.shorts, htype, Outcome.ret.injEq] at hdata
  subst hdata
  have hpoint : ∀ bands out, python_plugin_copy_out bands R.data udf.nb nc = Outcome.ret out →
      ∀ b p, b < udf.nb → p < nc →
        ∃ v, get2 out b p = some v ∧ R.get3 b (p / nx) (p % nx) = some v := by
    intro bands out hout b p hb hp
    unfold python_plugin_copy_out at hout
    obtain ⟨st, hst, hst2⟩ := Outcome.bind_eq_ret _ _ _ hout
    simp only [Outcome.ret.injEq] at hst2
    subst hst2
    obtain ⟨_, _, hdone, _⟩ := copy_out_loop_ret bands R.data nc udf.nb st hst
    obtain ⟨v, hv1, hv2⟩ := hdone b p hb hp
    refine ⟨v, hv2, ?_⟩
    simp only [NdArray.get3, hshape, band_index, ← hnc]
    exact hv1
  rcases hcase with ⟨hsub, bands, out, _, hout, hplg, _⟩ | ⟨hsub, bands, out, _, hout, hts, _⟩
  · refine ⟨fun _ => ⟨out, by rw [hplg], hpoint bands out hout⟩, fun h => ?_⟩
    rw [hsub] at h; cases h
  · refine ⟨fun h => ?_, fun _ => ⟨out, by rw [hts], hpoint bands out hout⟩⟩
    rw [hsub] at h; cases h

/-- C2 on scenario A: whole-block mode, two time steps, two bands, a block of
two by two pixels, two output bands. -/
theorem python_plugin_copy_out_bands_witness :
    ∃ out, (python_plugin env_copy_first globals_block ard_two_steps plg_two_bands
        ts_unconfigured [] Submodule._HL_PLG_ "" 2 2 4 2 2 (-9999) udf_block_two 1).plg.pyp_
        = some out ∧
      ∀ b p, b < 2 → p < 4 →
        ∃ v, get2 out b p = some v ∧
          NdArray.get3 ({ dtype := DType.int16, shape := [2, 2, 2],
                          data := [11, 12, 13, 14, 11, 12, 13, 14] } : NdArray Int)
            b (p / 2) (p % 2) = some v :=
  (python_plugin_copy_out_bands env_copy_first globals_block ard_two_steps plg_two_bands
    ts_unconfigured [] Submodule._HL_PLG_ "" 2 2 4 2 2 (-9999) udf_block_two 1
    { dtype := DType.int16, shape := [2, 2, 2], data := [11, 12, 13, 14, 11, 12, 13, 14] }
    (by decide) rfl rfl rfl rfl).1 rfl

/-! ## C8: what the entry point gives back is not checked -/

/-- With enough bands of enough elements and enough result elements, the copy
to the output bands returns. -/
theorem python_plugin_copy_out_returns (bands : List (List Int)) (shorts : List Int)
    (n nc : Nat)
    (hbands : ∀ b, b < n → ∃ band, bands[b]? = some band ∧ nc ≤ band.length)
    (hdata : n * nc ≤ shorts.length) :
    ∃ out, python_plugin_copy_out bands shorts n nc = Outcome.ret out := by
  obtain ⟨st, hst, _⟩ := for_upto_inv (copy_out_band shorts nc)
    (fun i st => i ≤ n → (st.return_ = i * nc ∧ ∀ b, i ≤ b → st.pyp_[b]? = bands[b]?))
    n { pyp_ := bands, return_ := 0 }
    (fun _ => ⟨by simp, fun _ _ => rfl⟩)
    (by
      intro i st hi hP
      obtain ⟨hret, hrest⟩ := hP (Nat.le_of_lt hi)
      obtain ⟨band, hband, hlen⟩ := hbands i hi
      have hget : st.pyp_[i]? = some band := by rw [hrest i (Nat.le_refl i)]; exact hband
      have hle : (i + 1) * nc ≤ n * nc := Nat.mul_le_mul_right nc hi
      have hcond : nc ≤ band.length ∧ st.return_ + nc ≤ shorts.length := by
        refine ⟨hlen, ?_⟩
        rw [hret]
        rw [Nat.succ_mul] at hle
        omega
      have hbody : copy_out_band shorts nc i st = Outcome.ret
          { pyp_ := st.pyp_.set i ((shorts.drop st.return_).take nc ++ band.drop nc),
            return_ := st.return_ + nc } := by
        simp only [copy_out_band, hget, hcond, and_self, if_true]
      refine ⟨_, hbody, fun _ => ⟨?_, ?_⟩⟩
      · simp [hret, Nat.succ_mul]
      · intro b hb
        simp only
        rw [List.getElem?_set_ne (by omega)]
        exact hrest b (by omega))
  exact ⟨st.pyp_, by simp [python_plugin_copy_out, hst]⟩

/-- What `python_plugin` does with the value the entry point gave back. -/
theorem python_plugin_returned (env : PyEnv) (g : Globals) (ard : List ard_t) (plg : plg_t)
    (ts : tsa_t) (mask_ : List Int) (submodule : Submodule) (idx_name : String)
    (nx ny nc nb nt : Nat) (nodata : Int) (udf : par_udf_t) (cthread : Int) (obj : PyObject)
    (h : (python_plugin env g ard plg ts mask_ submodule idx_name nx ny nc nb nt nodata udf
        cthread).py_return = some obj) :
    (∀ u, PyArray_DATA obj = Outcome.undefined u →
      (python_plugin env g ard plg ts mask_ submodule idx_name nx ny nc nb nt nodata udf
        cthread).outcome = Outcome.undefined u) ∧
    (∀ shorts bands out, PyArray_DATA obj = Outcome.ret shorts →
      (submodule = Submodule._HL_PLG_ → plg.pyp_ = some bands) →
      (submodule = Submodule._HL_TSA_ → ts.pyp_ = some bands) →
      python_plugin_copy_out bands shorts udf.nb nc = Outcome.ret out →
      (python_plugin env g ard plg ts mask_ submodule idx_name nx ny nc nb nt nodata udf
        cthread).outcome = Outcome.ret Status.SUCCESS ∧
      (submodule = Submodule._HL_PLG_ →
        (python_plugin env g ard plg ts mask_ submodule idx_name nx ny nc nb nt nodata udf
          cthread).plg.pyp_ = some out) ∧
      (submodule = Submodule._HL_TSA_ →
        (python_plugin env g ard plg ts mask_ submodule idx_name nx ny nc nb nt nodata udf
          cthread).ts.pyp_ = some out)) := by
  unfold python_plugin at h ⊢
  simp only at h ⊢
  by_cases hc1 : submodule = Submodule._HL_PLG_ ∧ plg.pyp_ = none
  · rw [if_pos hc1] at h; simp at h
  by_cases hc2 : submodule = Submodule._HL_TSA_ ∧ ts.pyp_ = none
  · rw [if_neg hc1, if_pos hc2] at h; simp at h
  rw [if_neg hc1, if_neg hc2] at h ⊢
  split at h
  · simp at h
  · simp at h
  split at h
  · simp at h
  split at h
  · simp at h
  split at h
  · simp at h
  · simp at h
  split at h
  · simp at h
  rename_i obj1 hcall
  have hobj : obj1 = obj := by
    split at h
    · simpa using h
    · simpa using h
    · split at h
      · split at h
        · simpa using h
        · split at h <;> simpa using h
      · split at h
        · simpa using h
        · split at h <;> simpa using h
      · simpa using h
  subst hobj
  clear h
  refine ⟨?_, ?_⟩
  · intro u hu
    simp only [hu]
  · intro shorts bands out hshorts hp ht hout
    simp only [hshorts]
    cases submodule with
    | _HL_PLG_ =>
      simp only [hp rfl, hout]
      simp
    | _HL_TSA_ =>
      simp only [ht rfl, hout]
      simp
    | other code =>
      rename_i hlab _
      simp [python_label_dimensions] at hlab

/-- A call of the entry point that gave back NULL ends the process with the
NULL-returned diagnostic. -/
theorem python_plugin_null (env : PyEnv) (g : Globals) (ard : List ard_t) (plg : plg_t)
    (ts : tsa_t) (mask_ : List Int) (submodule : Submodule) (idx_name : String)
    (nx ny nc nb nt : Nat) (nodata : Int) (udf : par_udf_t) (cthread : Int)
    (hd : (python_plugin env g ard plg ts mask_ submodule idx_name nx ny nc nb nt nodata udf
        cthread).py_data ≠ none)
    (hr : (python_plugin env g ard plg ts mask_ submodule idx_name nx ny nc nb nt nodata udf
        cthread).py_return = none) :
    (python_plugin env g ard plg ts mask_ submodule idx_name nx ny nc nb nt nodata udf
        cthread).outcome = Outcome.fatal Diag.null_from_python := by
  have h := And.intro hd hr
  clear hd hr
  unfold python_plugin at h ⊢
  simp only at h ⊢
  by_cases hc1 : submodule = Submodule._HL_PLG_ ∧ plg.pyp_ = none
  · rw [if_pos hc1] at h; simp at h
  by_cases hc2 : submodule = Submodule._HL_TSA_ ∧ ts.pyp_ = none
  · rw [if_neg hc1, if_pos hc2] at h; simp at h
  rw [if_neg hc1, if_neg hc2] at h ⊢
  split at h
  · simp at h
  · simp at h
  split at h
  · simp at h
  split at h
  · simp at h
  split at h
  · simp at h
  · simp at h
  split at h
  · rfl
  · exfalso
    obtain ⟨_, hr⟩ := h
    split at hr
    · simp at hr
    · simp at hr
    · split at hr
      · split at hr
        · simp at hr
        · split at hr <;> simp at hr
      · split at hr
        · simp at hr
        · split at hr <;> simp at hr
      · simp at hr

/-- C8, as stated, fails. An entry point that gives back a 16-bit array of
shape `(2, 1, 2)` where `(udf->nb, ny, nx) = (1, 1, 2)`, or an array of
platform integers of the right shape, does not end the process: in both cases
`python_plugin` copies `udf->nb * nc` shorts from the storage of the value to
the output band and returns SUCCESS. -/
theorem unchecked_result_counterexample :
    (python_plugin env_wrong_shape globals_block ard_one_step plg_one_band ts_unconfigured []
        Submodule._HL_PLG_ "" 2 1 2 1 1 (-9999) udf_block 1).py_return
      = some (PyObject.ndarray { dtype := DType.int16, shape := [2, 1, 2],
                                 data := [1, 2, 3, 4] }) ∧
    ([2, 1, 2] : List Nat) ≠ [udf_block.nb, 1, 2] ∧
    (python_plugin env_wrong_shape globals_block ard_one_step plg_one_band ts_unconfigured []
        Submodule._HL_PLG_ "" 2 1 2 1 1 (-9999) udf_block 1).outcome
      = Outcome.ret Status.SUCCESS ∧
    (python_plugin env_wrong_shape globals_block ard_one_step plg_one_band ts_unconfigured []
        Submodule._HL_PLG_ "" 2 1 2 1 1 (-9999) udf_block 1).plg.pyp_ = some [[1, 2]] ∧
    (python_plugin env_wrong_type globals_block ard_one_step plg_one_band ts_unconfigured []
        Submodule._HL_PLG_ "" 2 1 2 1 1 (-9999) udf_block 1).py_return
      = some (PyObject.ndarray { dtype := DType.int64, shape := [1, 1, 2], data := [7, 8] }) ∧
    (python_plugin env_wrong_type globals_block ard_one_step plg_one_band ts_unconfigured []
        Submodule._HL_PLG_ "" 2 1 2 1 1 (-9999) udf_block 1).outcome
      = Outcome.ret Status.SUCCESS ∧
    (python_plugin env_wrong_type globals_block ard_one_step plg_one_band ts_unconfigured []
        Submodule._HL_PLG_ "" 2 1 2 1 1 (-9999) udf_block 1).plg.pyp_ = some [[7, 0]] :=
  ⟨rfl, by decide, by decide, by decide, rfl, by decide, by decide⟩

/-- A value that is no array: `python_plugin` takes its array data pointer
all the same, and the behaviour of the C program is undefined. -/
theorem python_plugin_non_array (env : PyEnv) (g : Globals) (ard : List ard_t)
    (plg : plg_t) (ts : tsa_t) (mask_ : List Int) (submodule : Submodule) (idx_name : String)
    (nx ny nc nb nt : Nat) (nodata : Int) (udf : par_udf_t) (cthread : Int) (obj : PyObject)
    (hret : (python_plugin env g ard plg ts mask_ submodule idx_name nx ny nc nb nt nodata udf
        cthread).py_return = some obj)
    (hna : ∀ a, obj ≠ PyObject.ndarray a) :
    (python_plugin env g ard plg ts mask_ submodule idx_name nx ny nc nb nt nodata udf
        cthread).outcome = Outcome.undefined Undef.not_an_array := by
  refine (python_plugin_returned env g ard plg ts mask_ submodule idx_name nx ny nc nb nt
    nodata udf cthread _ hret).1 _ ?_
  cases obj with
  | ndarray a => exact absurd rfl (hna a)
  | None => rfl
  | long v => rfl
  | str s => rfl
  | list xs => rfl

/-- C8, amended. `python_plugin` ends the process with a diagnostic when the
entry point gives back NULL. An array that it gives back is not checked for
shape or element type: if its storage holds at least `udf->nb * nc` shorts,
and the output bands of the selected source exist with at least `nc` elements
each, `python_plugin` returns SUCCESS and output band `b` holds shorts
`b*nc .. b*nc + nc - 1` of that storage, whatever the shape and the element
type of the array. -/
theorem python_plugin_unchecked_result (env : PyEnv) (g : Globals) (ard : List ard_t)
    (plg : plg_t) (ts : tsa_t) (mask_ : List Int) (submodule : Submodule) (idx_name : String)
    (nx ny nc nb nt : Nat) (nodata : Int) (udf : par_udf_t) (cthread : Int) :
    ((python_plugin env g ard plg ts mask_ submodule idx_name nx ny nc nb nt nodata udf
        cthread).py_data ≠ none →
      (python_plugin env g ard plg ts mask_ submodule idx_name nx ny nc nb nt nodata udf
        cthread).py_return = none →
      (python_plugin env g ard plg ts mask_ submodule idx_name nx ny nc nb nt nodata udf
        cthread).outcome = Outcome.fatal Diag.null_from_python) ∧
    (∀ a bands,
      (python_plugin env g ard plg ts mask_ submodule idx_name nx ny nc nb nt nodata udf
        cthread).py_return = some (PyObject.ndarray a) →
      (submodule = Submodule._HL_PLG_ → plg.pyp_ = some bands) →
      (submodule = Submodule._HL_TSA_ → ts.pyp_ = some bands) →
      (∀ b, b < udf.nb → ∃ band, bands[b]? = some band ∧ nc ≤ band.length) →
      udf.nb * nc ≤ a.shorts.length →
      (python_plugin env g ard plg ts mask_ submodule idx_name nx ny nc nb nt nodata udf
        cthread).outcome = Outcome.ret Status.SUCCESS ∧
      ∃ out,
        (submodule = Submodule._HL_PLG_ →
          (python_plugin env g ard plg ts mask_ submodule idx_name nx ny nc nb nt nodata udf
            cthread).plg.pyp_ = some out) ∧
        (submodule = Submodule._HL_TSA_ →
          (python_plugin env g ard plg ts mask_ submodule idx_name nx ny nc nb nt nodata udf
            cthread).ts.pyp_ = some out) ∧
        ∀ b p, b < udf.nb → p < nc →
          ∃ v, a.shorts[b * nc + p]? = some v ∧ get2 out b p = some v) := by
  refine ⟨python_plugin_null env g ard plg ts mask_ submodule idx_name nx ny nc nb nt nodata
    udf cthread, ?_⟩
  intro a bands hret hp ht hbands hdata
  obtain ⟨out, hout⟩ := python_plugin_copy_out_returns bands a.shorts udf.nb nc hbands hdata
  obtain ⟨hok, hplg, hts⟩ := (python_plugin_returned env g ard plg ts mask_ submodule
    idx_name nx ny nc nb nt nodata udf cthread _ hret).2 a.shorts bands out rfl hp ht hout
  refine ⟨hok, out, hplg, hts, ?_⟩
  unfold python_plugin_copy_out at hout
  obtain ⟨st, hst, hst2⟩ := Outcome.bind_eq_ret _ _ _ hout
  simp only [Outcome.ret.injEq] at hst2
  subst hst2
  exact (copy_out_loop_ret bands a.shorts nc udf.nb st hst).2.2.1

/-- The amended C8 at a concrete call: the array of shape `(2, 1, 2)` is
accepted and its first two shorts land in the output band. -/
theorem python_plugin_unchecked_result_witness :
    (python_plugin env_wrong_shape globals_block ard_one_step plg_one_band ts_unconfigured []
        Submodule._HL_PLG_ "" 2 1 2 1 1 (-9999) udf_block 1).outcome
      = Outcome.ret Status.SUCCESS :=
  ((python_plugin_unchecked_result env_wrong_shape globals_block ard_one_step plg_one_band
      ts_unconfigured [] Submodule._HL_PLG_ "" 2 1 2 1 1 (-9999) udf_block 1).2
    { dtype := DType.int16, shape := [2, 1, 2], data := [1, 2, 3, 4] } [[0, 0]]
    rfl (fun _ => rfl) (fun h => by cases h)
    (by
      intro b hb
      have hb0 : b = 0 := by
        have : udf_block.nb = 1 := rfl
        omega
      subst hb0
      exact ⟨_, rfl, by decide⟩)
    (by decide)).1

/-! ## C10: the pooled trampoline -/

/-- Bodies that agree below the bound give the same loop. -/
theorem py_for_congr {σ : Type} (body body1 : Nat → σ → Option σ) :
    ∀ n s, (∀ i, i < n → ∀ s1, body i s1 = body1 i s1) → py_for body n s = py_for body1 n s := by
  intro n
  induction n with
  | zero => intro s _; rfl
  | succ n ih =>
    intro s h
    simp only [py_for, ih s (fun i hi => h i (by omega))]
    cases py_for body1 n s with
    | none => rfl
    | some s1 => exact h n (by omega) s1

/-- A loop over `m + n` iterations is a loop over `m` followed by a loop over
`n`. -/
theorem py_for_add {σ : Type} (body : Nat → σ → Option σ) (m : Nat) :
    ∀ n s, py_for body (m + n) s
      = (py_for body m s).bind (fun s1 => py_for (fun i => body (m + i)) n s1) := by
  intro n
  induction n with
  | zero => intro s; cases h : py_for body m s <;> simp [py_for, h]
  | succ n ih =>
    intro s
    rw [← Nat.add_assoc]
    simp only [py_for, ih s]
    cases py_for body m s with
    | none => rfl
    | some s1 => rfl

/-- Two nested loops, rows outside and columns inside, are one loop over the
pixels in row-major order. -/
theorem py_for_nested {σ : Type} (f : Nat → Nat → σ → Option σ) (nX : Nat) :
    ∀ nY s, py_for (fun yi st => py_for (fun xi st1 => f yi xi st1) nX st) nY s
      = py_for (fun q st => f (q / nX) (q % nX) st) (nY * nX) s := by
  intro nY
  induction nY with
  | zero => intro s; simp [py_for]
  | succ nY ih =>
    intro s
    rw [Nat.succ_mul, py_for_add (fun q st => f (q / nX) (q % nX) st) (nY * nX) nX s]
    simp only [py_for, ih s]
    cases py_for (fun q st => f (q / nX) (q % nX) st) (nY * nX) s with
    | none => rfl
    | some s1 =>
      simp only [Option.bind_some]
      apply py_for_congr
      intro i hi s2
      have hpos : 0 < nX := by omega
      have h1 : (nY * nX + i) / nX = nY := by
        rw [Nat.mul_comm, Nat.mul_add_div hpos, Nat.div_eq_of_lt hi, Nat.add_zero]
      have h2 : (nY * nX + i) % nX = i := by
        rw [Nat.mul_comm, Nat.mul_add_mod, Nat.mod_eq_of_lt hi]
      rw [h1, h2]

/-- The task list in row-major order. -/
theorem pooled_tasks_eq (px : PixelFn) (a : ForcepyArgs) (date : List Int) (nX : Nat) :
    ∀ nY, pooled_tasks px a date nY nX
      = (List.range (nY * nX)).map (fun q => pooled_task px a date (q / nX) (q % nX)) := by
  intro nY
  induction nY with
  | zero => simp [pooled_tasks]
  | succ nY ih =>
    unfold pooled_tasks at ih ⊢
    rw [List.range_succ, List.flatMap_append, ih, Nat.succ_mul, List.range_add, List.map_append]
    congr 1
    simp only [List.flatMap_cons, List.flatMap_nil, List.append_nil, List.map_map]
    apply List.map_congr_left
    intro i hi
    have hi : i < nX := List.mem_range.mp hi
    have hpos : 0 < nX := by omega
    have h1 : (nY * nX + i) / nX = nY := by
      rw [Nat.mul_comm, Nat.mul_add_div hpos, Nat.div_eq_of_lt hi, Nat.add_zero]
    have h2 : (nY * nX + i) % nX = i := by
      rw [Nat.mul_comm, Nat.mul_add_mod, Nat.mod_eq_of_lt hi]
    simp [h1, h2]

/-- The offset of element `[k, y, x]` lies inside the storage. -/
theorem idx3_lt (n nY nX k y x : Nat) (hk : k < n) (hy : y < nY) (hx : x < nX) :
    (k * nY + y) * nX + x < n * nY * nX := by
  have h1 : k * nY + y < n * nY := pixel_lt n nY k y hk hy
  exact pixel_lt (n * nY) nX (k * nY + y) x h1 hx

/-- Different indices have different offsets. -/
theorem idx3_inj (nY nX k y x k1 y1 x1 : Nat) (hy : y < nY) (hx : x < nX)
    (hy1 : y1 < nY) (hx1 : x1 < nX)
    (h : (k * nY + y) * nX + x = (k1 * nY + y1) * nX + x1) : k = k1 ∧ y = y1 ∧ x = x1 := by
  have hposX : 0 < nX := by omega
  have hposY : 0 < nY := by omega
  have hmodX : ∀ a b, b < nX → (a * nX + b) % nX = b := by
    intro a b hb
    rw [Nat.mul_comm, Nat.mul_add_mod, Nat.mod_eq_of_lt hb]
  have hdivX : ∀ a b, b < nX → (a * nX + b) / nX = a := by
    intro a b hb
    rw [Nat.mul_comm, Nat.mul_add_div hposX, Nat.div_eq_of_lt hb, Nat.add_zero]
  have hmodY : ∀ a b, b < nY → (a * nY + b) % nY = b := by
    intro a b hb
    rw [Nat.mul_comm, Nat.mul_add_mod, Nat.mod_eq_of_lt hb]
  have hdivY : ∀ a b, b < nY → (a * nY + b) / nY = a := by
    intro a b hb
    rw [Nat.mul_comm, Nat.mul_add_div hposY, Nat.div_eq_of_lt hb, Nat.add_zero]
  have hx2 : x = x1 := by
    have := congrArg (· % nX) h
    simpa [hmodX _ _ hx, hmodX _ _ hx1] using this
  have hrow : k * nY + y = k1 * nY + y1 := by
    have := congrArg (· / nX) h
    simpa [hdivX _ _ hx, hdivX _ _ hx1] using this
  have hy2 : y = y1 := by
    have := congrArg (· % nY) hrow
    simpa [hmodY _ _ hy, hmodY _ _ hy1] using this
  have hk2 : k = k1 := by
    have := congrArg (· / nY) hrow
    simpa [hdivY _ _ hy, hdivY _ _ hy1] using this
  exact ⟨hk2, hy2, hx2⟩

/-- An assignment inside the array stores the converted value at the offset
of the index and keeps type, shape and size. -/
theorem setitem3_spec (a : NdArray Int) (d : DType) (n nY nX k y x : Nat) (v : Int)
    (ha : a.is3 d n nY nX) (hk : k < n) (hy : y < nY) (hx : x < nX) :
    setitem3 a k y x v
        = some { a with data := a.data.set ((k * nY + y) * nX + x) (d.cast v) } ∧
      NdArray.is3 { a with data := a.data.set ((k * nY + y) * nX + x) (d.cast v) } d n nY nX := by
  obtain ⟨hd, hs, hl⟩ := ha
  refine ⟨?_, hd, hs, by simp [hl]⟩
  unfold setitem3
  simp only [hs, hk, hy, hx, and_self, if_true, hd]

/-- The assignment `oblock[:, yi, xi] = r` stores the converted elements of
`r` in column `(yi, xi)` and leaves every other element as it was. -/
theorem setcol_spec (ob r : NdArray Int) (d : DType) (n nY nX yi xi : Nat)
    (hob : ob.is3 d n nY nX) (hr : r.shape = [n]) (hrl : r.data.length = n)
    (hy : yi < nY) (hx : xi < nX) :
    ∃ ob1, setcol ob yi xi r = some ob1 ∧ ob1.is3 d n nY nX ∧
      (∀ k, k < n → ob1.data[(k * nY + yi) * nX + xi]? = (r.data[k]?).map d.cast) ∧
      (∀ i, (∀ k, k < n → i ≠ (k * nY + yi) * nX + xi) → ob1.data[i]? = ob.data[i]?) := by
  obtain ⟨ob1, h1, hP⟩ := py_for_inv
    (fun k ob0 =>
      match r.data[k]? with
      | some v => setitem3 ob0 k yi xi v
      | none => none)
    (fun m ob0 => m ≤ n → (ob0.is3 d n nY nX ∧
      (∀ k, k < m → ob0.data[(k * nY + yi) * nX + xi]? = (r.data[k]?).map d.cast) ∧
      (∀ i, (∀ k, k < m → i ≠ (k * nY + yi) * nX + xi) → ob0.data[i]? = ob.data[i]?)))
    n ob
    (fun _ => ⟨hob, fun k hk => absurd hk (Nat.not_lt_zero k), fun _ _ => rfl⟩)
    (by
      intro k ob0 hk hP
      obtain ⟨h3, hdone, hrest⟩ := hP (Nat.le_of_lt hk)
      have hkr : k < r.data.length := by rw [hrl]; exact hk
      obtain ⟨hset, h3'⟩ := setitem3_spec ob0 d n nY nX k yi xi r.data[k] h3 hk hy hx
      refine ⟨_, by simp only [List.getElem?_eq_getElem hkr, hset], fun _ => ⟨h3', ?_, ?_⟩⟩
      · intro k1 hk1
        simp only
        by_cases hkk : k1 = k
        · subst hkk
          rw [List.getElem?_set_self (by rw [h3.2.2]; exact idx3_lt n nY nX k1 yi xi hk hy hx),
            List.getElem?_eq_getElem hkr]
          rfl
        · rw [List.getElem?_set_ne (by
            intro h
            exact hkk (idx3_inj nY nX k yi xi k1 yi xi hy hx hy hx h).1.symm)]
          exact hdone k1 (by omega)
      · intro i hi
        simp only
        rw [List.getElem?_set_ne (fun h => hi k (by omega) h.symm)]
        exact hrest i (fun k1 hk1 => hi k1 (by omega)))
  obtain ⟨h3, hdone, hrest⟩ := hP (Nat.le_refl n)
  refine ⟨ob1, ?_, h3, hdone, hrest⟩
  unfold setcol
  simp only [hob.2.1, hr, if_true, h1]

/-- Row and column of the pixel at row-major position `q`. -/
theorem pixel_of_position (nY nX q : Nat) (hq : q < nY * nX) :
    q / nX < nY ∧ q % nX < nX ∧ q / nX * nX + q % nX = q := by
  have hpos : 0 < nX := by
    rcases Nat.eq_zero_or_pos nX with h | h
    · subst h; simp at hq
    · exact h
  refine ⟨?_, Nat.mod_lt q hpos, Nat.div_add_mod' q nX⟩
  rw [Nat.div_lt_iff_lt_mul hpos]
  exact hq

/-- The row-major position determines the pixel. -/
theorem position_inj (nX yi xi q : Nat) (hx : xi < nX) (h : yi * nX + xi = q) :
    yi = q / nX ∧ xi = q % nX := by
  have hpos : 0 < nX := by omega
  subst h
  constructor
  · rw [Nat.mul_comm, Nat.mul_add_div hpos, Nat.div_eq_of_lt hx, Nat.add_zero]
  · rw [Nat.mul_comm, Nat.mul_add_mod, Nat.mod_eq_of_lt hx]

/-- The reassembly loops write the result of task `yi*nX + xi` to column
`(yi, xi)`, for every pixel. -/
theorem pooled_reassemble_spec (res : List (NdArray Int)) (d : DType) (n nY nX : Nat)
    (ob : NdArray Int) (hob : ob.is3 d n nY nX) (hres : res.length = nY * nX)
    (hshape : ∀ r ∈ res, r.shape = [n] ∧ r.data.length = n) :
    ∃ st, pooled_reassemble res nY nX ob = some st ∧ st.i = nY * nX ∧
      st.oblock.is3 d n nY nX ∧
      ∀ k yi xi, k < n → yi < nY → xi < nX →
        st.oblock.data[(k * nY + yi) * nX + xi]?
          = ((res[yi * nX + xi]?).bind (fun r => r.data[k]?)).map d.cast := by
  unfold pooled_reassemble
  rw [py_for_nested (fun yi xi (st : Reassembly) =>
      match res[st.i]? with
      | none => none
      | some r =>
        match setcol st.oblock yi xi r with
        | none => none
        | some ob => some { oblock := ob, i := st.i + 1 }) nX nY]
  obtain ⟨st, hst, hP⟩ := py_for_inv
    (fun q (st : Reassembly) =>
      match res[st.i]? with
      | none => none
      | some r =>
        match setcol st.oblock (q / nX) (q % nX) r with
        | none => none
        | some ob => some { oblock := ob, i := st.i + 1 })
    (fun q st => q ≤ nY * nX → (st.i = q ∧ st.oblock.is3 d n nY nX ∧
      ∀ k yi xi, k < n → yi < nY → xi < nX → yi * nX + xi < q →
        st.oblock.data[(k * nY + yi) * nX + xi]?
          = ((res[yi * nX + xi]?).bind (fun r => r.data[k]?)).map d.cast))
    (nY * nX) { oblock := ob, i := 0 }
    (fun _ => ⟨rfl, hob, fun _ _ _ _ _ _ h => absurd h (Nat.not_lt_zero _)⟩)
    (by
      intro q st hq hP
      obtain ⟨hi, h3, hdone⟩ := hP (Nat.le_of_lt hq)
      obtain ⟨hyq, hxq, hqq⟩ := pixel_of_position nY nX q hq
      have hql : q < res.length := by rw [hres]; exact hq
      have hget : res[st.i]? = some res[q] := by rw [hi]; exact List.getElem?_eq_getElem hql
      obtain ⟨hrs, hrl⟩ := hshape res[q] (List.getElem_mem hql)
      obtain ⟨ob1, hset, h3', hcol, hrest⟩ :=
        setcol_spec st.oblock res[q] d n nY nX (q / nX) (q % nX) h3 hrs hrl hyq hxq
      refine ⟨{ oblock := ob1, i := st.i + 1 }, by simp only [hget, hset],
        fun _ => ⟨by simp [hi], h3', ?_⟩⟩
      intro k yi xi hk hy hx hlt
      simp only
      by_cases hpq : yi * nX + xi = q
      · obtain ⟨hy2, hx2⟩ := position_inj nX yi xi q hx hpq
        subst hy2 hx2
        rw [hcol k hk, hpq, List.getElem?_eq_getElem hql]
        rfl
      · rw [hrest _ (by
          intro k1 _ h
          obtain ⟨_, hy2, hx2⟩ := idx3_inj nY nX k yi xi k1 (q / nX) (q % nX) hy hx hyq hxq h
          apply hpq
          rw [hy2, hx2]
          exact hqq)]
        exact hdone k yi xi hk hy hx (by omega))
  obtain ⟨hi, h3, hdone⟩ := hP (Nat.le_refl _)
  exact ⟨st, hst, hi, h3, fun k yi xi hk hy hx =>
    hdone k yi xi hk hy hx (pixel_lt nY nX yi xi hy hx)⟩

/-- Converting a converted value changes nothing. -/
theorem cast_cast (d : DType) (v : Int) : d.cast (d.cast v) = d.cast v := by
  cases d <;> simp only [DType.cast, wrap_signed] <;> norm_num

theorem np_full_is1 (n : Nat) (v : Int) (d : DType) : (np_full [n] v d).is1 d n := by
  simp [NdArray.is1, np_full]

theorem np_full_is3 (n nY nX : Nat) (v : Int) (d : DType) :
    (np_full [n, nY, nX] v d).is3 d n nY nX := by
  simp [NdArray.is3, np_full, Nat.mul_assoc]

theorem np_full_canonical (shape : List Nat) (v : Int) (d : DType) :
    (np_full shape v d).canonical := by
  intro x hx
  simp only [np_full, List.mem_replicate] at hx
  rw [hx.2]
  exact cast_cast d v

/-- An assignment to a one-dimensional array succeeds exactly inside the
array, and keeps it well formed. -/
theorem setitem1_spec (a : NdArray Int) (d : DType) (n k : Nat) (v : Int) (ha : a.is1 d n) :
    setitem1 a k v
      = if k < n then some { a with data := a.data.set k (d.cast v) } else none := by
  unfold setitem1
  simp only [ha.2.1, ha.1]

theorem set_is1 (a : NdArray Int) (d : DType) (n k : Nat) (v : Int) (ha : a.is1 d n) :
    NdArray.is1 { a with data := a.data.set k v } d n :=
  ⟨ha.1, ha.2.1, by simp [ha.2.2]⟩

theorem set_canonical (a : NdArray Int) (k : Nat) (v : Int) (ha : a.canonical) :
    NdArray.canonical { a with data := a.data.set k (a.dtype.cast v) } := by
  intro x hx
  rcases List.mem_or_eq_of_mem_set hx with h | h
  · exact ha x h
  · rw [h]; exact cast_cast _ v

/-- The assignments of a pixel function keep `outarray` well formed. -/
theorem apply_writes1_is1 (d : DType) (n : Nat) :
    ∀ (ws : List (Nat × Int)) (a r : NdArray Int), a.is1 d n → a.canonical →
      apply_writes1 a ws = some r → r.is1 d n ∧ r.canonical := by
  intro ws
  induction ws with
  | nil =>
    intro a r ha hc h
    simp only [apply_writes1, Option.some.injEq] at h
    subst h
    exact ⟨ha, hc⟩
  | cons w ws ih =>
    intro a r ha hc h
    obtain ⟨k, v⟩ := w
    simp only [apply_writes1, setitem1_spec a d n k v ha] at h
    by_cases hk : k < n
    · simp only [hk, if_true] at h
      refine ih _ r (set_is1 a d n k _ ha) ?_ h
      have := set_canonical a k v hc
      rw [ha.1] at this
      intro x hx
      have hx2 := this x hx
      simp only [ha.1] at hx2 ⊢
      exact hx2
    · simp only [hk, if_false] at h
      cases h

/-- What `forcepy_wrapper` returns is a 16-bit vector with one element per
output band. -/
theorem forcepy_wrapper_is1 (args : WrapperArgs) (r : NdArray Int)
    (h : forcepy_wrapper args = some r) : r.is1 DType.int16 args.nband ∧ r.canonical := by
  unfold forcepy_wrapper at h
  simp only at h
  split at h
  · cases h
  · exact apply_writes1_is1 DType.int16 args.nband _ _ r (np_full_is1 _ _ _)
      (np_full_canonical _ _ _) h

/-- The results of `pool.map` are the results of the tasks, in the order of
the tasks. -/
theorem pool_map_some {α β : Type} (func : α → Option β) :
    ∀ (l : List α) (res : List β), pool_map func l = some res →
      res.length = l.length ∧
      ∀ (i : Nat) (x : α), l[i]? = some x → ∃ r, res[i]? = some r ∧ func x = some r := by
  intro l
  induction l with
  | nil =>
    intro res h
    simp only [pool_map, Option.some.injEq] at h
    subst h
    exact ⟨rfl, fun i x hx => by simp at hx⟩
  | cons a rest ih =>
    intro res h
    simp only [pool_map] at h
    split at h
    · cases h
    · rename_i b hb
      split at h
      · cases h
      · rename_i bs hbs
        simp only [Option.some.injEq] at h
        subst h
        obtain ⟨hlen, hget⟩ := ih bs hbs
        refine ⟨by simp [hlen], ?_⟩
        intro i x hx
        cases i with
        | zero =>
          simp only [List.getElem?_cons_zero, Option.some.injEq] at hx
          subst hx
          exact ⟨b, by simp, hb⟩
        | succ i =>
          simp only [List.getElem?_cons_succ] at hx ⊢
          exact hget i x hx

/-- `pool.map` returns if every task returns. -/
theorem pool_map_total {α β : Type} (func : α → Option β) :
    ∀ (l : List α), (∀ x ∈ l, ∃ r, func x = some r) → ∃ res, pool_map func l = some res := by
  intro l
  induction l with
  | nil => intro _; exact ⟨[], rfl⟩
  | cons a rest ih =>
    intro h
    obtain ⟨b, hb⟩ := h a (List.mem_cons_self _ _)
    obtain ⟨bs, hbs⟩ := ih (fun x hx => h x (List.mem_cons_of_mem _ hx))
    exact ⟨b :: bs, by simp only [pool_map, hb, hbs]⟩

/-- `pool.map` raises if a task raises. -/
theorem pool_map_none {α β : Type} (func : α → Option β) :
    ∀ (l : List α) (x : α), x ∈ l → func x = none → pool_map func l = none := by
  intro l
  induction l with
  | nil => intro x hx _; cases hx
  | cons a rest ih =>
    intro x hx hf
    simp only [pool_map]
    rcases List.mem_cons.mp hx with h | h
    · subst h; simp only [hf]
    · cases func a with
      | none => rfl
      | some b => simp only [ih x h hf]

/-- The pooled trampoline, when every task returns: the result has one 16-bit
element per output band and pixel, and column `(yi, xi)` is the vector that
`forcepy_wrapper` produced for the task of pixel `(yi, xi)`. -/
theorem forcepy_pooled_try_spec (env : PyEnv) (g : Globals) (a : ForcepyArgs)
    (nD nB nY nX : Nat) (date : List Int) (px : PixelFn)
    (hshape : a.iblock.shape = [nD, nB, nY, nX]) (hproc : 1 ≤ a.nproc)
    (hdate : env.date2epoch a.year a.month a.day = some date)
    (hpx : g.forcepy_pixel = some px)
    (hall : ∀ yi xi, yi < nY → xi < nX →
      ∃ r, forcepy_wrapper (pooled_task px a date yi xi) = some r) :
    ∃ ob, forcepy_pooled_try env g a = some ob ∧ ob.is3 DType.int16 a.nband nY nX ∧
      ∀ k yi xi, k < a.nband → yi < nY → xi < nX →
        ∃ r, forcepy_wrapper (pooled_task px a date yi xi) = some r ∧
          ob.get3 k yi xi = r.data[k]? := by
  have htasks := pooled_tasks_eq px a date nX nY
  have htl : (pooled_tasks px a date nY nX).length = nY * nX := by simp [htasks]
  have htget : ∀ q, q < nY * nX → (pooled_tasks px a date nY nX)[q]?
      = some (pooled_task px a date (q / nX) (q % nX)) := by
    intro q hq
    simp [htasks, hq]
  obtain ⟨res, hres⟩ := pool_map_total forcepy_wrapper (pooled_tasks px a date nY nX) (by
    intro x hx
    rw [htasks] at hx
    obtain ⟨q, hq, rfl⟩ := List.mem_map.mp hx
    obtain ⟨hy, hx2, _⟩ := pixel_of_position nY nX q (List.mem_range.mp hq)
    exact hall _ _ hy hx2)
  obtain ⟨hlen, hget⟩ := pool_map_some forcepy_wrapper _ res hres
  have hresq : ∀ q, q < nY * nX → ∃ r, res[q]? = some r ∧
      forcepy_wrapper (pooled_task px a date (q / nX) (q % nX)) = some r :=
    fun q hq => hget q _ (htget q hq)
  have hshapes : ∀ r ∈ res, r.shape = [a.nband] ∧ r.data.length = a.nband := by
    intro r hr
    obtain ⟨q, hq, hrq⟩ := List.getElem_of_mem hr
    have hq2 : q < nY * nX := by rw [← htl, ← hlen]; exact hq
    obtain ⟨r1, hr1, hw⟩ := hresq q hq2
    rw [List.getElem?_eq_getElem hq, hrq] at hr1
    cases hr1
    have := (forcepy_wrapper_is1 _ r hw).1
    exact ⟨this.2.1, this.2.2⟩
  obtain ⟨st, hst, _, h3, hval⟩ := pooled_reassemble_spec res DType.int16 a.nband nY nX
    (np_full [a.nband, nY, nX] a.nodata DType.int16) (np_full_is3 _ _ _ _ _)
    (by rw [hlen, htl]) hshapes
  have hnp : ¬ a.nproc < 1 := by omega
  refine ⟨st.oblock, ?_, h3, ?_⟩
  · unfold forcepy_pooled_try
    simp only [hshape, hnp, if_false, hdate, pooled_argss, hpx, hres, hst]
  · intro k yi xi hk hy hx
    have hq := pixel_lt nY nX yi xi hy hx
    obtain ⟨r, hr, hw⟩ := hresq (yi * nX + xi) hq
    obtain ⟨hy2, hx2⟩ := position_inj nX yi xi _ hx rfl
    rw [← hy2, ← hx2] at hw
    refine ⟨r, hw, ?_⟩
    obtain ⟨h1, hcan⟩ := forcepy_wrapper_is1 _ r hw
    have hkr : k < r.data.length := by
      rw [h1.2.2]; exact hk
    have := hcan r.data[k] (List.getElem_mem hkr)
    rw [h1.1] at this
    simp only [NdArray.get3, h3.2.1, hval k yi xi hk hy hx, hr]
    simp [List.getElem?_eq_getElem hkr, this]

/-- Assignments done one list after the other. -/
theorem apply_writes3_append :
    ∀ (l1 l2 : List ((Nat × Nat × Nat) × Int)) (a : NdArray Int),
      apply_writes3 a (l1 ++ l2) = (apply_writes3 a l1).bind (fun a1 => apply_writes3 a1 l2) := by
  intro l1
  induction l1 with
  | nil => intro l2 a; rfl
  | cons w l1 ih =>
    intro l2 a
    obtain ⟨⟨k, y, x⟩, v⟩ := w
    simp only [List.cons_append, apply_writes3]
    cases setitem3 a k y x v with
    | none => rfl
    | some a1 => exact ih l2 a1

/-- The column view of a freshly filled block is a freshly filled vector. -/
theorem getcol_np_full (n nY nX y x : Nat) (v : Int) (d : DType) (hy : y < nY) (hx : x < nX) :
    getcol (np_full [n, nY, nX] v d) y x = np_full [n] v d := by
  simp only [getcol, np_full, List.prod_cons, List.prod_nil, Nat.mul_one]
  congr 1
  apply List.ext_getElem?
  intro k
  by_cases hk : k < n
  · have hlt := idx3_lt n nY nX k y x hk hy hx
    rw [Nat.mul_assoc] at hlt
    simp [hk, List.getD_eq_getElem?_getD, List.getElem?_replicate, hlt]
  · simp [hk, List.getElem?_replicate]
    omega

/-- The column view depends only on the elements of the column. -/
theorem getcol_congr (a b : NdArray Int) (d : DType) (n nY nX y x : Nat)
    (ha : a.is3 d n nY nX) (hb : b.is3 d n nY nX)
    (h : ∀ k, k < n → a.data[(k * nY + y) * nX + x]? = b.data[(k * nY + y) * nX + x]?) :
    getcol a y x = getcol b y x := by
  simp only [getcol, ha.2.1, hb.2.1, ha.1, hb.1]
  congr 1
  apply List.map_congr_left
  intro k hk
  simp only [List.getD_eq_getElem?_getD, h k (List.mem_range.mp hk)]

/-- The column view of a well-formed block is a well-formed vector holding
the elements of the column. -/
theorem getcol_spec (a : NdArray Int) (d : DType) (n nY nX y x : Nat)
    (ha : a.is3 d n nY nX) (hy : y < nY) (hx : x < nX) :
    (getcol a y x).is1 d n ∧
    ∀ k, k < n → (getcol a y x).data[k]? = a.data[(k * nY + y) * nX + x]? := by
  refine ⟨⟨by simp [getcol, ha.2.1, ha.1], by simp [getcol, ha.2.1], by simp [getcol, ha.2.1]⟩, ?_⟩
  intro k hk
  have hlt := idx3_lt n nY nX k y x hk hy hx
  rw [← ha.2.2] at hlt
  simp [getcol, ha.2.1, hk, List.getD_eq_getElem?_getD, List.getElem?_eq_getElem hlt]

/-- Storing into the block at `[k0, y, x]` is storing into its column view at
`k0`. -/
theorem getcol_set (a : NdArray Int) (d : DType) (n nY nX y x k0 : Nat) (c : Int)
    (ha : a.is3 d n nY nX) (hy : y < nY) (hx : x < nX) (hk0 : k0 < n) :
    getcol { a with data := a.data.set ((k0 * nY + y) * nX + x) c } y x
      = { getcol a y x with data := (getcol a y x).data.set k0 c } := by
  simp only [getcol, ha.2.1]
  congr 1
  apply List.ext_getElem?
  intro j
  by_cases hj : j < n
  · have hlt := idx3_lt n nY nX k0 y x hk0 hy hx
    rw [← ha.2.2] at hlt
    by_cases hjk : j = k0
    · subst hjk
      simp [hj, List.getD_eq_getElem?_getD, List.getElem?_set_self, hlt]
    · have hne : (k0 * nY + y) * nX + x ≠ (j * nY + y) * nX + x := fun h =>
        hjk (idx3_inj nY nX k0 y x j y x hy hx hy hx h).1.symm
      have hne2 : k0 ≠ j := fun h => hjk h.symm
      simp [hj, List.getD_eq_getElem?_getD, List.getElem?_set_ne hne, List.getElem?_set_ne hne2]
  · have hj2 : n ≤ j := by omega
    rw [List.getElem?_eq_none (by simp [hj2]), List.getElem?_eq_none (by simp [hj2])]

/-- The assignments of a pixel function done through the view of column
`(y, x)` have on that column the effect they have on a copy of it, and no
effect elsewhere; they raise where those on the copy raise. -/
theorem column_writes (d : DType) (n nY nX y x : Nat) (hy : y < nY) (hx : x < nX) :
    ∀ (ws : List (Nat × Int)) (a : NdArray Int), a.is3 d n nY nX →
      (∀ r, apply_writes1 (getcol a y x) ws = some r →
        ∃ a1, apply_writes3 a (ws.map fun w => ((w.1, y, x), w.2)) = some a1 ∧
          a1.is3 d n nY nX ∧
          (∀ k, k < n → a1.data[(k * nY + y) * nX + x]? = r.data[k]?) ∧
          (∀ i, (∀ k, k < n → i ≠ (k * nY + y) * nX + x) → a1.data[i]? = a.data[i]?)) ∧
      (apply_writes1 (getcol a y x) ws = none →
        apply_writes3 a (ws.map fun w => ((w.1, y, x), w.2)) = none) := by
  intro ws
  induction ws with
  | nil =>
    intro a ha
    refine ⟨?_, fun h => by simp [apply_writes1] at h⟩
    intro r hr
    simp only [apply_writes1, Option.some.injEq] at hr
    subst hr
    exact ⟨a, rfl, ha, fun k hk => ((getcol_spec a d n nY nX y x ha hy hx).2 k hk).symm,
      fun _ _ => rfl⟩
  | cons w ws ih =>
    intro a ha
    obtain ⟨k0, v⟩ := w
    have hcol := (getcol_spec a d n nY nX y x ha hy hx).1
    simp only [apply_writes1, List.map_cons, apply_writes3, setitem1_spec _ d n k0 v hcol]
    by_cases hk0 : k0 < n
    · obtain ⟨hset, ha1⟩ := setitem3_spec a d n nY nX k0 y x v ha hk0 hy hx
      simp only [hk0, if_true, hset]
      rw [← getcol_set a d n nY nX y x k0 (d.cast v) ha hy hx hk0]
      obtain ⟨ih1, ih2⟩ := ih _ ha1
      refine ⟨?_, ih2⟩
      intro r hr
      obtain ⟨a1, h1, h2, h3, h4⟩ := ih1 r hr
      refine ⟨a1, h1, h2, h3, ?_⟩
      intro i hi
      rw [h4 i hi]
      simp only
      rw [List.getElem?_set_ne (fun h => hi k0 hk0 h.symm)]
    · have hs3 : setitem3 a k0 y x v = none := by
        unfold setitem3
        simp [ha.2.1, hk0]
      simp [hk0, hs3]

/-- Two well-formed blocks with the same elements are the same. -/
theorem is3_ext (a b : NdArray Int) (d : DType) (n nY nX : Nat)
    (ha : a.is3 d n nY nX) (hb : b.is3 d n nY nX)
    (h : ∀ k y x, k < n → y < nY → x < nX →
      a.data[(k * nY + y) * nX + x]? = b.data[(k * nY + y) * nX + x]?) : a = b := by
  obtain ⟨ad, ash, adata⟩ := a
  obtain ⟨bd, bsh, bdata⟩ := b
  obtain ⟨ha1, ha2, ha3⟩ := ha
  obtain ⟨hb1, hb2, hb3⟩ := hb
  simp only at ha1 ha2 ha3 hb1 hb2 hb3 h
  subst ha1 hb1 ha2
  simp only [NdArray.mk.injEq, true_and]
  refine ⟨hb2.symm, ?_⟩
  apply List.ext_getElem?
  intro i
  by_cases hi : i < n * nY * nX
  · obtain ⟨hr, hx, hix⟩ := pixel_of_position (n * nY) nX i hi
    obtain ⟨hk, hy, hiy⟩ := pixel_of_position n nY (i / nX) hr
    have := h (i / nX / nY) (i / nX % nY) (i % nX) hk hy hx
    rw [hiy, hix] at this
    exact this
  · rw [List.getElem?_eq_none (by omega), List.getElem?_eq_none (by omega)]

/-- The assignments of all pixels below position `m`, done pixel after
pixel through the column views of a block whose columns all start out equal
to `b0`: either a pixel below `m` raises on a copy of `b0` and the whole
raises, or every pixel below `m` succeeds on a copy of `b0`, its column holds
that result, and the columns from `m` on are untouched. -/
theorem apply_pixels (d : DType) (n nY nX : Nat) (ws : Nat → List (Nat × Int))
    (b0 a0 : NdArray Int) (ha0 : a0.is3 d n nY nX)
    (hcol0 : ∀ y x, y < nY → x < nX → getcol a0 y x = b0) :
    ∀ m, m ≤ nY * nX →
      (apply_writes3 a0
          (((List.range m).map fun q => (ws q).map fun w => ((w.1, q / nX, q % nX), w.2)).flatten)
          = none ∧ ∃ q, q < m ∧ apply_writes1 b0 (ws q) = none) ∨
      (∃ a1, apply_writes3 a0
          (((List.range m).map fun q => (ws q).map fun w => ((w.1, q / nX, q % nX), w.2)).flatten)
          = some a1 ∧ a1.is3 d n nY nX ∧
        (∀ q, q < m → ∃ r, apply_writes1 b0 (ws q) = some r ∧
          ∀ k, k < n → a1.data[(k * nY + q / nX) * nX + q % nX]? = r.data[k]?) ∧
        (∀ q, m ≤ q → q < nY * nX → ∀ k, k < n →
          a1.data[(k * nY + q / nX) * nX + q % nX]?
            = a0.data[(k * nY + q / nX) * nX + q % nX]?)) := by
  intro m
  induction m with
  | zero =>
    intro _
    right
    exact ⟨a0, by simp [apply_writes3], ha0, fun q hq => absurd hq (Nat.not_lt_zero q),
      fun _ _ _ _ _ => rfl⟩
  | succ m ih =>
    intro hm
    have hmN : m < nY * nX := by omega
    obtain ⟨hym, hxm, hmm⟩ := pixel_of_position nY nX m hmN
    rw [List.range_succ, List.map_append, List.flatten_append, apply_writes3_append]
    simp only [List.map_cons, List.map_nil, List.flatten_cons, List.flatten_nil,
      List.append_nil]
    rcases ih (by omega) with ⟨hnone, q, hq, hfail⟩ | ⟨a1, hsome, h3, hdone, hrest⟩
    · left
      exact ⟨by rw [hnone]; rfl, q, by omega, hfail⟩
    · rw [hsome]
      show _ ∨ _
      have hbind : ∀ l, (some a1).bind (fun a2 => apply_writes3 a2 l) = apply_writes3 a1 l :=
        fun _ => rfl
      rw [hbind]
      have hcol : getcol a1 (m / nX) (m % nX) = b0 := by
        rw [← hcol0 _ _ hym hxm]
        exact getcol_congr a1 a0 d n nY nX _ _ h3 ha0
          (fun k hk => hrest m (Nat.le_refl m) hmN k hk)
      obtain ⟨hok, hbad⟩ := column_writes d n nY nX (m / nX) (m % nX) hym hxm (ws m) a1 h3
      rw [hcol] at hok hbad
      cases hw : apply_writes1 b0 (ws m) with
      | none =>
        left
        exact ⟨hbad hw, m, by omega, hw⟩
      | some r =>
        right
        obtain ⟨a2, h2, h23, hval, hother⟩ := hok r hw
        refine ⟨a2, h2, h23, ?_, ?_⟩
        · intro q hq
          by_cases hqm : q = m
          · subst hqm
            exact ⟨r, hw, hval⟩
          · obtain ⟨r1, hr1, hv1⟩ := hdone q (by omega)
            refine ⟨r1, hr1, fun k hk => ?_⟩
            have hqN : q < nY * nX := by omega
            obtain ⟨hyq, hxq, hqq⟩ := pixel_of_position nY nX q hqN
            rw [hother _ (by
              intro k1 _ h
              obtain ⟨_, hy2, hx2⟩ :=
                idx3_inj nY nX k (q / nX) (q % nX) k1 (m / nX) (m % nX) hyq hxq hym hxm h
              apply hqm
              rw [← hqq, ← hmm, hy2, hx2])]
            exact hv1 k hk
        · intro q hq hqN k hk
          obtain ⟨hyq, hxq, hqq⟩ := pixel_of_position nY nX q hqN
          rw [hother _ (by
            intro k1 _ h
            obtain ⟨_, hy2, hx2⟩ :=
              idx3_inj nY nX k (q / nX) (q % nX) k1 (m / nX) (m % nX) hyq hxq hym hxm h
            have : q = m := by rw [← hqq, ← hmm, hy2, hx2]
            omega)]
          exact hrest q (by omega) hqN k hk

/-- `pool.map` over tasks that all return is the list of their results. -/
theorem pool_map_eq_map {α β : Type} (func : α → Option β) (g : α → β) :
    ∀ (l : List α), (∀ x ∈ l, func x = some (g x)) → pool_map func l = some (l.map g) := by
  intro l
  induction l with
  | nil => intro _; rfl
  | cons a rest ih =>
    intro h
    simp only [pool_map, h a (List.mem_cons_self _ _),
      ih (fun x hx => h x (List.mem_cons_of_mem _ hx)), List.map_cons]

/-- For a pixel function `px`, the pooled trampoline and the whole-block
trampoline with the block function that applies `px` to every pixel give back
the same value. -/
theorem forcepy_pooled_eq_block (env : PyEnv) (g : Globals) (a : ForcepyArgs)
    (nD nB nY nX : Nat) (px : PixelFn)
    (hshape : a.iblock.shape = [nD, nB, nY, nX]) (hproc : 1 ≤ a.nproc)
    (hpx : g.forcepy_pixel = some px) :
    forcepy_pooled env g a
      = forcepy_block env { g with forcepy_block := some (block_of_pixel px) } a := by
  have hnp : ¬ a.nproc < 1 := by omega
  suffices htry : forcepy_pooled_try env g a
      = forcepy_block_try env { g with forcepy_block := some (block_of_pixel px) } a by
    unfold forcepy_pooled forcepy_block
    rw [htry]
  cases hdate : env.date2epoch a.year a.month a.day with
  | none =>
    unfold forcepy_pooled_try forcepy_block_try
    simp only [hshape, hnp, if_false, hdate]
  | some date =>
    have hA0 := np_full_is3 a.nband nY nX a.nodata DType.int16
    obtain ⟨W, hWdef⟩ : ∃ W : Nat → Option (List (Nat × Int)), ∀ q, W q =
        px { inarray := slice4 a.iblock (q / nX) (q / nX + 1) (q % nX) (q % nX + 1),
             outarray := np_full [a.nband] a.nodata DType.int16, date := date,
             sensor := a.sensor, bandname := a.bandname, nodata := a.nodata, nproc := 1 } :=
      ⟨_, fun _ => rfl⟩
    have hwrap : ∀ q, forcepy_wrapper (pooled_task px a date (q / nX) (q % nX))
        = match W q with
          | none => none
          | some ws => apply_writes1 (np_full [a.nband] a.nodata DType.int16) ws := by
      intro q
      rw [hWdef q]
      rfl
    have hpw : ∀ q, q < nY * nX →
        pixel_writes px
          { iblock := a.iblock, oblock := np_full [a.nband, nY, nX] a.nodata DType.int16,
            date := date, sensor := a.sensor, bandname := a.bandname, nodata := a.nodata,
            nproc := a.nproc } nX q
        = match W q with
          | none => none
          | some ws => some (ws.map fun w => ((w.1, q / nX, q % nX), w.2)) := by
      intro q hq
      obtain ⟨hy, hx, _⟩ := pixel_of_position nY nX q hq
      rw [hWdef q]
      simp only [pixel_writes, getcol_np_full a.nband nY nX _ _ a.nodata DType.int16 hy hx]
    have hblock : forcepy_block_try env { g with forcepy_block := some (block_of_pixel px) } a
        = match pool_map (pixel_writes px
            { iblock := a.iblock, oblock := np_full [a.nband, nY, nX] a.nodata DType.int16,
              date := date, sensor := a.sensor, bandname := a.bandname, nodata := a.nodata,
              nproc := a.nproc } nX) (List.range (nY * nX)) with
          | none => none
          | some wss =>
            apply_writes3 (np_full [a.nband, nY, nX] a.nodata DType.int16) wss.flatten := by
      unfold forcepy_block_try
      simp only [hshape, hdate, block_of_pixel]
      cases pool_map (pixel_writes px
            { iblock := a.iblock, oblock := np_full [a.nband, nY, nX] a.nodata DType.int16,
              date := date, sensor := a.sensor, bandname := a.bandname, nodata := a.nodata,
              nproc := a.nproc } nX) (List.range (nY * nX)) <;> rfl
    have hpooled_none : ∀ q, q < nY * nX →
        forcepy_wrapper (pooled_task px a date (q / nX) (q % nX)) = none →
        forcepy_pooled_try env g a = none := by
      intro q hq hnone
      unfold forcepy_pooled_try
      simp only [hshape, hnp, if_false, hdate, pooled_argss, hpx]
      rw [pool_map_none forcepy_wrapper _ (pooled_task px a date (q / nX) (q % nX)) (by
        rw [pooled_tasks_eq]
        exact List.mem_map.mpr ⟨q, List.mem_range.mpr hq, rfl⟩) hnone]
    rw [hblock]
    by_cases hW : ∀ q, q < nY * nX → ∃ ws, W q = some ws
    · choose! wsf hwsf using hW
      rw [pool_map_eq_map _ (fun q => (wsf q).map fun w => ((w.1, q / nX, q % nX), w.2)) _ (by
        intro q hq
        have hq := List.mem_range.mp hq
        rw [hpw q hq, hwsf q hq])]
      simp only
      rcases apply_pixels DType.int16 a.nband nY nX wsf
          (np_full [a.nband] a.nodata DType.int16)
          (np_full [a.nband, nY, nX] a.nodata DType.int16) hA0
          (fun y x hy hx => getcol_np_full a.nband nY nX y x a.nodata DType.int16 hy hx)
          (nY * nX) (Nat.le_refl _) with ⟨hnone, q, hq, hfail⟩ | ⟨a1, hsome, h3, hdone, _⟩
      · rw [hnone]
        exact hpooled_none q hq (by rw [hwrap q, hwsf q hq]; exact hfail)
      · rw [hsome]
        have hwq : ∀ y x, y < nY → x < nX → ∃ r,
            forcepy_wrapper (pooled_task px a date y x) = some r ∧
            ∀ k, k < a.nband → a1.data[(k * nY + y) * nX + x]? = r.data[k]? := by
          intro y x hy hx
          have hq := pixel_lt nY nX y x hy hx
          obtain ⟨r, hr, hv⟩ := hdone _ hq
          obtain ⟨hy2, hx2⟩ := position_inj nX y x _ hx rfl
          have h1 := hwrap (y * nX + x)
          rw [hwsf _ hq] at h1
          simp only [hr] at h1
          rw [← hy2, ← hx2] at h1 hv
          exact ⟨r, h1, hv⟩
        obtain ⟨ob, hob, hob3, hval⟩ := forcepy_pooled_try_spec env g a nD nB nY nX date px
          hshape hproc hdate hpx (fun yi xi hy hx =>
            let ⟨r, hr, _⟩ := hwq yi xi hy hx
            ⟨r, hr⟩)
        rw [hob]
        congr 1
        apply is3_ext ob a1 DType.int16 a.nband nY nX hob3 h3
        intro k y x hk hy hx
        obtain ⟨r, hr, hv⟩ := hwq y x hy hx
        obtain ⟨r1, hr1, hv1⟩ := hval k y x hk hy hx
        rw [hr] at hr1
        have hrr : r1 = r := (Option.some.inj hr1).symm
        subst hrr
        rw [hv k hk]
        simpa [NdArray.get3, hob3.2.1] using hv1
    · have hex : ∃ q, q < nY * nX ∧ W q = none := by
        by_contra hne
        apply hW
        intro q hq
        cases hpq : W q with
        | none => exact absurd ⟨q, hq, hpq⟩ hne
        | some ws => exact ⟨ws, rfl⟩
      obtain ⟨q, hq, hnone⟩ := hex
      rw [pool_map_none _ _ q (List.mem_range.mpr hq) (by rw [hpw q hq, hnone])]
      exact hpooled_none q hq (by rw [hwrap q, hnone])

/-- C10. In the pooled trampoline, for a block of spatial extent `nY x nX`:
the task list holds exactly one task per pixel, the task of pixel `(yi, xi)`
at position `yi*nX + xi` with the slice `iblock[:, :, yi:yi+1, xi:xi+1]`; if
every task returns, the trampoline gives back a 16-bit block of shape
`(nband, nY, nX)` whose column `(yi, xi)` is the vector that `forcepy_wrapper`
produced for that pixel (the pool map keeps the order of the tasks); and for
every pixel function the pooled trampoline gives back the same value as the
whole-block trampoline with the block function that applies the pixel
function to every pixel. -/
theorem pooled_reassembly (env : PyEnv) (g : Globals) (a : ForcepyArgs)
    (nD nB nY nX : Nat) (date : List Int) (px : PixelFn)
    (hshape : a.iblock.shape = [nD, nB, nY, nX]) (hproc : 1 ≤ a.nproc)
    (hdate : env.date2epoch a.year a.month a.day = some date)
    (hpx : g.forcepy_pixel = some px) :
    ((pooled_tasks px a date nY nX).length = nY * nX ∧
      ∀ yi xi, yi < nY → xi < nX →
        (pooled_tasks px a date nY nX)[yi * nX + xi]? = some (pooled_task px a date yi xi) ∧
        (pooled_task px a date yi xi).inarray = slice4 a.iblock yi (yi + 1) xi (xi + 1)) ∧
    ((∀ yi xi, yi < nY → xi < nX →
        ∃ r, forcepy_wrapper (pooled_task px a date yi xi) = some r) →
      ∃ ob, forcepy_pooled env g a = some (PyObject.ndarray ob) ∧
        ob.is3 DType.int16 a.nband nY nX ∧
        ∀ k yi xi, k < a.nband → yi < nY → xi < nX →
          ∃ r, forcepy_wrapper (pooled_task px a date yi xi) = some r ∧
            ob.get3 k yi xi = r.data[k]?) ∧
    forcepy_pooled env g a
      = forcepy_block env { g with forcepy_block := some (block_of_pixel px) } a := by
  refine ⟨⟨by simp [pooled_tasks_eq], ?_⟩, ?_,
    forcepy_pooled_eq_block env g a nD nB nY nX px hshape hproc hpx⟩
  · intro yi xi hy hx
    have hq := pixel_lt nY nX yi xi hy hx
    obtain ⟨hy2, hx2⟩ := position_inj nX yi xi _ hx rfl
    refine ⟨?_, rfl⟩
    rw [pooled_tasks_eq]
    simp only [List.getElem?_map, List.getElem?_range hq, Option.map_some', ← hy2, ← hx2]
  · intro hall
    obtain ⟨ob, hob, h3, hval⟩ := forcepy_pooled_try_spec env g a nD nB nY nX date px hshape
      hproc hdate hpx hall
    exact ⟨ob, by simp only [forcepy_pooled, hob], h3, hval⟩

/-- C10 on scenarios A and B: two time steps, two bands, a block of two by
two pixels, nodata -9999. The pooled trampoline with the pixel function that
copies band 0 of the first time step into all output bands gives back what
the whole-block trampoline gives back, both with that pixel function applied
to every pixel and with the block function of scenario A: every output band
holds the values of the first band of the first time step. -/
theorem pooled_reassembly_witness :
    forcepy_pooled env_plain globals_scenario args_scenario
      = forcepy_block env_plain
          { globals_scenario with forcepy_block := some (block_of_pixel copy_first_pixel) }
          args_scenario ∧
    forcepy_pooled env_plain globals_scenario args_scenario
      = forcepy_block env_plain globals_scenario args_scenario ∧
    forcepy_pooled env_plain globals_scenario args_scenario
      = some (PyObject.ndarray { dtype := DType.int16, shape := [2, 2, 2],
                                 data := [11, 12, 13, 14, 11, 12, 13, 14] }) :=
  ⟨(pooled_reassembly env_plain globals_scenario args_scenario 2 2 2 2 [0, 0]
      copy_first_pixel rfl (by decide) rfl rfl).2.2, rfl, rfl⟩

/-! ## C3: the default fill -/

/-- The statements of the just-in-time trampoline create the result block
without an element type: run on a block of one by two pixels with a pixel
function that assigns nothing, they would give back a block of platform
integers. They do not run: the call of the trampoline raises before. -/
theorem forcepy_jit_body_element_type :
    forcepy_jit_body env_plain
        { Globals.empty with forcepy_pixel := some (fun _ => some []) } args_one_step
      = some (PyObject.ndarray { dtype := DType.int64, shape := [1, 1, 2],
                                 data := [-9999, -9999] }) ∧
    forcepy_jit env_plain
        { Globals.empty with forcepy_pixel := some (fun _ => some []) } args_one_step
      = none :=
  ⟨rfl, rfl⟩

/-- The just-in-time trampoline raises at every call, whatever the script
defines. -/
theorem forcepy_jit_raises (env : PyEnv) (g : Globals) (a : ForcepyArgs) :
    forcepy_jit env g a = none := rfl

/-- C3 at a failing input. A block of one by two pixels, one time step, one
band, one output band, nodata -9999, output band `{0, 0}` before the call.

Whole-block mode, with a block function that raises before it assigns
anything: the trampoline catches the exception and gives back `None`;
`python_plugin` tests the result against NULL only, takes the array data
pointer of `None` and copies from there. The behaviour is not defined, so the
elements that the user function did not write are not guaranteed to be nodata.
The pooled mode does the same with a pixel function that raises.

Just-in-time mode, with a pixel function that assigns nothing: the call of
the trampoline raises, `python_plugin` sees NULL and ends the process with its
diagnostic; the output band is still `{0, 0}`, no element of it is nodata. -/
theorem default_fill_failing_input :
    installed_trampoline (register_python phl_block Globals.empty).g
      = some Trampoline.block ∧
    (python_plugin env_raising (register_python phl_block Globals.empty).g ard_one_step
        plg_one_band ts_unconfigured [] Submodule._HL_PLG_ "" 2 1 2 1 1 (-9999) udf_block
        1).py_return = some PyObject.None ∧
    (python_plugin env_raising (register_python phl_block Globals.empty).g ard_one_step
        plg_one_band ts_unconfigured [] Submodule._HL_PLG_ "" 2 1 2 1 1 (-9999) udf_block
        1).outcome = Outcome.undefined Undef.not_an_array ∧
    installed_trampoline (register_python phl_pooled Globals.empty).g
      = some Trampoline.pooled ∧
    (python_plugin env_raising (register_python phl_pooled Globals.empty).g ard_one_step
        plg_one_band ts_unconfigured [] Submodule._HL_PLG_ "" 2 1 2 1 1 (-9999)
        { udf_jit with justintime := false } 1).py_return = some PyObject.None ∧
    (python_plugin env_raising (register_python phl_pooled Globals.empty).g ard_one_step
        plg_one_band ts_unconfigured [] Submodule._HL_PLG_ "" 2 1 2 1 1 (-9999)
        { udf_jit with justintime := false } 1).outcome
      = Outcome.undefined Undef.not_an_array ∧
    installed_trampoline (register_python phl_jit Globals.empty).g = some Trampoline.jit ∧
    (python_plugin env_idle_pixel (register_python phl_jit Globals.empty).g ard_one_step
        plg_one_band ts_unconfigured [] Submodule._HL_PLG_ "" 2 1 2 1 1 (-9999) udf_jit
        1).py_return = none ∧
    (python_plugin env_idle_pixel (register_python phl_jit Globals.empty).g ard_one_step
        plg_one_band ts_unconfigured [] Submodule._HL_PLG_ "" 2 1 2 1 1 (-9999) udf_jit
        1).outcome = Outcome.fatal Diag.null_from_python ∧
    (python_plugin env_idle_pixel (register_python phl_jit Globals.empty).g ard_one_step
        plg_one_band ts_unconfigured [] Submodule._HL_PLG_ "" 2 1 2 1 1 (-9999) udf_jit
        1).plg.pyp_ = some [[0, 0]] :=
  ⟨by decide, rfl, by decide, by decide, rfl, by decide, by decide, rfl, by decide, by decide⟩

/-! ## The default fill in pooled and whole-block mode -/

/-- A value in the range of `short` is stored unchanged in a 16-bit array. -/
theorem cast_int16_of_short (v : Int) (h1 : -32768 ≤ v) (h2 : v < 32768) :
    DType.int16.cast v = v := by
  simp only [DType.cast, wrap_signed]
  norm_num
  omega

/-- An element of `outarray` that the pixel function does not assign keeps its
value. -/
theorem apply_writes1_untouched (d : DType) (n k : Nat) :
    ∀ (ws : List (Nat × Int)) (a r : NdArray Int), a.is1 d n →
      apply_writes1 a ws = some r → (∀ w ∈ ws, w.1 ≠ k) → r.data[k]? = a.data[k]? := by
  intro ws
  induction ws with
  | nil =>
    intro a r _ h _
    simp only [apply_writes1, Option.some.injEq] at h
    rw [h]
  | cons w ws ih =>
    intro a r ha h hk
    obtain ⟨k0, v⟩ := w
    simp only [apply_writes1, setitem1_spec a d n k0 v ha] at h
    by_cases hk0 : k0 < n
    · simp only [hk0, if_true] at h
      rw [ih _ r (set_is1 a d n k0 _ ha) h (fun w hw => hk w (List.mem_cons_of_mem _ hw))]
      simp only
      rw [List.getElem?_set_ne (hk (k0, v) (List.mem_cons_self _ _))]
    · simp only [hk0, if_false] at h
      cases h

/-- An element of `oblock` that the block function does not assign keeps its
value. -/
theorem apply_writes3_untouched (d : DType) (n nY nX k y x : Nat) (hy : y < nY)
    (hx : x < nX) :
    ∀ (ws : List ((Nat × Nat × Nat) × Int)) (a r : NdArray Int), a.is3 d n nY nX →
      apply_writes3 a ws = some r → (∀ w ∈ ws, w.1 ≠ (k, y, x)) →
      r.is3 d n nY nX ∧
      r.data[(k * nY + y) * nX + x]? = a.data[(k * nY + y) * nX + x]? := by
  intro ws
  induction ws with
  | nil =>
    intro a r ha h _
    simp only [apply_writes3, Option.some.injEq] at h
    subst h
    exact ⟨ha, rfl⟩
  | cons w ws ih =>
    intro a r ha h hk
    obtain ⟨⟨k0, y0, x0⟩, v⟩ := w
    simp only [apply_writes3] at h
    by_cases hin : k0 < n ∧ y0 < nY ∧ x0 < nX
    · obtain ⟨hset, ha1⟩ := setitem3_spec a d n nY nX k0 y0 x0 v ha hin.1 hin.2.1 hin.2.2
      rw [hset] at h
      obtain ⟨hr, hv⟩ := ih _ r ha1 h (fun w hw => hk w (List.mem_cons_of_mem _ hw))
      refine ⟨hr, ?_⟩
      rw [hv]
      simp only
      rw [List.getElem?_set_ne (by
        intro heq
        obtain ⟨h1, h2, h3⟩ := idx3_inj nY nX k0 y0 x0 k y x hin.2.1 hin.2.2 hy hx heq
        exact hk ((k0, y0, x0), v) (List.mem_cons_self _ _) (by simp [h1, h2, h3]))]
    · have hs3 : setitem3 a k0 y0 x0 v = none := by
        unfold setitem3
        simp only [ha.2.1, hin, if_false]
      rw [hs3] at h
      cases h

/-- The assignments of a block function keep `oblock` well formed. -/
theorem apply_writes3_is3 (d : DType) (n nY nX : Nat) :
    ∀ (ws : List ((Nat × Nat × Nat) × Int)) (a r : NdArray Int), a.is3 d n nY nX →
      apply_writes3 a ws = some r → r.is3 d n nY nX := by
  intro ws
  induction ws with
  | nil =>
    intro a r ha h
    simp only [apply_writes3, Option.some.injEq] at h
    subst h
    exact ha
  | cons w ws ih =>
    intro a r ha h
    obtain ⟨⟨k0, y0, x0⟩, v⟩ := w
    simp only [apply_writes3] at h
    by_cases hin : k0 < n ∧ y0 < nY ∧ x0 < nX
    · obtain ⟨hset, ha1⟩ := setitem3_spec a d n nY nX k0 y0 x0 v ha hin.1 hin.2.1 hin.2.2
      rw [hset] at h
      exact ih _ r ha1 h
    · have hs3 : setitem3 a k0 y0 x0 v = none := by
        unfold setitem3
        simp only [ha.2.1, hin, if_false]
      rw [hs3] at h
      cases h

/-- The default fill in pooled and in whole-block mode, for a nodata value in
the range of `short`. Pooled: when every task returns, an output band `k` of
pixel `(yi, xi)` that the pixel function did not assign for that pixel holds
nodata in the result block. Whole-block: when the trampoline gives back a
block, an element `(k, y, x)` that the block function did not assign holds
nodata. In both modes the block has 16-bit elements and shape
`(nband, nY, nX)`. -/
theorem default_fill_pooled_block (env : PyEnv) (g : Globals) (a : ForcepyArgs)
    (nD nB nY nX : Nat) (date : List Int)
    (hshape : a.iblock.shape = [nD, nB, nY, nX])
    (hdate : env.date2epoch a.year a.month a.day = some date)
    (hlo : -32768 ≤ a.nodata) (hhi : a.nodata < 32768) :
    (∀ px, g.forcepy_pixel = some px → 1 ≤ a.nproc →
      (∀ yi xi, yi < nY → xi < nX →
        ∃ r, forcepy_wrapper (pooled_task px a date yi xi) = some r) →
      ∃ ob, forcepy_pooled env g a = some (PyObject.ndarray ob) ∧
        ob.is3 DType.int16 a.nband nY nX ∧
        ∀ k yi xi ws, k < a.nband → yi < nY → xi < nX →
          px { inarray := slice4 a.iblock yi (yi + 1) xi (xi + 1),
               outarray := np_full [a.nband] a.nodata DType.int16, date := date,
               sensor := a.sensor, bandname := a.bandname, nodata := a.nodata, nproc := 1 }
            = some ws →
          (∀ w ∈ ws, w.1 ≠ k) → ob.get3 k yi xi = some a.nodata) ∧
    (∀ fb ws ob, g.forcepy_block = some fb →
      fb { iblock := a.iblock, oblock := np_full [a.nband, nY, nX] a.nodata DType.int16,
           date := date, sensor := a.sensor, bandname := a.bandname, nodata := a.nodata,
           nproc := a.nproc } = some ws →
      forcepy_block env g a = some (PyObject.ndarray ob) →
      ob.is3 DType.int16 a.nband nY nX ∧
      ∀ k y x, k < a.nband → y < nY → x < nX →
        (∀ w ∈ ws, w.1 ≠ (k, y, x)) → ob.get3 k y x = some a.nodata) := by
  have hfill := cast_int16_of_short a.nodata hlo hhi
  refine ⟨?_, ?_⟩
  · intro px hpx hproc hall
    obtain ⟨ob, hob, h3, hval⟩ := forcepy_pooled_try_spec env g a nD nB nY nX date px hshape
      hproc hdate hpx hall
    refine ⟨ob, by simp only [forcepy_pooled, hob], h3, ?_⟩
    intro k yi xi ws hk hy hx hws hnot
    obtain ⟨r, hr, hv⟩ := hval k yi xi hk hy hx
    have hr2 : apply_writes1 (np_full [a.nband] a.nodata DType.int16) ws = some r := by
      have h1 : forcepy_wrapper (pooled_task px a date yi xi)
          = match px { inarray := slice4 a.iblock yi (yi + 1) xi (xi + 1),
                       outarray := np_full [a.nband] a.nodata DType.int16, date := date,
                       sensor := a.sensor, bandname := a.bandname, nodata := a.nodata,
                       nproc := 1 } with
            | none => none
            | some ws => apply_writes1 (np_full [a.nband] a.nodata DType.int16) ws := rfl
      rw [h1, hws] at hr
      exact hr
    rw [hv, apply_writes1_untouched DType.int16 a.nband k ws _ r (np_full_is1 _ _ _) hr2 hnot]
    simp [np_full, List.getElem?_replicate, hk, hfill]
  · intro fb ws ob hfb hws hret
    have htry : forcepy_block_try env g a = some ob := by
      unfold forcepy_block at hret
      cases h : forcepy_block_try env g a with
      | none => rw [h] at hret; cases hret
      | some ob1 =>
        rw [h] at hret
        simp only [Option.some.injEq, PyObject.ndarray.injEq] at hret
        rw [hret]
    unfold forcepy_block_try at htry
    simp only [hshape, hdate, hfb, hws] at htry
    have hA0 := np_full_is3 a.nband nY nX a.nodata DType.int16
    refine ⟨apply_writes3_is3 DType.int16 a.nband nY nX ws _ ob hA0 htry, ?_⟩
    intro k y x hk hy hx hnot
    obtain ⟨h3, hv⟩ := apply_writes3_untouched DType.int16 a.nband nY nX k y x hy hx ws _ ob
      hA0 htry hnot
    have hlt := idx3_lt a.nband nY nX k y x hk hy hx
    rw [Nat.mul_assoc] at hlt
    simp only [NdArray.get3, h3.2.1, hv]
    simp [np_full, List.getElem?_replicate, hlt, hfill]


end Force
